import Mathlib

/-!
# NRD sample: texture-state tracking and barrier planning

A shallow embedding of the resource-state bookkeeping of `Source/NRDSample.cpp`:
the per-texture state table `m_TextureStates`, `TextureBarrierFromState`,
`Sample::BuildOptimizedTransitions`, the state read-back of `Sample::Denoise`,
the ping/pong selections and the requirement lists of `Sample::RenderFrame`,
its barriers for the swap-chain texture, the frame pacing of
`Sample::LatencySleep`, and the history reset and accumulation budget computed
by `Sample::PrepareFrame`.

Conventions of the embedding
* `nri::AccessBits` and `nri::Layout` are declared in the NRI headers, which the
  sample only includes.  The members the sample names are constructors here and
  `other` stands for every remaining bit pattern, so no numeric value is assumed.
* `nri::StageBits` is treated the same way; `StageBits.DEFAULT` is the value of
  a value-initialised field (an `AccessLayoutStage` built from access and layout
  only).
* `Texture` (an `enum class : uint32_t` that the sample also produces by casts
  from integers) is the natural number of the enumerator.
* Indexing a `std::vector` or `std::array` outside its bounds, and following an
  invalid pointer, has no defined result: the embedded function returns `none`.
-/

namespace NRDSample

/-! ## Data model -/

/-- Access bits of NRI, as far as the sample names them. -/
inductive AccessBits where
  | NONE
  | SHADER_RESOURCE
  | SHADER_RESOURCE_STORAGE
  | COPY_SOURCE
  | COPY_DESTINATION
  | COLOR_ATTACHMENT
  | ACCELERATION_STRUCTURE_READ
  | ACCELERATION_STRUCTURE_WRITE
  | other (bits : Nat)
  deriving DecidableEq, Repr

/-- Texture layouts of NRI, as far as the sample names them. -/
inductive Layout where
  | UNDEFINED
  | SHADER_RESOURCE
  | SHADER_RESOURCE_STORAGE
  | COPY_SOURCE
  | COPY_DESTINATION
  | COLOR_ATTACHMENT
  | PRESENT
  | other (value : Nat)
  deriving DecidableEq, Repr

/-- Pipeline stage bits of NRI, as far as the sample names them. `DEFAULT` is
the value with no bit set, which a value-initialised field carries. -/
inductive StageBits where
  | DEFAULT
  | NONE
  | COMPUTE_SHADER
  | COPY
  | COLOR_ATTACHMENT
  | ACCELERATION_STRUCTURE
  | other (bits : Nat)
  deriving DecidableEq, Repr

/-- The triple `nri::AccessLayoutStage`. -/
structure AccessLayoutStage where
  access : AccessBits
  layout : Layout
  stages : StageBits
  deriving DecidableEq, Repr

/-- Handle of a native texture (`nri::Texture*`); `0` is the null pointer. -/
abbrev TextureHandle := Nat

/-- The fields of `nri::TextureBarrierDesc` the sample reads or writes. -/
structure TextureBarrierDesc where
  texture : TextureHandle
  before : AccessLayoutStage
  after : AccessLayoutStage
  deriving DecidableEq, Repr

/-- Enumerator value of `enum class Texture : uint32_t`. -/
abbrev Texture := Nat

/-- The requirement record `struct TextureState`. -/
structure TextureState where
  texture : Texture
  after : AccessLayoutStage
  deriving DecidableEq, Repr

/-- Capacity of the `std::array` the barriers are written to. -/
def MAX_TEXTURE_TRANSITIONS_NUM : Nat := 32

/-! ### Enumerators of `Texture` (those declared before the `NRD_MODE` block) -/

def Texture.ViewZ : Texture := 0
def Texture.Mv : Texture := 1
def Texture.Normal_Roughness : Texture := 2
def Texture.PsrThroughput : Texture := 3
def Texture.BaseColor_Metalness : Texture := 4
def Texture.DirectLighting : Texture := 5
def Texture.DirectEmission : Texture := 6
def Texture.Shadow : Texture := 7
def Texture.Diff : Texture := 8
def Texture.Spec : Texture := 9
def Texture.Unfiltered_Penumbra : Texture := 10
def Texture.Unfiltered_Diff : Texture := 11
def Texture.Unfiltered_Spec : Texture := 12
def Texture.Unfiltered_Translucency : Texture := 13
def Texture.Validation : Texture := 14
def Texture.Composed : Texture := 15
def Texture.Gradient_StoredPing : Texture := 16
def Texture.Gradient_StoredPong : Texture := 17
def Texture.Gradient_Ping : Texture := 18
def Texture.Gradient_Pong : Texture := 19
def Texture.ComposedDiff : Texture := 20
def Texture.ComposedSpec_ViewZ : Texture := 21
def Texture.TaaHistoryPing : Texture := 22
def Texture.TaaHistoryPong : Texture := 23
def Texture.DlssOutput : Texture := 24
def Texture.PreFinal : Texture := 25
def Texture.Final : Texture := 26

/-! ## `TextureBarrierFromState` and `BuildOptimizedTransitions` -/

/-- `TextureBarrierFromState`: the record is updated in place (`before` takes the
old `after`, `after` the new state) and the updated record is returned. The
caller holds a reference into the table, so the returned value is also the new
table entry. -/
def TextureBarrierFromState (prevState : TextureBarrierDesc) (after : AccessLayoutStage) :
    TextureBarrierDesc :=
  { prevState with before := prevState.after, after := after }

/-- The local `isStateChanged` of `BuildOptimizedTransitions`. -/
def isStateChanged (transition : TextureBarrierDesc) (state : TextureState) : Bool :=
  transition.after.access != state.after.access || transition.after.layout != state.after.layout

/-- The local `isStorageBarrier` of `BuildOptimizedTransitions`. -/
def isStorageBarrier (transition : TextureBarrierDesc) (state : TextureState) : Bool :=
  transition.after.access == AccessBits.SHADER_RESOURCE_STORAGE
    && state.after.access == AccessBits.SHADER_RESOURCE_STORAGE

/-- What a call leaves behind: the table, the output array and the count `n`. -/
structure Transitions where
  m_TextureStates : List TextureBarrierDesc
  transitions : List TextureBarrierDesc
  n : Nat
  deriving DecidableEq, Repr

/-- The `for` loop of `BuildOptimizedTransitions`, started with write index `n`.
`GetState` indexes the vector `m_TextureStates`; `transitions[n++]` writes the
array of `MAX_TEXTURE_TRANSITIONS_NUM` elements. -/
def BuildOptimizedTransitionsFrom (m_TextureStates transitions : List TextureBarrierDesc)
    (n : Nat) : List TextureState → Option Transitions
  | [] => some ⟨m_TextureStates, transitions, n⟩
  | state :: states =>
    match m_TextureStates[state.texture]? with
    | none => none
    | some transition =>
      if isStateChanged transition state || isStorageBarrier transition state then
        if n < MAX_TEXTURE_TRANSITIONS_NUM then
          let barrier := TextureBarrierFromState transition
            ⟨state.after.access, state.after.layout, StageBits.DEFAULT⟩
          BuildOptimizedTransitionsFrom (m_TextureStates.set state.texture barrier)
            (transitions.set n barrier) (n + 1) states
        else none
      else BuildOptimizedTransitionsFrom m_TextureStates transitions n states

/-- `Sample::BuildOptimizedTransitions(states, stateNum, transitions)`: the loop
run from `n = 0`; `states` has `stateNum` elements. -/
def BuildOptimizedTransitions (m_TextureStates : List TextureBarrierDesc)
    (states : List TextureState) (transitions : List TextureBarrierDesc) : Option Transitions :=
  BuildOptimizedTransitionsFrom m_TextureStates transitions 0 states

/-- The record `BuildOptimizedTransitions` writes for requirement `state` when
the table entry is `transition`: the value of the `TextureBarrierFromState` call. -/
def barrierFor (transition : TextureBarrierDesc) (state : TextureState) : TextureBarrierDesc :=
  TextureBarrierFromState transition ⟨state.after.access, state.after.layout, StageBits.DEFAULT⟩

/-- The barriers a call hands to `CmdBarrier`: `transitions[0..n-1]`. -/
def Transitions.emitted (r : Transitions) : List TextureBarrierDesc :=
  r.transitions.take r.n

/-- Loop state when requirement `i` is reached: the function run on the first
`i` requirements. -/
def reachedAt (m_TextureStates : List TextureBarrierDesc) (states : List TextureState)
    (transitions : List TextureBarrierDesc) (i : Nat) : Option Transitions :=
  BuildOptimizedTransitions m_TextureStates (states.take i) transitions

/-- Table entry of the texture named by requirement `i` at the moment the loop
reaches requirement `i`. -/
def currentAt (m_TextureStates : List TextureBarrierDesc) (states : List TextureState)
    (transitions : List TextureBarrierDesc) (i : Nat) : Option TextureBarrierDesc :=
  match reachedAt m_TextureStates states transitions i, states[i]? with
  | some r, some state => r.m_TextureStates[state.texture]?
  | _, _ => none

/-- Requirement `i` gets a barrier: the count after `i + 1` requirements is one
more than the count after `i` requirements. -/
def emitsAt (m_TextureStates : List TextureBarrierDesc) (states : List TextureState)
    (transitions : List TextureBarrierDesc) (i : Nat) : Bool :=
  match reachedAt m_TextureStates states transitions i,
      reachedAt m_TextureStates states transitions (i + 1) with
  | some r0, some r1 => r1.n == r0.n + 1
  | _, _ => false

/-- An output array of `MAX_TEXTURE_TRANSITIONS_NUM` value-initialised records
(`optimizedTransitions = {}` in `RenderFrame`). -/
def emptyTransitions : List TextureBarrierDesc :=
  List.replicate MAX_TEXTURE_TRANSITIONS_NUM
    ⟨0, ⟨AccessBits.NONE, Layout.UNDEFINED, StageBits.DEFAULT⟩,
      ⟨AccessBits.NONE, Layout.UNDEFINED, StageBits.DEFAULT⟩⟩

/-! ## Texture creation and the initial table -/

/-- Whether the shader include selects `NRD_MODE == SH`; the four SH textures
exist only then, and the enumerators after them shift by four. -/
abbrev NrdModeSH := Bool

def Texture.Unfiltered_DiffSh : Texture := 27
def Texture.Unfiltered_SpecSh : Texture := 28
def Texture.DiffSh : Texture := 29
def Texture.SpecSh : Texture := 30
def Texture.RRGuide_DiffAlbedo (sh : NrdModeSH) : Texture := if sh then 31 else 27
def Texture.RRGuide_SpecAlbedo (sh : NrdModeSH) : Texture := if sh then 32 else 28
def Texture.RRGuide_SpecHitDistance (sh : NrdModeSH) : Texture := if sh then 33 else 29
def Texture.RRGuide_Normal_Roughness (sh : NrdModeSH) : Texture := if sh then 34 else 30
def Texture.BaseReadOnlyTexture (sh : NrdModeSH) : Texture := if sh then 35 else 31

/-- `TextureBarrierFromUnknown`. -/
def TextureBarrierFromUnknown (texture : TextureHandle) (after : AccessLayoutStage) :
    TextureBarrierDesc :=
  ⟨texture, ⟨AccessBits.NONE, Layout.UNDEFINED, StageBits.NONE⟩, after⟩

/-- Layout chosen by `CreateTexture` for the initial access. The source tests
the bits `COPY_SOURCE`, `COPY_DESTINATION`, `SHADER_RESOURCE_STORAGE` in this
order; every call passes a single named flag, for which the bit test is an
equality. -/
def CreateTexture.layout (initialAccess : AccessBits) : Layout :=
  match initialAccess with
  | AccessBits.COPY_SOURCE => Layout.COPY_SOURCE
  | AccessBits.COPY_DESTINATION => Layout.COPY_DESTINATION
  | AccessBits.SHADER_RESOURCE_STORAGE => Layout.SHADER_RESOURCE_STORAGE
  | _ => Layout.SHADER_RESOURCE

/-- The part of `CreateTexture` that records the initial state: nothing when
`initialAccess` is `NONE`, else `GetState(texture) = TextureBarrierFromUnknown(..)`.
`m_Textures` gives the native handle `Get(texture)`. -/
def CreateTexture (m_Textures : Texture → TextureHandle)
    (m_TextureStates : List TextureBarrierDesc) (texture : Texture) (initialAccess : AccessBits) :
    Option (List TextureBarrierDesc) :=
  if initialAccess != AccessBits.NONE then
    if texture < m_TextureStates.length then
      some (m_TextureStates.set texture
        (TextureBarrierFromUnknown (m_Textures texture)
          ⟨initialAccess, CreateTexture.layout initialAccess, StageBits.DEFAULT⟩))
    else none
  else some m_TextureStates

/-- The `CreateTexture` calls of `CreateResourcesAndDescriptors` for the
textures below `BaseReadOnlyTexture`, in source order: texture and initial
access. -/
def createdTextures (sh : NrdModeSH) : List (Texture × AccessBits) :=
  [ (Texture.ViewZ, AccessBits.SHADER_RESOURCE),
    (Texture.Mv, AccessBits.SHADER_RESOURCE),
    (Texture.Normal_Roughness, AccessBits.SHADER_RESOURCE),
    (Texture.PsrThroughput, AccessBits.SHADER_RESOURCE),
    (Texture.BaseColor_Metalness, AccessBits.SHADER_RESOURCE),
    (Texture.DirectLighting, AccessBits.SHADER_RESOURCE),
    (Texture.DirectEmission, AccessBits.SHADER_RESOURCE),
    (Texture.Shadow, AccessBits.SHADER_RESOURCE),
    (Texture.Diff, AccessBits.SHADER_RESOURCE),
    (Texture.Spec, AccessBits.SHADER_RESOURCE),
    (Texture.Unfiltered_Penumbra, AccessBits.SHADER_RESOURCE),
    (Texture.Unfiltered_Diff, AccessBits.SHADER_RESOURCE),
    (Texture.Unfiltered_Spec, AccessBits.SHADER_RESOURCE),
    (Texture.Unfiltered_Translucency, AccessBits.SHADER_RESOURCE),
    (Texture.Validation, AccessBits.SHADER_RESOURCE),
    (Texture.Composed, AccessBits.SHADER_RESOURCE),
    (Texture.Gradient_StoredPing, AccessBits.SHADER_RESOURCE),
    (Texture.Gradient_StoredPong, AccessBits.SHADER_RESOURCE),
    (Texture.Gradient_Ping, AccessBits.SHADER_RESOURCE),
    (Texture.Gradient_Pong, AccessBits.SHADER_RESOURCE),
    (Texture.ComposedDiff, AccessBits.SHADER_RESOURCE_STORAGE),
    (Texture.ComposedSpec_ViewZ, AccessBits.SHADER_RESOURCE_STORAGE),
    (Texture.TaaHistoryPing, AccessBits.SHADER_RESOURCE),
    (Texture.TaaHistoryPong, AccessBits.SHADER_RESOURCE),
    (Texture.DlssOutput, AccessBits.SHADER_RESOURCE),
    (Texture.PreFinal, AccessBits.SHADER_RESOURCE),
    (Texture.Final, AccessBits.COPY_SOURCE) ]
  ++ (if sh then
    [ (Texture.Unfiltered_DiffSh, AccessBits.SHADER_RESOURCE),
      (Texture.Unfiltered_SpecSh, AccessBits.SHADER_RESOURCE),
      (Texture.DiffSh, AccessBits.SHADER_RESOURCE),
      (Texture.SpecSh, AccessBits.SHADER_RESOURCE) ]
    else [])
  ++ [ (Texture.RRGuide_DiffAlbedo sh, AccessBits.SHADER_RESOURCE_STORAGE),
       (Texture.RRGuide_SpecAlbedo sh, AccessBits.SHADER_RESOURCE_STORAGE),
       (Texture.RRGuide_SpecHitDistance sh, AccessBits.SHADER_RESOURCE_STORAGE),
       (Texture.RRGuide_Normal_Roughness sh, AccessBits.SHADER_RESOURCE_STORAGE) ]

/-- Runs a sequence of `CreateTexture` calls on the table. -/
def createTextures (m_Textures : Texture → TextureHandle) :
    List TextureBarrierDesc → List (Texture × AccessBits) → Option (List TextureBarrierDesc)
  | tbl, [] => some tbl
  | tbl, (texture, initialAccess) :: calls =>
    match CreateTexture m_Textures tbl texture initialAccess with
    | none => none
    | some tbl1 => createTextures m_Textures tbl1 calls

/-- The table after `Initialize`: `m_TextureStates.resize(BaseReadOnlyTexture)`
(value-initialised records) followed by the `CreateTexture` calls. -/
def initialTextureStates (sh : NrdModeSH) (m_Textures : Texture → TextureHandle) :
    Option (List TextureBarrierDesc) :=
  createTextures m_Textures
    (List.replicate (Texture.BaseReadOnlyTexture sh)
      ⟨0, ⟨AccessBits.NONE, Layout.UNDEFINED, StageBits.DEFAULT⟩,
        ⟨AccessBits.NONE, Layout.UNDEFINED, StageBits.DEFAULT⟩⟩)
    (createdTextures sh)

/-! ## `GetNrdResource` and `Denoise` -/

/-- The fields of `nrd::Resource` that `GetNrdResource` fills. `userArg` is the
address of the table entry, kept as the index of that entry. -/
structure Resource where
  state : AccessLayoutStage
  userArg : Nat
  texture : TextureHandle
  deriving DecidableEq, Repr

/-- `Sample::GetNrdResource`. -/
def GetNrdResource (m_TextureStates : List TextureBarrierDesc) (index : Texture) :
    Option Resource :=
  match m_TextureStates[index]? with
  | none => none
  | some textureState => some ⟨textureState.after, index, textureState.texture⟩

/-- The slots of `nrd::ResourceType` that `Denoise` sets. -/
inductive ResourceType where
  | IN_MV | IN_NORMAL_ROUGHNESS | IN_VIEWZ | OUT_VALIDATION
  | IN_DIFF_RADIANCE_HITDIST | OUT_DIFF_RADIANCE_HITDIST | IN_DIFF_CONFIDENCE
  | IN_SPEC_RADIANCE_HITDIST | OUT_SPEC_RADIANCE_HITDIST | IN_SPEC_CONFIDENCE
  | IN_DIFF_SH0 | IN_DIFF_SH1 | OUT_DIFF_SH0 | OUT_DIFF_SH1
  | IN_SPEC_SH0 | IN_SPEC_SH1 | OUT_SPEC_SH0 | OUT_SPEC_SH1
  | IN_PENUMBRA | IN_TRANSLUCENCY | OUT_SHADOW_TRANSLUCENCY
  | IN_SIGNAL | OUT_SIGNAL
  deriving DecidableEq, Repr

/-- The `SetResource` calls of `Denoise`, in source order: slot and texture. -/
def snapshotSlots (sh : NrdModeSH) : List (ResourceType × Texture) :=
  [ (ResourceType.IN_MV, Texture.Mv),
    (ResourceType.IN_NORMAL_ROUGHNESS, Texture.Normal_Roughness),
    (ResourceType.IN_VIEWZ, Texture.ViewZ),
    (ResourceType.OUT_VALIDATION, Texture.Validation),
    (ResourceType.IN_DIFF_RADIANCE_HITDIST, Texture.Unfiltered_Diff),
    (ResourceType.OUT_DIFF_RADIANCE_HITDIST, Texture.Diff),
    (ResourceType.IN_DIFF_CONFIDENCE, Texture.Gradient_Pong),
    (ResourceType.IN_SPEC_RADIANCE_HITDIST, Texture.Unfiltered_Spec),
    (ResourceType.OUT_SPEC_RADIANCE_HITDIST, Texture.Spec),
    (ResourceType.IN_SPEC_CONFIDENCE, Texture.Gradient_Pong) ]
  ++ (if sh then
    [ (ResourceType.IN_DIFF_SH0, Texture.Unfiltered_Diff),
      (ResourceType.IN_DIFF_SH1, Texture.Unfiltered_DiffSh),
      (ResourceType.OUT_DIFF_SH0, Texture.Diff),
      (ResourceType.OUT_DIFF_SH1, Texture.DiffSh),
      (ResourceType.IN_SPEC_SH0, Texture.Unfiltered_Spec),
      (ResourceType.IN_SPEC_SH1, Texture.Unfiltered_SpecSh),
      (ResourceType.OUT_SPEC_SH0, Texture.Spec),
      (ResourceType.OUT_SPEC_SH1, Texture.SpecSh) ]
    else [])
  ++ [ (ResourceType.IN_PENUMBRA, Texture.Unfiltered_Penumbra),
       (ResourceType.IN_TRANSLUCENCY, Texture.Unfiltered_Translucency),
       (ResourceType.OUT_SHADOW_TRANSLUCENCY, Texture.Shadow),
       (ResourceType.IN_SIGNAL, Texture.Composed),
       (ResourceType.OUT_SIGNAL, Texture.Composed) ]

/-- Evaluates `GetNrdResource` for every `SetResource` call. -/
def fillSnapshot (m_TextureStates : List TextureBarrierDesc) :
    List (ResourceType × Texture) → Option (List (ResourceType × Resource))
  | [] => some []
  | (slot, index) :: calls =>
    match GetNrdResource m_TextureStates index, fillSnapshot m_TextureStates calls with
    | some resource, some filled => some ((slot, resource) :: filled)
    | _, _ => none

/-- The part of `nrd::ResourceSnapshot` that `Denoise` reads after the library
call: the flag and `unique[0..uniqueNum-1]`. -/
structure ResourceSnapshot where
  restoreInitialState : Bool
  unique : List Resource
  deriving DecidableEq, Repr

/-- The loop under "Retrieve state": through `userArg` each table entry gets
`before = after` and `after = unique[i].state`. -/
def retrieveState : List TextureBarrierDesc → List Resource → Option (List TextureBarrierDesc)
  | tbl, [] => some tbl
  | tbl, resource :: unique =>
    match tbl[resource.userArg]? with
    | none => none
    | some state =>
      retrieveState
        (tbl.set resource.userArg { state with before := state.after, after := resource.state })
        unique

/-- `Sample::Denoise`, as far as the table is concerned. `SetResource` and
`m_NRD.Denoise` belong to the denoiser library; `nrdDenoise` stands for both:
it receives the slot assignments and yields the snapshot as the library leaves
it. -/
def Denoise (sh : NrdModeSH) (nrdDenoise : List (ResourceType × Resource) → ResourceSnapshot)
    (m_TextureStates : List TextureBarrierDesc) : Option (List TextureBarrierDesc) :=
  match fillSnapshot m_TextureStates (snapshotSlots sh) with
  | none => none
  | some filled =>
    let resourceSnapshot := nrdDenoise filled
    if !resourceSnapshot.restoreInitialState then
      retrieveState m_TextureStates resourceSnapshot.unique
    else some m_TextureStates

/-! ## Ping/pong selection in `RenderFrame` and the descriptor sets -/

/-- `bool isEven = !(frameIndex & 0x1)`. -/
def isEven (frameIndex : Nat) : Bool := (frameIndex &&& 1) == 0

/-- The frame index that follows `frameIndex` in `uint32_t` arithmetic. -/
def nextFrameIndex (frameIndex : Nat) : Nat := (frameIndex + 1) % 2 ^ 32

/-- Shorthand for the requirement `{texture, {SHADER_RESOURCE, SHADER_RESOURCE}}`. -/
def readState (texture : Texture) : TextureState :=
  ⟨texture, ⟨AccessBits.SHADER_RESOURCE, Layout.SHADER_RESOURCE, StageBits.DEFAULT⟩⟩

/-- Shorthand for the requirement
`{texture, {SHADER_RESOURCE_STORAGE, SHADER_RESOURCE_STORAGE}}`. -/
def storageState (texture : Texture) : TextureState :=
  ⟨texture,
    ⟨AccessBits.SHADER_RESOURCE_STORAGE, Layout.SHADER_RESOURCE_STORAGE, StageBits.DEFAULT⟩⟩

/-- The local `prevRadiance` of the pass "SHARC - Update". -/
def prevRadiance (isEven : Bool) : Texture :=
  if isEven then Texture.Gradient_StoredPong else Texture.Gradient_StoredPing

/-- The local `currRadiance` of the pass "SHARC - Update". -/
def currRadiance (isEven : Bool) : Texture :=
  if isEven then Texture.Gradient_StoredPing else Texture.Gradient_StoredPong

/-- The array `transitions` of the pass "SHARC - Update". -/
def sharcUpdateTransitions (isEven : Bool) : List TextureState :=
  [ readState (prevRadiance isEven),
    storageState (currRadiance isEven),
    storageState Texture.Gradient_Ping ]

/-- Two descriptor ranges of a set written by `CreateDescriptorSets`: range 0
holds read-only texture views (`GetDescriptor`), range 1 storage views
(`GetStorageDescriptor`); each view is named by its texture. -/
structure DescriptorRanges where
  textures : List Texture
  storageTextures : List Texture
  deriving DecidableEq, Repr

def SharcUpdatePing : DescriptorRanges :=
  ⟨[Texture.Gradient_StoredPing], [Texture.Gradient_StoredPong, Texture.Gradient_Ping]⟩

def SharcUpdatePong : DescriptorRanges :=
  ⟨[Texture.Gradient_StoredPong], [Texture.Gradient_StoredPing, Texture.Gradient_Ping]⟩

def ConfidenceBlurPing : DescriptorRanges :=
  ⟨[Texture.Gradient_Ping], [Texture.Gradient_Pong]⟩

def ConfidenceBlurPong : DescriptorRanges :=
  ⟨[Texture.Gradient_Pong], [Texture.Gradient_Ping]⟩

def TaaPing : DescriptorRanges :=
  ⟨[Texture.Mv, Texture.Composed, Texture.TaaHistoryPong], [Texture.TaaHistoryPing]⟩

def TaaPong : DescriptorRanges :=
  ⟨[Texture.Mv, Texture.Composed, Texture.TaaHistoryPing], [Texture.TaaHistoryPong]⟩

/-- Set bound by "SHARC - Update":
`Get(isEven ? DescriptorSet::SharcUpdatePing : DescriptorSet::SharcUpdatePong)`. -/
def sharcUpdateDescriptorSet (isEven : Bool) : DescriptorRanges :=
  if isEven then SharcUpdatePing else SharcUpdatePong

/-- The local `taaHistoryInput` of `RenderFrame`. -/
def taaHistoryInput (isEven : Bool) : Texture :=
  if isEven then Texture.TaaHistoryPong else Texture.TaaHistoryPing

/-- The local `taaHistoryOutput` of `RenderFrame`. -/
def taaHistoryOutput (isEven : Bool) : Texture :=
  if isEven then Texture.TaaHistoryPing else Texture.TaaHistoryPong

/-- The array `transitions` of the pass "TAA". -/
def taaTransitions (isEven : Bool) : List TextureState :=
  [ readState Texture.Mv,
    readState Texture.Composed,
    readState (taaHistoryInput isEven),
    storageState (taaHistoryOutput isEven) ]

/-- Set bound by "TAA": `Get(isEven ? DescriptorSet::TaaPing : DescriptorSet::TaaPong)`. -/
def taaDescriptorSet (isEven : Bool) : DescriptorRanges :=
  if isEven then TaaPing else TaaPong

/-- The array `transitions` of the pass "NIS"; `isDlssEnabled` is
`IsDlssEnabled()`. -/
def nisTransitions (isDlssEnabled isEven : Bool) : List TextureState :=
  [ readState (if isDlssEnabled then Texture.DlssOutput else taaHistoryOutput isEven),
    storageState Texture.PreFinal ]

/-- The pair `dispatchUpscaleDesc.input` of the pass "NIS": the texture passed
to `Get` and the texture passed to `GetDescriptor`. -/
def nisInput (isDlssEnabled isEven : Bool) : Texture × Texture :=
  if isDlssEnabled then (Texture.DlssOutput, Texture.DlssOutput)
  else (taaHistoryOutput isEven,
    if isEven then Texture.TaaHistoryPing else Texture.TaaHistoryPong)

/-- Access and layout the table currently holds for a texture (`after` of its
entry), the two fields `BuildOptimizedTransitions` compares. -/
def currentAccessLayout (m_TextureStates : List TextureBarrierDesc) (texture : Texture) :
    Option (AccessBits × Layout) :=
  (m_TextureStates[texture]?).map (fun e => (e.after.access, e.after.layout))

/-- Two calls in succession: the second one runs on the table and the output
array the first one leaves. -/
def BuildOptimizedTransitionsTwice (m_TextureStates : List TextureBarrierDesc)
    (first second : List TextureState) (transitions : List TextureBarrierDesc) :
    Option Transitions :=
  (BuildOptimizedTransitions m_TextureStates first transitions).bind
    (fun r => BuildOptimizedTransitions r.m_TextureStates second r.transitions)

/-! ## `PrepareFrame`: history reset and accumulation budget

`float` values are represented by the rational numbers they denote and the
arithmetic on them is exact: the rounding of each binary32 operation, infinities
and NaN are outside the model, so a value computed here can differ from the one
the program computes by the rounding error of a few operations. The facts stated
about this section are those that rounding to nearest keeps: values on paths
where every operation is exact (a factor assigned 0, a difference of equal
numbers), bounds that a monotone rounding preserves, nearest integers up to a
stated tolerance, and integer results taken away from the point where the
rounding of a sum decides. `log2` has no rational model and is a parameter. A
quotient by the smoothed frame time stands for the source's quotient only for a
positive frame time. -/

/-- The fields of `struct Settings` that the reset and accumulation code of
`PrepareFrame` reads or writes. -/
structure Settings where
  emissionIntensityLights : ℚ
  emissionIntensityCubes : ℚ
  maxAccumulatedFrameNum : Int
  maxFastAccumulatedFrameNum : Int
  denoiser : Int
  emission : Bool
  ortho : Bool
  adaptiveAccumulation : Bool
  RR : Bool
  deriving DecidableEq, Repr

/-- `ACCUMULATION_TIME = 0.33f`, in seconds: the binary32 number nearest to
0.33, which is `11072963 / 2^25`. -/
def ACCUMULATION_TIME : ℚ := 11072963 / 33554432

/-- `MAX_HISTORY_FRAME_NUM`: the smallest of 60 and the two history caps of the
denoiser library, `nrd::REBLUR_MAX_HISTORY_FRAME_NUM` and
`nrd::RELAX_MAX_HISTORY_FRAME_NUM`, which its header declares and which are
parameters here. -/
def MAX_HISTORY_FRAME_NUM (reblurMax relaxMax : Nat) : Int :=
  ((min 60 (min reblurMax relaxMax) : Nat) : Int)

/-- Modelled from the spec: `nrd::GetMaxAccumulatedFrameNum` is declared in the
header of the denoiser library, which is not among the sources; it is the
round-to-nearest of accumulation time times frame rate, `round(time x fps)`,
taken as `floor(time * fps + 1/2)` and evaluated exactly. -/
def GetMaxAccumulatedFrameNum (accumulationTime fps : ℚ) : Nat :=
  ⌊accumulationTime * fps + 1 / 2⌋.toNat

/-- The conversion `uint32_t(x)` of a `float`: truncation toward zero, defined
when the truncated value is a 32-bit unsigned number. -/
def toUInt32 (x : ℚ) : Option Nat :=
  if -1 < x ∧ x < 2 ^ 32 then some ⌊x⌋.toNat else none

/-- What the key handling and the UI code between the start of `PrepareFrame`
and the reset computation leave behind: the edited `m_Settings`, the value
assigned by `m_ForceHistoryReset = ImGui::Button("Reset")` (false when the line
is not reached), whether the "Defaults" button was pressed and whether a test
was loaded; the last two execute `m_ForceHistoryReset = true`. -/
structure UiResult where
  m_Settings : Settings
  resetButton : Bool
  defaultsButton : Bool
  testLoaded : Bool
  deriving DecidableEq, Repr

/-- The value of `m_ForceHistoryReset` when the reset computation ends: cleared
at the start of `PrepareFrame`, written by the UI code, then set by the four
tests under "Global history reset: incompatible state changes".
`m_SettingsPrev` is `m_Settings` as `PrepareFrame` finds it. -/
def forceHistoryReset (frameIndex : Nat) (m_SettingsPrev : Settings) (ui : UiResult) : Bool :=
  let afterReset := ui.resetButton
  let afterDefaults := if ui.defaultsButton then true else afterReset
  let afterUi := if ui.testLoaded then true else afterDefaults
  let afterDenoiser := if m_SettingsPrev.denoiser != ui.m_Settings.denoiser then true else afterUi
  let afterOrtho := if m_SettingsPrev.ortho != ui.m_Settings.ortho then true else afterDenoiser
  let afterRR := if m_SettingsPrev.RR != ui.m_Settings.RR then true else afterOrtho
  if frameIndex == 0 then true else afterRR

/-- The local `a` (and, for `m_SettingsPrev`, `b`) before the logarithm:
`float(emission) * max(emissionIntensityLights, emissionIntensityCubes)`. -/
def emissionLevel (settings : Settings) : ℚ :=
  (if settings.emission then 1 else 0) *
    max settings.emissionIntensityLights settings.emissionIntensityCubes

/-- The local `resetHistoryFactor` under "Global history reset: emission
intensity", including the override by `m_ForceHistoryReset`. The literal `0.2f`
is the binary32 number `13421773 / 2^26`; the operations are evaluated exactly,
without the rounding of binary32. -/
def resetHistoryFactor (log2 : ℚ → ℚ) (m_ForceHistoryReset : Bool)
    (m_SettingsPrev m_Settings : Settings) (verySmoothedFrameTime : ℚ) : ℚ :=
  let a := log2 (1 + emissionLevel m_Settings)
  let b := log2 (1 + emissionLevel m_SettingsPrev)
  let d := |a - b| * 1000 / verySmoothedFrameTime
  let factor := 1 / (1 + 13421773 / 67108864 * d)
  if m_ForceHistoryReset then 0 else factor

/-- The block `if (m_Settings.adaptiveAccumulation)` as far as `m_Settings` is
concerned. The quotient `1000.0f / frameTime` is evaluated exactly, without the
rounding of binary32; the division by 5 is that of `int32_t`. -/
def adaptiveAccumulation (reblurMax relaxMax : Nat) (m_Settings : Settings)
    (verySmoothedFrameTime : ℚ) : Settings :=
  if m_Settings.adaptiveAccumulation then
    let fps := min (1000 / verySmoothedFrameTime) 121
    let maxAccumulatedFrameNum : Int :=
      ((max (GetMaxAccumulatedFrameNum ACCUMULATION_TIME fps) 1 : Nat) : Int)
    let clamped := min maxAccumulatedFrameNum (MAX_HISTORY_FRAME_NUM reblurMax relaxMax)
    { m_Settings with
      maxAccumulatedFrameNum := clamped
      maxFastAccumulatedFrameNum := Int.tdiv clamped 5 }
  else m_Settings

/-- The expression `uint32_t(count * resetHistoryFactor + 0.5f)`, `count` being
an `int32_t`. The conversion of `count`, the product and the sum are evaluated
exactly, without the rounding of binary32. -/
def scaledCount (count : Int) (resetHistoryFactor : ℚ) : Option Nat :=
  toUInt32 ((count : ℚ) * resetHistoryFactor + 1 / 2)

/-- The two counts of `nrd::ReblurSettings` that `PrepareFrame` writes. -/
structure ReblurSettings where
  maxAccumulatedFrameNum : Nat
  maxFastAccumulatedFrameNum : Nat
  deriving DecidableEq, Repr

/-- The four counts of `nrd::RelaxSettings` that `PrepareFrame` writes. -/
structure RelaxSettings where
  diffuseMaxAccumulatedFrameNum : Nat
  diffuseMaxFastAccumulatedFrameNum : Nat
  specularMaxAccumulatedFrameNum : Nat
  specularMaxFastAccumulatedFrameNum : Nat
  deriving DecidableEq, Repr

/-- What the end of `PrepareFrame` leaves behind. `gMaxAccumulatedFrameNum` is
the count `UpdateConstantBuffer` receives and stores in the constant buffer. -/
structure PreparedFrame where
  m_ForceHistoryReset : Bool
  resetHistoryFactor : ℚ
  m_Settings : Settings
  m_ReblurSettings : ReblurSettings
  m_RelaxSettings : RelaxSettings
  gMaxAccumulatedFrameNum : Nat
  deriving DecidableEq, Repr

/-- `Sample::PrepareFrame` from the reset computation on. `m_Settings` is the
state at entry (copied to `m_SettingsPrev`), `ui` the outcome of the key
handling and UI code, `verySmoothedFrameTime` the value of
`m_Timer.GetVerySmoothedFrameTime()` in milliseconds. -/
def PrepareFrame (log2 : ℚ → ℚ) (reblurMax relaxMax : Nat) (frameIndex : Nat)
    (m_Settings : Settings) (ui : UiResult) (verySmoothedFrameTime : ℚ) :
    Option PreparedFrame :=
  let m_SettingsPrev := m_Settings
  let m_ForceHistoryReset := forceHistoryReset frameIndex m_SettingsPrev ui
  let factor := resetHistoryFactor log2 m_ForceHistoryReset m_SettingsPrev ui.m_Settings
    verySmoothedFrameTime
  let settings := adaptiveAccumulation reblurMax relaxMax ui.m_Settings verySmoothedFrameTime
  match scaledCount settings.maxAccumulatedFrameNum factor,
      scaledCount settings.maxFastAccumulatedFrameNum factor with
  | some maxAccumulatedFrameNum, some maxFastAccumulatedFrameNum =>
    some
      { m_ForceHistoryReset := m_ForceHistoryReset
        resetHistoryFactor := factor
        m_Settings := settings
        m_ReblurSettings := ⟨maxAccumulatedFrameNum, maxFastAccumulatedFrameNum⟩
        m_RelaxSettings := ⟨maxAccumulatedFrameNum, maxFastAccumulatedFrameNum,
          maxAccumulatedFrameNum, maxFastAccumulatedFrameNum⟩
        gMaxAccumulatedFrameNum := maxAccumulatedFrameNum }
  | _, _ => none

/-! ## The requirement lists of `RenderFrame` -/

/-- The array `transitions` of iteration `i` of the loop under "History
confidence - Blur". -/
def confidenceBlurTransitions (i : Nat) : List TextureState :=
  [ readState (if i % 2 == 0 then Texture.Gradient_Ping else Texture.Gradient_Pong),
    storageState (if i % 2 == 0 then Texture.Gradient_Pong else Texture.Gradient_Ping) ]

/-- Set bound by iteration `i` of the blur loop:
`Get(i % 2 == 0 ? DescriptorSet::ConfidenceBlurPing : DescriptorSet::ConfidenceBlurPong)`. -/
def confidenceBlurDescriptorSet (i : Nat) : DescriptorRanges :=
  if i % 2 == 0 then ConfidenceBlurPing else ConfidenceBlurPong

/-- The array `transitions` of the pass "Trace opaque". -/
def traceOpaqueTransitions (sh : NrdModeSH) : List TextureState :=
  [ readState Texture.ComposedDiff,
    readState Texture.ComposedSpec_ViewZ,
    storageState Texture.Mv,
    storageState Texture.ViewZ,
    storageState Texture.Normal_Roughness,
    storageState Texture.BaseColor_Metalness,
    storageState Texture.DirectLighting,
    storageState Texture.DirectEmission,
    storageState Texture.PsrThroughput,
    storageState Texture.Unfiltered_Penumbra,
    storageState Texture.Unfiltered_Translucency,
    storageState Texture.Unfiltered_Diff,
    storageState Texture.Unfiltered_Spec ]
  ++ (if sh then
    [ storageState Texture.Unfiltered_DiffSh,
      storageState Texture.Unfiltered_SpecSh ]
    else [])

/-- The array `transitions` of the pass "Composition". -/
def compositionTransitions (sh : NrdModeSH) : List TextureState :=
  [ readState Texture.ViewZ,
    readState Texture.Normal_Roughness,
    readState Texture.BaseColor_Metalness,
    readState Texture.DirectLighting,
    readState Texture.DirectEmission,
    readState Texture.PsrThroughput,
    readState Texture.Shadow,
    readState Texture.Diff,
    readState Texture.Spec ]
  ++ (if sh then
    [ readState Texture.DiffSh,
      readState Texture.SpecSh ]
    else [])
  ++ [ storageState Texture.ComposedDiff,
       storageState Texture.ComposedSpec_ViewZ ]

/-- The array `transitions` of the pass "Trace transparent". -/
def traceTransparentTransitions : List TextureState :=
  [ readState Texture.ComposedDiff,
    readState Texture.ComposedSpec_ViewZ,
    storageState Texture.Composed,
    storageState Texture.Mv,
    storageState Texture.Normal_Roughness ]

/-- The array `transitions` of the pass "Before DLSS". -/
def dlssBeforeTransitions (sh : NrdModeSH) : List TextureState :=
  [ readState Texture.Normal_Roughness,
    readState Texture.BaseColor_Metalness,
    readState Texture.Unfiltered_Spec,
    storageState Texture.ViewZ,
    storageState (Texture.RRGuide_DiffAlbedo sh),
    storageState (Texture.RRGuide_SpecAlbedo sh),
    storageState (Texture.RRGuide_SpecHitDistance sh),
    storageState (Texture.RRGuide_Normal_Roughness sh) ]

/-- The array `transitions` of the pass "DLSS". -/
def dlssTransitions (sh : NrdModeSH) : List TextureState :=
  [ readState Texture.ViewZ,
    readState Texture.Mv,
    readState Texture.Normal_Roughness,
    readState (Texture.RRGuide_DiffAlbedo sh),
    readState (Texture.RRGuide_SpecAlbedo sh),
    readState (Texture.RRGuide_SpecHitDistance sh),
    readState (Texture.RRGuide_Normal_Roughness sh),
    readState Texture.Composed,
    storageState Texture.DlssOutput ]

/-- The array `transitions` of the pass "After Dlss". -/
def dlssAfterTransitions : List TextureState :=
  [ storageState Texture.DlssOutput ]

/-- The array `transitions` of the pass "Final". -/
def finalTransitions : List TextureState :=
  [ readState Texture.PreFinal,
    readState Texture.Composed,
    readState Texture.Validation,
    storageState Texture.Final ]

/-- The requirement lists that one `RenderFrame` passes to
`BuildOptimizedTransitions`, in the order of the calls. `isDlssEnabled` is
`IsDlssEnabled()` and `SR` is `m_Settings.SR`. -/
def renderFrameTransitions (sh : NrdModeSH) (isEven isDlssEnabled SR : Bool) :
    List (List TextureState) :=
  [ sharcUpdateTransitions isEven ]
  ++ (List.range 5).map confidenceBlurTransitions
  ++ [ traceOpaqueTransitions sh,
       compositionTransitions sh,
       traceTransparentTransitions ]
  ++ (if isDlssEnabled then
    (if SR then [ dlssBeforeTransitions sh ] else [])
      ++ [ dlssTransitions sh, dlssAfterTransitions ]
    else [ taaTransitions isEven ])
  ++ [ nisTransitions isDlssEnabled isEven,
       finalTransitions ]

/-- What one iteration of the blur loop records: the root constant `step`, the
descriptor set it binds, the barriers it hands to `CmdBarrier`, and the table as
it stands when `CmdDispatch` is recorded. -/
structure BlurDispatch where
  step : Nat
  descriptorSet : DescriptorRanges
  barriers : List TextureBarrierDesc
  m_TextureStates : List TextureBarrierDesc
  deriving DecidableEq, Repr

/-- What the blur loop leaves behind: the table, the output array and the
dispatches recorded, in order. -/
structure BlurResult where
  m_TextureStates : List TextureBarrierDesc
  transitions : List TextureBarrierDesc
  dispatches : List BlurDispatch
  deriving DecidableEq, Repr

/-- The body of the loop under "History confidence - Blur", for the iterations
`i, i + 1, ...`, `remaining` of them: `BuildOptimizedTransitions` on the
requirement list of the iteration, then the dispatch with `step = 1 + i`. -/
def confidenceBlurFrom (m_TextureStates transitions : List TextureBarrierDesc) (i : Nat) :
    Nat → Option BlurResult
  | 0 => some ⟨m_TextureStates, transitions, []⟩
  | remaining + 1 =>
    match BuildOptimizedTransitions m_TextureStates (confidenceBlurTransitions i) transitions with
    | none => none
    | some r =>
      match confidenceBlurFrom r.m_TextureStates r.transitions (i + 1) remaining with
      | none => none
      | some rest =>
        some ⟨rest.m_TextureStates, rest.transitions,
          ⟨1 + i, confidenceBlurDescriptorSet i, r.emitted, r.m_TextureStates⟩ ::
            rest.dispatches⟩

/-- The loop `for (uint32_t i = 0; i < 5u; i++)` under "History confidence -
Blur". -/
def confidenceBlur (m_TextureStates transitions : List TextureBarrierDesc) :
    Option BlurResult :=
  confidenceBlurFrom m_TextureStates transitions 0 5

/-! ## The end of `RenderFrame`: copy to the back buffer, UI, present -/

/-- The commands of the blocks "Copy to back buffer" and "UI" that concern
texture states: barriers, the copy and the UI rendering between its barriers. -/
inductive Command where
  | CmdBarrier (textures : List TextureBarrierDesc)
  | CmdCopyTexture (dst src : TextureHandle)
  | CmdDrawImgui
  deriving DecidableEq, Repr

/-- The table and the commands recorded. -/
structure Recorded where
  m_TextureStates : List TextureBarrierDesc
  commands : List Command
  deriving DecidableEq, Repr

/-- The local `before` of the block "UI". -/
def uiBefore (swapChainTexture : TextureHandle) : TextureBarrierDesc :=
  ⟨swapChainTexture,
    ⟨AccessBits.COPY_DESTINATION, Layout.COPY_DESTINATION, StageBits.COPY⟩,
    ⟨AccessBits.COLOR_ATTACHMENT, Layout.COLOR_ATTACHMENT, StageBits.COLOR_ATTACHMENT⟩⟩

/-- The local `after` of the block "UI":
`TextureBarrierFromState(before, {NONE, PRESENT, StageBits::NONE})`. -/
def uiAfter (swapChainTexture : TextureHandle) : TextureBarrierDesc :=
  TextureBarrierFromState (uiBefore swapChainTexture)
    ⟨AccessBits.NONE, Layout.PRESENT, StageBits.NONE⟩

/-- The blocks "Copy to back buffer" and "UI" of `RenderFrame`.
`GetState(Texture::Final)` is updated in place by `TextureBarrierFromState`;
`m_Textures` gives the native handle `Get(texture)` and `swapChainTexture` is
`swapChainTexture.texture`. -/
def copyToBackBufferAndUi (m_Textures : Texture → TextureHandle)
    (m_TextureStates : List TextureBarrierDesc) (swapChainTexture : TextureHandle) :
    Option Recorded :=
  match m_TextureStates[Texture.Final]? with
  | none => none
  | some prevState =>
    let final := TextureBarrierFromState prevState
      ⟨AccessBits.COPY_SOURCE, Layout.COPY_SOURCE, StageBits.DEFAULT⟩
    some
      ⟨m_TextureStates.set Texture.Final final,
        [ Command.CmdBarrier
            [ final,
              TextureBarrierFromUnknown swapChainTexture
                ⟨AccessBits.COPY_DESTINATION, Layout.COPY_DESTINATION, StageBits.DEFAULT⟩ ],
          Command.CmdCopyTexture swapChainTexture (m_Textures Texture.Final),
          Command.CmdBarrier [uiBefore swapChainTexture],
          Command.CmdDrawImgui,
          Command.CmdBarrier [uiAfter swapChainTexture] ]⟩

/-- The barriers among `commands` whose texture is `texture`, in recording
order. -/
def barriersOf (texture : TextureHandle) : List Command → List TextureBarrierDesc
  | [] => []
  | Command.CmdBarrier textures :: rest =>
    textures.filter (fun b => b.texture == texture) ++ barriersOf texture rest
  | _ :: rest => barriersOf texture rest

/-- Whether each barrier of a list starts, in access and layout, from the state
the barrier before it ends in. -/
def chained : List TextureBarrierDesc → Bool
  | prev :: next :: rest =>
    (next.before.access == prev.after.access && next.before.layout == prev.after.layout)
      && chained (next :: rest)
  | _ => true

/-! ## Frame pacing: `LatencySleep` and the frame fence -/

/-- What `LatencySleep` does: the element of `m_QueuedFrames` whose command
allocator it resets and the value of `m_FrameFence` it waits for. -/
structure LatencySleepEffect where
  queuedFrameIndex : Nat
  waitValue : Nat
  deriving DecidableEq, Repr

/-- `Sample::LatencySleep(frameIndex)`. `queuedFrameNum` is
`GetQueuedFrameNum()`, a member of the base class; the arithmetic is that of
`uint32_t`, and a remainder by zero is undefined. -/
def LatencySleep (queuedFrameNum frameIndex : Nat) : Option LatencySleepEffect :=
  if queuedFrameNum = 0 then none
  else
    some
      ⟨frameIndex % queuedFrameNum,
        if frameIndex ≥ queuedFrameNum then
          ((1 + frameIndex) % 2 ^ 32 + 2 ^ 32 - queuedFrameNum % 2 ^ 32) % 2 ^ 32
        else 0⟩

/-- The initial value of `m_FrameFence`: `NRI.CreateFence(*m_Device, 0, m_FrameFence)`. -/
def frameFenceInitialValue : Nat := 0

/-- What `RenderFrame(frameIndex)` does for pacing: the element of
`m_QueuedFrames` it records into (`queuedFrameIndex`) and the value it makes
the submission signal on `m_FrameFence` (`frameFence.value = 1 + frameIndex`). -/
structure FrameSubmission where
  queuedFrameIndex : Nat
  frameFenceValue : Nat
  deriving DecidableEq, Repr

/-- The pacing part of `Sample::RenderFrame(frameIndex)`. -/
def RenderFrame.submission (queuedFrameNum frameIndex : Nat) : Option FrameSubmission :=
  if queuedFrameNum = 0 then none
  else some ⟨frameIndex % queuedFrameNum, (1 + frameIndex) % 2 ^ 32⟩

/-- Number of frames `0 .. frameIndex` whose submission signals a value the
fence, now at `fenceValue`, has not reached yet: the frames in flight once
frame `frameIndex` is submitted. -/
def framesInFlight (frameIndex fenceValue : Nat) : Nat :=
  ((List.range (frameIndex + 1)).filter
    (fun m => decide (fenceValue < (1 + m) % 2 ^ 32))).length

/-! ## Sample inputs -/

/-- Sample input: the table `Initialize` leaves (`NRD_MODE` other than `SH`),
with native handle `t + 1` for texture `t`. -/
def sampleTable : List TextureBarrierDesc :=
  (initialTextureStates false (fun t => t + 1)).getD []

/-- Sample input: `sampleTable` after a `Denoise` whose library call reported
the state `{SHADER_RESOURCE, SHADER_RESOURCE, COMPUTE_SHADER}` for `Mv`. -/
def sampleDenoisedTable : List TextureBarrierDesc :=
  (retrieveState sampleTable
    [⟨⟨AccessBits.SHADER_RESOURCE, Layout.SHADER_RESOURCE, StageBits.COMPUTE_SHADER⟩,
      Texture.Mv, 2⟩]).getD []

/-- Sample input: a library call that clears `restoreInitialState` and reports
new states for `Diff` and `Mv`. -/
def sampleNrdDenoise (_filled : List (ResourceType × Resource)) : ResourceSnapshot :=
  ⟨false,
    [⟨⟨AccessBits.SHADER_RESOURCE_STORAGE, Layout.SHADER_RESOURCE_STORAGE,
        StageBits.COMPUTE_SHADER⟩, Texture.Diff, 9⟩,
      ⟨⟨AccessBits.SHADER_RESOURCE, Layout.SHADER_RESOURCE, StageBits.COMPUTE_SHADER⟩,
        Texture.Mv, 2⟩]⟩

/-- Sample input: a library call that sets `restoreInitialState` and leaves the
resources it was given in `unique`. -/
def sampleNrdRestore (filled : List (ResourceType × Resource)) : ResourceSnapshot :=
  ⟨true, filled.map (fun c => c.2)⟩

/-- Sample input: the slot assignments `Denoise` builds from `sampleTable`. -/
def sampleFilled : List (ResourceType × Resource) :=
  (fillSnapshot sampleTable (snapshotSlots false)).getD []

/-- Sample input: the default member initialisers of `struct Settings`
(`denoiser` 0 standing for `DENOISER_REBLUR`). -/
def sampleSettings : Settings :=
  { emissionIntensityLights := 1
    emissionIntensityCubes := 1
    maxAccumulatedFrameNum := 31
    maxFastAccumulatedFrameNum := 7
    denoiser := 0
    emission := true
    ortho := false
    adaptiveAccumulation := true
    RR := false }

/-- Sample input: a UI pass that edits nothing and presses nothing. -/
def sampleIdleUi (m_Settings : Settings) : UiResult :=
  ⟨m_Settings, false, false, false⟩

/-- Integer part of the binary logarithm of `n`, by repeated halving (at most
`steps` times). -/
def halvings : Nat → Nat → Nat
  | 0, _ => 0
  | steps + 1, n => if n < 2 then 0 else halvings steps (n / 2) + 1

/-- Sample input: a stand-in for `log2` that is exact on the powers of two (the
integer part of the logarithm of the integer part). -/
def sampleLog2 (x : ℚ) : ℚ :=
  (halvings ⌊x⌋.toNat ⌊x⌋.toNat : ℚ)

/-- Sample input: the table right after
`m_TextureStates.resize((size_t)Texture::BaseReadOnlyTexture)`, before any
`CreateTexture` call has recorded a state (`NRD_MODE` other than `SH`). -/
def sampleResizedTable : List TextureBarrierDesc :=
  List.replicate (Texture.BaseReadOnlyTexture false)
    ⟨0, ⟨AccessBits.NONE, Layout.UNDEFINED, StageBits.DEFAULT⟩,
      ⟨AccessBits.NONE, Layout.UNDEFINED, StageBits.DEFAULT⟩⟩

/-- Sample input: the initial table after the pass "Final", which leaves
`Final` in shader-read-write state. -/
def sampleFinalTable : List TextureBarrierDesc :=
  ((BuildOptimizedTransitions sampleTable finalTransitions emptyTransitions).map
    (fun r => r.m_TextureStates)).getD []

/-! ## Basic facts about the loop -/

theorem from_nil (tbl tr : List TextureBarrierDesc) (n : Nat) :
    BuildOptimizedTransitionsFrom tbl tr n [] = some ⟨tbl, tr, n⟩ := rfl

theorem from_cons_emit (tbl tr : List TextureBarrierDesc) (n : Nat) (s : TextureState)
    (rest : List TextureState) (cur : TextureBarrierDesc)
    (hcur : tbl[s.texture]? = some cur)
    (hneed : (isStateChanged cur s || isStorageBarrier cur s) = true)
    (hroom : n < MAX_TEXTURE_TRANSITIONS_NUM) :
    BuildOptimizedTransitionsFrom tbl tr n (s :: rest) =
      BuildOptimizedTransitionsFrom (tbl.set s.texture (barrierFor cur s))
        (tr.set n (barrierFor cur s)) (n + 1) rest := by
  simp only [BuildOptimizedTransitionsFrom, hcur, hneed, hroom, if_true, barrierFor]

theorem from_cons_skip (tbl tr : List TextureBarrierDesc) (n : Nat) (s : TextureState)
    (rest : List TextureState) (cur : TextureBarrierDesc)
    (hcur : tbl[s.texture]? = some cur)
    (hneed : (isStateChanged cur s || isStorageBarrier cur s) = false) :
    BuildOptimizedTransitionsFrom tbl tr n (s :: rest) =
      BuildOptimizedTransitionsFrom tbl tr n rest := by
  simp [BuildOptimizedTransitionsFrom, hcur, hneed]

theorem from_append (xs ys : List TextureState) :
    ∀ (tbl tr : List TextureBarrierDesc) (n : Nat),
      BuildOptimizedTransitionsFrom tbl tr n (xs ++ ys) =
        (BuildOptimizedTransitionsFrom tbl tr n xs).bind
          (fun r => BuildOptimizedTransitionsFrom r.m_TextureStates r.transitions r.n ys) := by
  induction xs with
  | nil => intro tbl tr n; simp [BuildOptimizedTransitionsFrom]
  | cons s rest ih =>
    intro tbl tr n
    simp only [List.cons_append, BuildOptimizedTransitionsFrom]
    cases hcur : tbl[s.texture]? with
    | none => simp
    | some cur =>
      simp only
      split
      · split
        · exact ih _ _ _
        · simp
      · exact ih _ _ _

/-- Whether requirement `s` needs a barrier against the table entry `cur`: the
condition of the `if` in the loop. -/
theorem need_iff (cur : TextureBarrierDesc) (s : TextureState) :
    (isStateChanged cur s || isStorageBarrier cur s) = true ↔
      (cur.after.access ≠ s.after.access ∨ cur.after.layout ≠ s.after.layout) ∨
        (cur.after.access = AccessBits.SHADER_RESOURCE_STORAGE ∧
          s.after.access = AccessBits.SHADER_RESOURCE_STORAGE) := by
  simp [isStateChanged, isStorageBarrier]

theorem from_cons_some (tbl tr : List TextureBarrierDesc) (n : Nat) (s : TextureState)
    (rest : List TextureState) (r : Transitions)
    (h : BuildOptimizedTransitionsFrom tbl tr n (s :: rest) = some r) :
    ∃ cur, tbl[s.texture]? = some cur ∧
      (((isStateChanged cur s || isStorageBarrier cur s) = true ∧
          n < MAX_TEXTURE_TRANSITIONS_NUM ∧
          BuildOptimizedTransitionsFrom (tbl.set s.texture (barrierFor cur s))
            (tr.set n (barrierFor cur s)) (n + 1) rest = some r) ∨
        ((isStateChanged cur s || isStorageBarrier cur s) = false ∧
          BuildOptimizedTransitionsFrom tbl tr n rest = some r)) := by
  cases hcur : tbl[s.texture]? with
  | none => simp [BuildOptimizedTransitionsFrom, hcur] at h
  | some cur =>
    refine ⟨cur, rfl, ?_⟩
    cases hneed : (isStateChanged cur s || isStorageBarrier cur s) with
    | false =>
      right
      rw [from_cons_skip tbl tr n s rest cur hcur hneed] at h
      exact ⟨rfl, h⟩
    | true =>
      left
      by_cases hroom : n < MAX_TEXTURE_TRANSITIONS_NUM
      · rw [from_cons_emit tbl tr n s rest cur hcur hneed hroom] at h
        exact ⟨rfl, hroom, h⟩
      · simp [BuildOptimizedTransitionsFrom, hcur, hneed, hroom] at h

theorem from_shape (states : List TextureState) :
    ∀ (tbl tr : List TextureBarrierDesc) (n : Nat) (r : Transitions),
      BuildOptimizedTransitionsFrom tbl tr n states = some r →
        r.m_TextureStates.length = tbl.length ∧ r.transitions.length = tr.length ∧
          n ≤ r.n ∧ r.n ≤ n + states.length := by
  induction states with
  | nil =>
    intro tbl tr n r h
    simp only [BuildOptimizedTransitionsFrom, Option.some.injEq] at h
    subst h
    simp
  | cons s rest ih =>
    intro tbl tr n r h
    obtain ⟨cur, _, hcase⟩ := from_cons_some tbl tr n s rest r h
    rcases hcase with ⟨_, _, hrest⟩ | ⟨_, hrest⟩
    · have := ih _ _ _ _ hrest
      simp only [List.length_set, List.length_cons] at this ⊢
      omega
    · have := ih _ _ _ _ hrest
      simp only [List.length_cons]
      omega

theorem from_total (states : List TextureState) :
    ∀ (tbl tr : List TextureBarrierDesc) (n : Nat),
      (∀ s ∈ states, s.texture < tbl.length) →
      n + states.length ≤ MAX_TEXTURE_TRANSITIONS_NUM →
        ∃ r, BuildOptimizedTransitionsFrom tbl tr n states = some r := by
  induction states with
  | nil => intro tbl tr n _ _; exact ⟨_, rfl⟩
  | cons s rest ih =>
    intro tbl tr n hrange hlen
    have hs : s.texture < tbl.length := hrange s (List.mem_cons_self _ _)
    have hcur : tbl[s.texture]? = some (tbl[s.texture]) := List.getElem?_eq_getElem hs
    simp only [List.length_cons] at hlen
    cases hneed : (isStateChanged tbl[s.texture] s || isStorageBarrier tbl[s.texture] s) with
    | false =>
      rw [from_cons_skip tbl tr n s rest _ hcur hneed]
      exact ih tbl tr n (fun x hx => hrange x (List.mem_cons_of_mem _ hx)) (by omega)
    | true =>
      rw [from_cons_emit tbl tr n s rest _ hcur hneed (by omega)]
      refine ih _ _ _ ?_ (by omega)
      intro x hx
      simpa using hrange x (List.mem_cons_of_mem _ hx)

theorem from_single (tbl tr : List TextureBarrierDesc) (n : Nat) (s : TextureState)
    (cur : TextureBarrierDesc) (hcur : tbl[s.texture]? = some cur)
    (hroom : n < MAX_TEXTURE_TRANSITIONS_NUM) :
    BuildOptimizedTransitionsFrom tbl tr n [s] =
      some (if (isStateChanged cur s || isStorageBarrier cur s) = true then
        ⟨tbl.set s.texture (barrierFor cur s), tr.set n (barrierFor cur s), n + 1⟩
      else ⟨tbl, tr, n⟩) := by
  cases hneed : (isStateChanged cur s || isStorageBarrier cur s) with
  | false => rw [from_cons_skip tbl tr n s [] cur hcur hneed]; simp [from_nil]
  | true => rw [from_cons_emit tbl tr n s [] cur hcur hneed hroom]; simp [from_nil]

theorem take_succ_eq (states : List TextureState) (i : Nat) (hi : i < states.length) :
    states.take (i + 1) = states.take i ++ [states[i]] := by
  rw [List.take_succ, List.getElem?_eq_getElem hi]
  rfl

/-- One iteration of the loop, seen from the call: the state reached at
requirement `i + 1` is obtained from the state reached at `i` by the body of
the loop applied to requirement `i`. -/
theorem reached_succ (tbl : List TextureBarrierDesc) (states : List TextureState)
    (tr : List TextureBarrierDesc) (i : Nat) (hi : i < states.length)
    (hrange : ∀ s ∈ states, s.texture < tbl.length)
    (hlen : states.length ≤ MAX_TEXTURE_TRANSITIONS_NUM) :
    ∃ r0 cur, reachedAt tbl states tr i = some r0 ∧
      r0.m_TextureStates[states[i].texture]? = some cur ∧
      r0.n ≤ i ∧ r0.m_TextureStates.length = tbl.length ∧ r0.transitions.length = tr.length ∧
      reachedAt tbl states tr (i + 1) =
        some (if (isStateChanged cur states[i] || isStorageBarrier cur states[i]) = true then
          ⟨r0.m_TextureStates.set states[i].texture (barrierFor cur states[i]),
            r0.transitions.set r0.n (barrierFor cur states[i]), r0.n + 1⟩
        else r0) := by
  have hmem : ∀ s ∈ states.take i, s.texture < tbl.length :=
    fun s hs => hrange s (List.mem_of_mem_take hs)
  have hlen0 : 0 + (states.take i).length ≤ MAX_TEXTURE_TRANSITIONS_NUM := by
    simp only [List.length_take]; omega
  obtain ⟨r0, hr0⟩ := from_total (states.take i) tbl tr 0 hmem hlen0
  obtain ⟨hl1, hl2, _, hn⟩ := from_shape _ _ _ _ _ hr0
  have hn' : r0.n ≤ i := by
    simp only [List.length_take] at hn; omega
  have hsi : states[i].texture < r0.m_TextureStates.length := by
    rw [hl1]; exact hrange _ (List.getElem_mem _)
  refine ⟨r0, r0.m_TextureStates[states[i].texture], hr0, List.getElem?_eq_getElem hsi,
    hn', hl1, hl2, ?_⟩
  unfold reachedAt BuildOptimizedTransitions
  rw [take_succ_eq states i hi, from_append, hr0]
  simp only [Option.some_bind]
  rw [from_single _ _ _ _ _ (List.getElem?_eq_getElem hsi) (by omega)]

theorem reached_length (tbl : List TextureBarrierDesc) (states : List TextureState)
    (tr : List TextureBarrierDesc) :
    reachedAt tbl states tr states.length = BuildOptimizedTransitions tbl states tr := by
  simp [reachedAt]

/-- The state reached at requirement `i`, the table entry found there, and what
the iteration does, phrased with `currentAt` and `emitsAt`. -/
theorem reached_step (tbl : List TextureBarrierDesc) (states : List TextureState)
    (tr : List TextureBarrierDesc) (i : Nat) (hi : i < states.length)
    (hrange : ∀ s ∈ states, s.texture < tbl.length)
    (hlen : states.length ≤ MAX_TEXTURE_TRANSITIONS_NUM) :
    ∃ r0 cur, reachedAt tbl states tr i = some r0 ∧
      currentAt tbl states tr i = some cur ∧
      r0.m_TextureStates[states[i].texture]? = some cur ∧
      r0.n ≤ i ∧ r0.m_TextureStates.length = tbl.length ∧ r0.transitions.length = tr.length ∧
      emitsAt tbl states tr i = (isStateChanged cur states[i] || isStorageBarrier cur states[i]) ∧
      reachedAt tbl states tr (i + 1) =
        some (if (isStateChanged cur states[i] || isStorageBarrier cur states[i]) = true then
          ⟨r0.m_TextureStates.set states[i].texture (barrierFor cur states[i]),
            r0.transitions.set r0.n (barrierFor cur states[i]), r0.n + 1⟩
        else r0) := by
  obtain ⟨r0, cur, h0, hcur, hn, hl1, hl2, h1⟩ := reached_succ tbl states tr i hi hrange hlen
  refine ⟨r0, cur, h0, ?_, hcur, hn, hl1, hl2, ?_, h1⟩
  · simp only [currentAt, h0, List.getElem?_eq_getElem hi, hcur]
  · simp only [emitsAt, h0, h1]
    cases hneed : (isStateChanged cur states[i] || isStorageBarrier cur states[i]) <;> simp

/-- After a requirement that got a barrier, the record written for it stays in
the output array, and stays in the table as long as no later requirement on the
same texture gets a barrier. -/
theorem barrier_persists (tbl : List TextureBarrierDesc) (states : List TextureState)
    (tr : List TextureBarrierDesc)
    (hrange : ∀ s ∈ states, s.texture < tbl.length)
    (hlen : states.length ≤ MAX_TEXTURE_TRANSITIONS_NUM)
    (htr : tr.length = MAX_TEXTURE_TRANSITIONS_NUM)
    (i : Nat) (hi : i < states.length) (r0 : Transitions) (cur : TextureBarrierDesc)
    (h0 : reachedAt tbl states tr i = some r0)
    (hcur : currentAt tbl states tr i = some cur)
    (hemit : emitsAt tbl states tr i = true) :
    ∀ d, i + 1 + d ≤ states.length →
      ∃ rk, reachedAt tbl states tr (i + 1 + d) = some rk ∧ r0.n < rk.n ∧
        rk.transitions[r0.n]? = some (barrierFor cur states[i]) ∧
        ((∀ j (hj : j < states.length), i < j → j < i + 1 + d →
            states[j].texture = states[i].texture → emitsAt tbl states tr j = false) →
          rk.m_TextureStates[states[i].texture]? = some (barrierFor cur states[i])) := by
  intro d
  induction d with
  | zero =>
    intro _
    obtain ⟨r0', cur', h0', hcur', hget, hn, hl1, hl2, hem, h1⟩ :=
      reached_step tbl states tr i hi hrange hlen
    rw [h0] at h0'
    cases h0'
    rw [hcur] at hcur'
    cases hcur'
    rw [hemit] at hem
    rw [← hem] at h1
    simp only [if_true] at h1
    refine ⟨_, h1, ?_, ?_, ?_⟩
    · simp
    · have : r0.n < r0.transitions.length := by rw [hl2, htr]; omega
      simp [List.getElem?_set_self, this]
    · intro _
      have : states[i].texture < r0.m_TextureStates.length := by
        rw [hl1]; exact hrange _ (List.getElem_mem _)
      simp [List.getElem?_set_self, this]
  | succ d ih =>
    intro hk
    obtain ⟨rk, hrk, hnk, htrk, htblk⟩ := ih (by omega)
    have hk' : i + 1 + d < states.length := by omega
    obtain ⟨rk', curk, hrk', _, hgetk, _, _, _, hemk, hnext⟩ :=
      reached_step tbl states tr (i + 1 + d) hk' hrange hlen
    rw [hrk] at hrk'
    cases hrk'
    have hidx : i + 1 + (d + 1) = i + 1 + d + 1 := by omega
    rw [hidx]
    cases hneed : (isStateChanged curk states[i + 1 + d] ||
        isStorageBarrier curk states[i + 1 + d]) with
    | false =>
      rw [hneed] at hnext
      simp only [Bool.false_eq_true, if_false] at hnext
      refine ⟨rk, hnext, hnk, htrk, ?_⟩
      intro hno
      exact htblk (fun j hj hij hjk => hno j hj hij (by omega))
    | true =>
      rw [hneed] at hnext
      simp only [if_true] at hnext
      refine ⟨_, hnext, ?_, ?_, ?_⟩
      · simp only; omega
      · simp only
        rw [List.getElem?_set_ne (by omega)]
        exact htrk
      · intro hno
        have hne : states[i + 1 + d].texture ≠ states[i].texture := by
          intro heq
          have := hno (i + 1 + d) hk' (by omega) (by omega) heq
          rw [hemk, hneed] at this
          exact Bool.noConfusion this
        simp only
        rw [List.getElem?_set_ne hne]
        exact htblk (fun j hj hij hjk => hno j hj hij (by omega))

theorem getElem_of_getElem? (states : List TextureState) (i : Nat) (state : TextureState)
    (hstate : states[i]? = some state) : ∃ hi : i < states.length, states[i] = state := by
  obtain ⟨hi, h⟩ := List.getElem?_eq_some_iff.mp hstate
  exact ⟨hi, h⟩

/-! ## What a call does to the table -/

theorem need_false_iff (cur : TextureBarrierDesc) (s : TextureState) :
    (isStateChanged cur s || isStorageBarrier cur s) = false ↔
      cur.after.access = s.after.access ∧ cur.after.layout = s.after.layout ∧
        s.after.access ≠ AccessBits.SHADER_RESOURCE_STORAGE := by
  constructor
  · intro h
    have hn : ¬ ((isStateChanged cur s || isStorageBarrier cur s) = true) := by simp [h]
    rw [need_iff] at hn
    push_neg at hn
    obtain ⟨⟨ha, hl⟩, hst⟩ := hn
    refine ⟨ha, hl, ?_⟩
    intro hs
    exact hst (by rw [ha, hs]) hs
  · rintro ⟨ha, hl, hst⟩
    have hn : ¬ ((isStateChanged cur s || isStorageBarrier cur s) = true) := by
      rw [need_iff]
      push_neg
      exact ⟨⟨ha, hl⟩, fun _ hs => hst hs⟩
    simpa using hn

theorem need_of_storage (cur : TextureBarrierDesc) (s : TextureState)
    (hs : s.after.access = AccessBits.SHADER_RESOURCE_STORAGE) :
    (isStateChanged cur s || isStorageBarrier cur s) = true := by
  rw [need_iff]
  by_cases h : cur.after.access = AccessBits.SHADER_RESOURCE_STORAGE
  · exact Or.inr ⟨h, hs⟩
  · exact Or.inl (Or.inl (by rw [hs]; exact h))

theorem currentAccessLayout_eq_some (tbl : List TextureBarrierDesc) (t : Texture)
    (a : AccessBits) (l : Layout) :
    currentAccessLayout tbl t = some (a, l) ↔
      ∃ cur, tbl[t]? = some cur ∧ cur.after.access = a ∧ cur.after.layout = l := by
  unfold currentAccessLayout
  cases h : tbl[t]? with
  | none => simp
  | some cur => simp

theorem currentAccessLayout_set_self (tbl : List TextureBarrierDesc) (t : Texture)
    (e : TextureBarrierDesc) (ht : t < tbl.length) :
    currentAccessLayout (tbl.set t e) t = some (e.after.access, e.after.layout) := by
  simp [currentAccessLayout, List.getElem?_set_self, ht]

theorem currentAccessLayout_set_ne (tbl : List TextureBarrierDesc) (t u : Texture)
    (e : TextureBarrierDesc) (hne : u ≠ t) :
    currentAccessLayout (tbl.set u e) t = currentAccessLayout tbl t := by
  simp [currentAccessLayout, List.getElem?_set_ne hne]

/-- A list whose requirements all agree with the table and ask for no
shader-read-write access produces no barrier and changes nothing. -/
theorem from_no_emit (states : List TextureState) :
    ∀ (tbl tr : List TextureBarrierDesc) (n : Nat),
      (∀ s ∈ states, currentAccessLayout tbl s.texture = some (s.after.access, s.after.layout) ∧
        s.after.access ≠ AccessBits.SHADER_RESOURCE_STORAGE) →
      BuildOptimizedTransitionsFrom tbl tr n states = some ⟨tbl, tr, n⟩ := by
  induction states with
  | nil => intro tbl tr n _; rfl
  | cons s rest ih =>
    intro tbl tr n h
    obtain ⟨hs, hst⟩ := h s (List.mem_cons_self _ _)
    obtain ⟨cur, hcur, ha, hl⟩ := (currentAccessLayout_eq_some _ _ _ _).mp hs
    rw [from_cons_skip tbl tr n s rest cur hcur ((need_false_iff cur s).mpr ⟨ha, hl, hst⟩)]
    exact ih tbl tr n (fun x hx => h x (List.mem_cons_of_mem _ hx))

/-- A call leaves the entry of every texture it has no requirement for. -/
theorem from_untouched (states : List TextureState) :
    ∀ (tbl tr : List TextureBarrierDesc) (n : Nat) (r : Transitions) (t : Texture),
      BuildOptimizedTransitionsFrom tbl tr n states = some r →
      (∀ s ∈ states, s.texture ≠ t) → r.m_TextureStates[t]? = tbl[t]? := by
  induction states with
  | nil =>
    intro tbl tr n r t h _
    simp only [BuildOptimizedTransitionsFrom, Option.some.injEq] at h
    rw [← h]
  | cons s rest ih =>
    intro tbl tr n r t h hne
    obtain ⟨cur, _, hcase⟩ := from_cons_some tbl tr n s rest r h
    have hrest : ∀ x ∈ rest, x.texture ≠ t := fun x hx => hne x (List.mem_cons_of_mem _ hx)
    rcases hcase with ⟨_, _, hr⟩ | ⟨_, hr⟩
    · rw [ih _ _ _ _ t hr hrest]
      exact List.getElem?_set_ne (hne s (List.mem_cons_self _ _))
    · exact ih _ _ _ _ t hr hrest

/-- Access and layout held for a texture survive a call whose requirements on
that texture all ask for this access and layout. -/
theorem from_keeps_agreeing (states : List TextureState) :
    ∀ (tbl tr : List TextureBarrierDesc) (n : Nat) (r : Transitions) (t : Texture)
      (a : AccessBits) (l : Layout),
      BuildOptimizedTransitionsFrom tbl tr n states = some r →
      currentAccessLayout tbl t = some (a, l) →
      (∀ s ∈ states, s.texture = t → s.after.access = a ∧ s.after.layout = l) →
      currentAccessLayout r.m_TextureStates t = some (a, l) := by
  induction states with
  | nil =>
    intro tbl tr n r t a l h hcur _
    simp only [BuildOptimizedTransitionsFrom, Option.some.injEq] at h
    rw [← h]
    exact hcur
  | cons s rest ih =>
    intro tbl tr n r t a l h hcur hagree
    obtain ⟨cur, hget, hcase⟩ := from_cons_some tbl tr n s rest r h
    have hrest : ∀ x ∈ rest, x.texture = t → x.after.access = a ∧ x.after.layout = l :=
      fun x hx => hagree x (List.mem_cons_of_mem _ hx)
    rcases hcase with ⟨_, _, hr⟩ | ⟨_, hr⟩
    · refine ih _ _ _ _ t a l hr ?_ hrest
      by_cases hst : s.texture = t
      · obtain ⟨ha, hl⟩ := hagree s (List.mem_cons_self _ _) hst
        have hlt : t < tbl.length := by
          rw [← hst]
          exact (List.getElem?_eq_some_iff.mp hget).1
        rw [hst, currentAccessLayout_set_self _ _ _ hlt]
        simp [barrierFor, TextureBarrierFromState, ha, hl]
      · rw [currentAccessLayout_set_ne _ _ _ _ hst]
        exact hcur
    · exact ih _ _ _ _ t a l hr hcur hrest

/-- After a call whose requirements on one texture never disagree, the table
holds the requested access and layout for every texture named. -/
theorem from_satisfies (states : List TextureState) :
    ∀ (tbl tr : List TextureBarrierDesc) (n : Nat) (r : Transitions),
      BuildOptimizedTransitionsFrom tbl tr n states = some r →
      (∀ x ∈ states, ∀ y ∈ states, x.texture = y.texture →
        x.after.access = y.after.access ∧ x.after.layout = y.after.layout) →
      ∀ s ∈ states,
        currentAccessLayout r.m_TextureStates s.texture = some (s.after.access, s.after.layout) := by
  induction states with
  | nil => intro tbl tr n r _ _ s hs; simp at hs
  | cons q rest ih =>
    intro tbl tr n r h hagree s hs
    obtain ⟨cur, hget, hcase⟩ := from_cons_some tbl tr n q rest r h
    have hagree' : ∀ x ∈ rest, ∀ y ∈ rest, x.texture = y.texture →
        x.after.access = y.after.access ∧ x.after.layout = y.after.layout :=
      fun x hx y hy => hagree x (List.mem_cons_of_mem _ hx) y (List.mem_cons_of_mem _ hy)
    have hq : ∀ x ∈ rest, x.texture = q.texture →
        x.after.access = q.after.access ∧ x.after.layout = q.after.layout :=
      fun x hx => hagree x (List.mem_cons_of_mem _ hx) q (List.mem_cons_self _ _)
    have hlt : q.texture < tbl.length := (List.getElem?_eq_some_iff.mp hget).1
    rcases List.mem_cons.mp hs with rfl | hmem
    · rcases hcase with ⟨_, _, hr⟩ | ⟨hskip, hr⟩
      · refine from_keeps_agreeing rest _ _ _ _ _ _ _ hr ?_ hq
        rw [currentAccessLayout_set_self _ _ _ hlt]
        simp [barrierFor, TextureBarrierFromState]
      · refine from_keeps_agreeing rest _ _ _ _ _ _ _ hr ?_ hq
        obtain ⟨ha, hl, _⟩ := (need_false_iff cur s).mp hskip
        exact (currentAccessLayout_eq_some _ _ _ _).mpr ⟨cur, hget, ha, hl⟩
    · rcases hcase with ⟨_, _, hr⟩ | ⟨_, hr⟩
      · exact ih _ _ _ _ hr hagree' s hmem
      · exact ih _ _ _ _ hr hagree' s hmem

/-- With pairwise distinct textures, one requirement that differs from the
table in access or layout and all others agreeing with the table and asking for
no shader-read-write access, the count grows by exactly one. -/
theorem from_single_change (states : List TextureState) :
    ∀ (tbl tr : List TextureBarrierDesc) (n : Nat) (state : TextureState),
      state ∈ states →
      (states.map (fun s => s.texture)).Nodup →
      (∀ s ∈ states, s.texture < tbl.length) →
      n + states.length ≤ MAX_TEXTURE_TRANSITIONS_NUM →
      currentAccessLayout tbl state.texture ≠ some (state.after.access, state.after.layout) →
      (∀ other ∈ states, other.texture ≠ state.texture →
        currentAccessLayout tbl other.texture =
            some (other.after.access, other.after.layout) ∧
          other.after.access ≠ AccessBits.SHADER_RESOURCE_STORAGE) →
      ∃ r, BuildOptimizedTransitionsFrom tbl tr n states = some r ∧ r.n = n + 1 := by
  induction states with
  | nil => intro tbl tr n state hmem; simp at hmem
  | cons q rest ih =>
    intro tbl tr n state hmem hnodup hrange hlen hchanged hothers
    simp only [List.map_cons, List.nodup_cons, List.mem_map, not_exists, not_and] at hnodup
    simp only [List.length_cons] at hlen
    have hq : q.texture < tbl.length := hrange q (List.mem_cons_self _ _)
    have hget : tbl[q.texture]? = some tbl[q.texture] := List.getElem?_eq_getElem hq
    by_cases hqs : q.texture = state.texture
    · have hstate : state = q := by
        rcases List.mem_cons.mp hmem with h | h
        · exact h
        · exact absurd hqs.symm (hnodup.1 state h)
      subst hstate
      have hneed : (isStateChanged tbl[state.texture] state ||
          isStorageBarrier tbl[state.texture] state) = true := by
        by_contra hcon
        have hf := (need_false_iff _ _).mp (by simpa using hcon)
        exact hchanged ((currentAccessLayout_eq_some _ _ _ _).mpr ⟨_, hget, hf.1, hf.2.1⟩)
      rw [from_cons_emit tbl tr n state rest _ hget hneed (by omega)]
      refine ⟨_, from_no_emit rest _ _ _ ?_, rfl⟩
      intro x hx
      have hne : x.texture ≠ state.texture := fun h => hnodup.1 x hx h
      rw [currentAccessLayout_set_ne _ _ _ _ (Ne.symm hne)]
      exact hothers x (List.mem_cons_of_mem _ hx) hne
    · have hmem' : state ∈ rest := by
        rcases List.mem_cons.mp hmem with h | h
        · exact absurd (by rw [h]) hqs
        · exact h
      obtain ⟨hcur, hst⟩ := hothers q (List.mem_cons_self _ _) hqs
      obtain ⟨cur, hcur', ha, hl⟩ := (currentAccessLayout_eq_some _ _ _ _).mp hcur
      rw [from_cons_skip tbl tr n q rest cur hcur' ((need_false_iff cur q).mpr ⟨ha, hl, hst⟩)]
      exact ih tbl tr n state hmem' hnodup.2
        (fun x hx => hrange x (List.mem_cons_of_mem _ hx)) (by omega) hchanged
        (fun x hx => hothers x (List.mem_cons_of_mem _ hx))

theorem getElem_mem_drop (states : List TextureState) (i j : Nat) (hj : j < states.length)
    (hij : i < j) : states[j] ∈ states.drop (i + 1) := by
  rw [List.mem_iff_getElem?]
  refine ⟨j - (i + 1), ?_⟩
  rw [List.getElem?_drop]
  have : i + 1 + (j - (i + 1)) = j := by omega
  rw [this]
  exact List.getElem?_eq_getElem hj

/-! ## Facts about `Denoise` -/

theorem fillSnapshot_total (tbl : List TextureBarrierDesc) :
    ∀ calls : List (ResourceType × Texture), (∀ c ∈ calls, c.2 < tbl.length) →
      ∃ filled, fillSnapshot tbl calls = some filled := by
  intro calls
  induction calls with
  | nil => intro _; exact ⟨[], rfl⟩
  | cons c rest ih =>
    intro h
    obtain ⟨filled, hf⟩ := ih (fun x hx => h x (List.mem_cons_of_mem _ hx))
    have hc : c.2 < tbl.length := h c (List.mem_cons_self _ _)
    obtain ⟨slot, index⟩ := c
    refine ⟨(slot, ⟨tbl[index].after, index, tbl[index].texture⟩) :: filled, ?_⟩
    simp only [fillSnapshot, GetNrdResource, List.getElem?_eq_getElem hc, hf]

theorem snapshotSlots_in_range (sh : NrdModeSH) :
    ∀ c ∈ snapshotSlots sh, c.2 < Texture.BaseReadOnlyTexture sh := by
  cases sh <;> decide

theorem retrieveState_shape : ∀ (unique : List Resource) (tbl tbl1 : List TextureBarrierDesc),
    retrieveState tbl unique = some tbl1 → tbl1.length = tbl.length := by
  intro unique
  induction unique with
  | nil => intro tbl tbl1 h; simp only [retrieveState, Option.some.injEq] at h; rw [← h]
  | cons u rest ih =>
    intro tbl tbl1 h
    cases hu : tbl[u.userArg]? with
    | none => simp [retrieveState, hu] at h
    | some e =>
      simp only [retrieveState, hu] at h
      simpa using ih _ _ h

theorem retrieveState_total : ∀ (unique : List Resource) (tbl : List TextureBarrierDesc),
    (∀ u ∈ unique, u.userArg < tbl.length) → ∃ tbl1, retrieveState tbl unique = some tbl1 := by
  intro unique
  induction unique with
  | nil => intro tbl _; exact ⟨tbl, rfl⟩
  | cons u rest ih =>
    intro tbl h
    have hu : u.userArg < tbl.length := h u (List.mem_cons_self _ _)
    simp only [retrieveState, List.getElem?_eq_getElem hu]
    exact ih _ (fun x hx => by simpa using h x (List.mem_cons_of_mem _ hx))

theorem retrieveState_untouched : ∀ (unique : List Resource) (tbl tbl1 : List TextureBarrierDesc)
    (a : Nat), retrieveState tbl unique = some tbl1 → (∀ u ∈ unique, u.userArg ≠ a) →
      tbl1[a]? = tbl[a]? := by
  intro unique
  induction unique with
  | nil => intro tbl tbl1 a h _; simp only [retrieveState, Option.some.injEq] at h; rw [← h]
  | cons u rest ih =>
    intro tbl tbl1 a h hne
    cases hu : tbl[u.userArg]? with
    | none => simp [retrieveState, hu] at h
    | some e =>
      simp only [retrieveState, hu] at h
      rw [ih _ _ a h (fun x hx => hne x (List.mem_cons_of_mem _ hx))]
      exact List.getElem?_set_ne (hne u (List.mem_cons_self _ _))

/-- After the read-back loop, a resource that no later element of `unique`
names again has its table entry rotated: `before` is the old `after`, `after`
is the reported state, the handle is kept. -/
theorem retrieveState_entry : ∀ (unique : List Resource) (tbl tbl1 : List TextureBarrierDesc),
    retrieveState tbl unique = some tbl1 →
    (unique.map (fun u => u.userArg)).Nodup →
    ∀ u ∈ unique, ∃ old, tbl[u.userArg]? = some old ∧
      tbl1[u.userArg]? = some ⟨old.texture, old.after, u.state⟩ := by
  intro unique
  induction unique with
  | nil => intro tbl tbl1 _ _ u hu; simp at hu
  | cons v rest ih =>
    intro tbl tbl1 h hnodup u hu
    simp only [List.map_cons, List.nodup_cons, List.mem_map, not_exists, not_and] at hnodup
    cases hv : tbl[v.userArg]? with
    | none => simp [retrieveState, hv] at h
    | some e =>
      simp only [retrieveState, hv] at h
      have hvlt : v.userArg < tbl.length := by
        rcases List.getElem?_eq_some_iff.mp hv with ⟨hlt, _⟩
        exact hlt
      rcases List.mem_cons.mp hu with rfl | hmem
      · refine ⟨e, hv, ?_⟩
        rw [retrieveState_untouched rest _ _ u.userArg h (fun x hx => hnodup.1 x hx)]
        simp [List.getElem?_set_self, hvlt]
      · obtain ⟨old, hold, hnew⟩ := ih _ _ h hnodup.2 u hmem
        have hne : v.userArg ≠ u.userArg := fun heq => hnodup.1 u hmem heq.symm
        rw [List.getElem?_set_ne hne] at hold
        exact ⟨old, hold, hnew⟩

theorem retrieveState_append : ∀ (xs ys : List Resource) (tbl : List TextureBarrierDesc),
    retrieveState tbl (xs ++ ys) =
      (retrieveState tbl xs).bind (fun tbl1 => retrieveState tbl1 ys) := by
  intro xs
  induction xs with
  | nil => intro ys tbl; simp [retrieveState]
  | cons u rest ih =>
    intro ys tbl
    simp only [List.cons_append, retrieveState]
    cases hu : tbl[u.userArg]? with
    | none => simp
    | some e => exact ih ys _

/-- After the read-back loop, the table's `after` state of a resource is the
state carried by the last element of `unique` that points to it. -/
theorem retrieveState_last (before : List Resource) (u : Resource) (later : List Resource)
    (tbl tbl1 : List TextureBarrierDesc)
    (h : retrieveState tbl (before ++ u :: later) = some tbl1)
    (hlast : ∀ v ∈ later, v.userArg ≠ u.userArg) :
    ∃ entry, tbl1[u.userArg]? = some entry ∧ entry.after = u.state := by
  rw [retrieveState_append] at h
  cases h0 : retrieveState tbl before with
  | none => simp [h0] at h
  | some tbl0 =>
    simp only [h0, Option.some_bind, retrieveState] at h
    cases hu : tbl0[u.userArg]? with
    | none => simp [hu] at h
    | some e =>
      simp only [hu] at h
      have hlt : u.userArg < tbl0.length := (List.getElem?_eq_some_iff.mp hu).1
      refine ⟨⟨e.texture, e.after, u.state⟩, ?_, rfl⟩
      rw [retrieveState_untouched later _ _ u.userArg h hlast]
      simp [List.getElem?_set_self, hlt]

/-! ## Claims about `BuildOptimizedTransitions` -/

/-- C1, as amended: for a table and a requirement list that index inside the
table and fit the output array, the call returns, and requirement `i` gets a
barrier if and only if its access or its layout differs from the access or
layout the table holds for its texture when the loop reaches it, or both
accesses are `SHADER_RESOURCE_STORAGE`. Stage bits play no part. -/
theorem BuildOptimizedTransitions_emits_iff (tbl : List TextureBarrierDesc)
    (states : List TextureState) (tr : List TextureBarrierDesc) (i : Nat) (state : TextureState)
    (hstate : states[i]? = some state)
    (hrange : ∀ s ∈ states, s.texture < tbl.length)
    (hlen : states.length ≤ MAX_TEXTURE_TRANSITIONS_NUM) :
    ∃ r cur, BuildOptimizedTransitions tbl states tr = some r ∧
      currentAt tbl states tr i = some cur ∧
      (emitsAt tbl states tr i = true ↔
        (cur.after.access ≠ state.after.access ∨ cur.after.layout ≠ state.after.layout) ∨
          (cur.after.access = AccessBits.SHADER_RESOURCE_STORAGE ∧
            state.after.access = AccessBits.SHADER_RESOURCE_STORAGE)) := by
  obtain ⟨hi, rfl⟩ := getElem_of_getElem? states i state hstate
  obtain ⟨r, hr⟩ := from_total states tbl tr 0 hrange (by omega)
  obtain ⟨r0, cur, _, hcur, _, _, _, _, hem, _⟩ := reached_step tbl states tr i hi hrange hlen
  exact ⟨r, cur, hr, hcur, by rw [hem]; exact need_iff cur states[i]⟩

/-- Witness of C1 (amended): the requirement list of the TAA pass of frame 0 on
the initial table, at its last requirement. -/
theorem BuildOptimizedTransitions_emits_iff_witness :
    (taaTransitions (isEven 0))[3]? = some (storageState Texture.TaaHistoryPing) ∧
    (∀ s ∈ taaTransitions (isEven 0), s.texture < sampleTable.length) ∧
    (taaTransitions (isEven 0)).length ≤ MAX_TEXTURE_TRANSITIONS_NUM ∧
    ∃ r cur, BuildOptimizedTransitions sampleTable (taaTransitions (isEven 0))
        emptyTransitions = some r ∧
      currentAt sampleTable (taaTransitions (isEven 0)) emptyTransitions 3 = some cur ∧
      (emitsAt sampleTable (taaTransitions (isEven 0)) emptyTransitions 3 = true ↔
        (cur.after.access ≠ (storageState Texture.TaaHistoryPing).after.access ∨
            cur.after.layout ≠ (storageState Texture.TaaHistoryPing).after.layout) ∨
          (cur.after.access = AccessBits.SHADER_RESOURCE_STORAGE ∧
            (storageState Texture.TaaHistoryPing).after.access =
              AccessBits.SHADER_RESOURCE_STORAGE)) :=
  ⟨by decide, by decide, by decide,
    BuildOptimizedTransitions_emits_iff sampleTable (taaTransitions (isEven 0))
      emptyTransitions 3 (storageState Texture.TaaHistoryPing)
      (by decide) (by decide) (by decide)⟩

/-- C1 as stated fails: after the denoiser reported
`{SHADER_RESOURCE, SHADER_RESOURCE, COMPUTE_SHADER}` for `Mv`, the requirement
`{Mv, {SHADER_RESOURCE, SHADER_RESOURCE}}` (stage bits value-initialised) asks
for a state that differs from the table's current state, the accesses are not
shader-read-write, and no barrier is emitted. -/
theorem BuildOptimizedTransitions_stage_bits_counterexample :
    currentAt sampleDenoisedTable [readState Texture.Mv] emptyTransitions 0 =
      some ⟨2, ⟨AccessBits.SHADER_RESOURCE, Layout.SHADER_RESOURCE, StageBits.DEFAULT⟩,
        ⟨AccessBits.SHADER_RESOURCE, Layout.SHADER_RESOURCE, StageBits.COMPUTE_SHADER⟩⟩ ∧
    (readState Texture.Mv).after ≠
      ⟨AccessBits.SHADER_RESOURCE, Layout.SHADER_RESOURCE, StageBits.COMPUTE_SHADER⟩ ∧
    emitsAt sampleDenoisedTable [readState Texture.Mv] emptyTransitions 0 = false ∧
    (BuildOptimizedTransitions sampleDenoisedTable [readState Texture.Mv]
        emptyTransitions).map (fun r => r.n) = some 0 ∧
    ¬ (emitsAt sampleDenoisedTable [readState Texture.Mv] emptyTransitions 0 = true ↔
      (readState Texture.Mv).after ≠
          ⟨AccessBits.SHADER_RESOURCE, Layout.SHADER_RESOURCE, StageBits.COMPUTE_SHADER⟩ ∨
        (AccessBits.SHADER_RESOURCE = AccessBits.SHADER_RESOURCE_STORAGE ∧
          (readState Texture.Mv).after.access = AccessBits.SHADER_RESOURCE_STORAGE)) := by
  decide

/-- C2: a requirement that gets a barrier has the barrier written at the write
index reached so far; its `before` is the table's state of the texture at that
moment, its `after` is the requirement's access and layout; the record is among
the emitted barriers of the call, and on return the table holds exactly this
record for the texture when it is the last barrier emitted for that texture. -/
theorem BuildOptimizedTransitions_barrier_states (tbl : List TextureBarrierDesc)
    (states : List TextureState) (tr : List TextureBarrierDesc) (i : Nat) (state : TextureState)
    (hstate : states[i]? = some state)
    (hrange : ∀ s ∈ states, s.texture < tbl.length)
    (hlen : states.length ≤ MAX_TEXTURE_TRANSITIONS_NUM)
    (htr : tr.length = MAX_TEXTURE_TRANSITIONS_NUM)
    (hemit : emitsAt tbl states tr i = true) :
    ∃ r0 cur r, reachedAt tbl states tr i = some r0 ∧
      currentAt tbl states tr i = some cur ∧
      BuildOptimizedTransitions tbl states tr = some r ∧
      r0.n < r.n ∧
      r.transitions[r0.n]? =
        some ⟨cur.texture, cur.after,
          ⟨state.after.access, state.after.layout, StageBits.DEFAULT⟩⟩ ∧
      ((∀ j later, states[j]? = some later → i < j → later.texture = state.texture →
          emitsAt tbl states tr j = false) →
        r.m_TextureStates[state.texture]? =
          some ⟨cur.texture, cur.after,
            ⟨state.after.access, state.after.layout, StageBits.DEFAULT⟩⟩) := by
  obtain ⟨hi, rfl⟩ := getElem_of_getElem? states i state hstate
  obtain ⟨r0, cur, h0, hcur, _⟩ := reached_step tbl states tr i hi hrange hlen
  obtain ⟨r, hr, hn, htrans, htbl⟩ :=
    barrier_persists tbl states tr hrange hlen htr i hi r0 cur h0 hcur hemit
      (states.length - (i + 1)) (by omega)
  have hidx : i + 1 + (states.length - (i + 1)) = states.length := by omega
  rw [hidx, reached_length] at hr
  refine ⟨r0, cur, r, h0, hcur, hr, hn, htrans, ?_⟩
  intro hno
  exact htbl (fun j hj hij _ heq => hno j states[j] (List.getElem?_eq_getElem hj) hij heq)

/-- Witness of C2: the TAA pass of frame 0 on the initial table; its last
requirement moves `TaaHistoryPing` to shader-read-write. -/
theorem BuildOptimizedTransitions_barrier_states_witness :
    (taaTransitions (isEven 0))[3]? = some (storageState Texture.TaaHistoryPing) ∧
    (∀ s ∈ taaTransitions (isEven 0), s.texture < sampleTable.length) ∧
    (taaTransitions (isEven 0)).length ≤ MAX_TEXTURE_TRANSITIONS_NUM ∧
    emptyTransitions.length = MAX_TEXTURE_TRANSITIONS_NUM ∧
    emitsAt sampleTable (taaTransitions (isEven 0)) emptyTransitions 3 = true ∧
    ∃ r0 cur r,
      reachedAt sampleTable (taaTransitions (isEven 0)) emptyTransitions 3 = some r0 ∧
      currentAt sampleTable (taaTransitions (isEven 0)) emptyTransitions 3 = some cur ∧
      BuildOptimizedTransitions sampleTable (taaTransitions (isEven 0)) emptyTransitions =
        some r ∧
      r0.n < r.n ∧
      r.transitions[r0.n]? =
        some ⟨cur.texture, cur.after,
          ⟨(storageState Texture.TaaHistoryPing).after.access,
            (storageState Texture.TaaHistoryPing).after.layout, StageBits.DEFAULT⟩⟩ ∧
      ((∀ j later, (taaTransitions (isEven 0))[j]? = some later → 3 < j →
          later.texture = (storageState Texture.TaaHistoryPing).texture →
          emitsAt sampleTable (taaTransitions (isEven 0)) emptyTransitions j = false) →
        r.m_TextureStates[(storageState Texture.TaaHistoryPing).texture]? =
          some ⟨cur.texture, cur.after,
            ⟨(storageState Texture.TaaHistoryPing).after.access,
              (storageState Texture.TaaHistoryPing).after.layout, StageBits.DEFAULT⟩⟩) :=
  ⟨by decide, by decide, by decide, by decide, by decide,
    BuildOptimizedTransitions_barrier_states sampleTable (taaTransitions (isEven 0))
      emptyTransitions 3 (storageState Texture.TaaHistoryPing)
      (by decide) (by decide) (by decide) (by decide) (by decide)⟩

/-- C8, as amended: when no requirement asks for shader-read-write access and
requirements naming the same texture ask for the same access and layout, the
first call returns and a second call with the same list on the table and
output array it leaves returns the count 0 and changes neither. -/
theorem BuildOptimizedTransitions_second_call_no_barrier (tbl : List TextureBarrierDesc)
    (states : List TextureState) (tr : List TextureBarrierDesc)
    (hrange : ∀ s ∈ states, s.texture < tbl.length)
    (hlen : states.length ≤ MAX_TEXTURE_TRANSITIONS_NUM)
    (hnostorage : ∀ s ∈ states, s.after.access ≠ AccessBits.SHADER_RESOURCE_STORAGE)
    (hagree : ∀ x ∈ states, ∀ y ∈ states, x.texture = y.texture →
      x.after.access = y.after.access ∧ x.after.layout = y.after.layout) :
    ∃ r1, BuildOptimizedTransitions tbl states tr = some r1 ∧
      BuildOptimizedTransitions r1.m_TextureStates states r1.transitions =
        some ⟨r1.m_TextureStates, r1.transitions, 0⟩ ∧
      (BuildOptimizedTransitionsTwice tbl states states tr).map (fun r => r.n) = some 0 := by
  obtain ⟨r1, hr1⟩ := from_total states tbl tr 0 hrange (by omega)
  have hsat := from_satisfies states tbl tr 0 r1 hr1 hagree
  have h2 : BuildOptimizedTransitions r1.m_TextureStates states r1.transitions =
      some ⟨r1.m_TextureStates, r1.transitions, 0⟩ :=
    from_no_emit states _ _ 0 (fun s hs => ⟨hsat s hs, hnostorage s hs⟩)
  refine ⟨r1, hr1, h2, ?_⟩
  have h1 : BuildOptimizedTransitions tbl states tr = some r1 := hr1
  simp [BuildOptimizedTransitionsTwice, h1, h2]

/-- Witness of C8 (amended): `ComposedDiff` (created in shader-read-write state)
and `Mv` are asked for in shader-read state, twice. -/
theorem BuildOptimizedTransitions_second_call_no_barrier_witness :
    (∀ s ∈ [readState Texture.ComposedDiff, readState Texture.Mv],
      s.texture < sampleTable.length) ∧
    [readState Texture.ComposedDiff, readState Texture.Mv].length ≤
      MAX_TEXTURE_TRANSITIONS_NUM ∧
    (∀ s ∈ [readState Texture.ComposedDiff, readState Texture.Mv],
      s.after.access ≠ AccessBits.SHADER_RESOURCE_STORAGE) ∧
    (∀ x ∈ [readState Texture.ComposedDiff, readState Texture.Mv],
      ∀ y ∈ [readState Texture.ComposedDiff, readState Texture.Mv], x.texture = y.texture →
        x.after.access = y.after.access ∧ x.after.layout = y.after.layout) ∧
    (BuildOptimizedTransitions sampleTable
        [readState Texture.ComposedDiff, readState Texture.Mv] emptyTransitions).map
        (fun r => r.n) = some 1 ∧
    ∃ r1, BuildOptimizedTransitions sampleTable
          [readState Texture.ComposedDiff, readState Texture.Mv] emptyTransitions = some r1 ∧
      BuildOptimizedTransitions r1.m_TextureStates
          [readState Texture.ComposedDiff, readState Texture.Mv] r1.transitions =
        some ⟨r1.m_TextureStates, r1.transitions, 0⟩ ∧
      (BuildOptimizedTransitionsTwice sampleTable
          [readState Texture.ComposedDiff, readState Texture.Mv]
          [readState Texture.ComposedDiff, readState Texture.Mv] emptyTransitions).map
        (fun r => r.n) = some 0 :=
  ⟨by decide, by decide, by decide, by decide, by decide,
    BuildOptimizedTransitions_second_call_no_barrier sampleTable
      [readState Texture.ComposedDiff, readState Texture.Mv] emptyTransitions
      (by decide) (by decide) (by decide) (by decide)⟩

/-- C8 as stated fails: the one-element list `{Gradient_Ping, shader-read-write}`
on the initial table gives one barrier on the first call and again one barrier
(same state before and after) on the second call. -/
theorem BuildOptimizedTransitions_second_call_counterexample :
    (BuildOptimizedTransitions sampleTable [storageState Texture.Gradient_Ping]
        emptyTransitions).map (fun r => r.n) = some 1 ∧
    (BuildOptimizedTransitionsTwice sampleTable [storageState Texture.Gradient_Ping]
        [storageState Texture.Gradient_Ping] emptyTransitions).map (fun r => r.n) = some 1 ∧
    (BuildOptimizedTransitionsTwice sampleTable [storageState Texture.Gradient_Ping]
        [storageState Texture.Gradient_Ping] emptyTransitions).map (fun r => r.emitted) =
      some [⟨19,
        ⟨AccessBits.SHADER_RESOURCE_STORAGE, Layout.SHADER_RESOURCE_STORAGE, StageBits.DEFAULT⟩,
        ⟨AccessBits.SHADER_RESOURCE_STORAGE, Layout.SHADER_RESOURCE_STORAGE,
          StageBits.DEFAULT⟩⟩] := by
  decide

/-- C9, as amended: a texture asked for with shader-read-write access in two
consecutive calls gets a barrier in both; when the two requirements ask for the
same layout and no requirement names the texture between them (after the first
one in its list, before the second one in its list), the barrier of the second
call has equal `before` and `after` access and layout. -/
theorem BuildOptimizedTransitions_storage_hazard (tbl : List TextureBarrierDesc)
    (first second : List TextureState) (tr : List TextureBarrierDesc) (i1 i2 : Nat)
    (q1 q2 : TextureState)
    (h1 : first[i1]? = some q1) (h2 : second[i2]? = some q2)
    (htex : q2.texture = q1.texture)
    (hacc1 : q1.after.access = AccessBits.SHADER_RESOURCE_STORAGE)
    (hacc2 : q2.after.access = AccessBits.SHADER_RESOURCE_STORAGE)
    (hrange1 : ∀ s ∈ first, s.texture < tbl.length)
    (hrange2 : ∀ s ∈ second, s.texture < tbl.length)
    (hlen1 : first.length ≤ MAX_TEXTURE_TRANSITIONS_NUM)
    (hlen2 : second.length ≤ MAX_TEXTURE_TRANSITIONS_NUM)
    (htr : tr.length = MAX_TEXTURE_TRANSITIONS_NUM) :
    ∃ r1 r2 r0 b, BuildOptimizedTransitions tbl first tr = some r1 ∧
      emitsAt tbl first tr i1 = true ∧
      BuildOptimizedTransitions r1.m_TextureStates second r1.transitions = some r2 ∧
      emitsAt r1.m_TextureStates second r1.transitions i2 = true ∧
      reachedAt r1.m_TextureStates second r1.transitions i2 = some r0 ∧
      r0.n < r2.n ∧ r2.transitions[r0.n]? = some b ∧
      b.after = ⟨q2.after.access, q2.after.layout, StageBits.DEFAULT⟩ ∧
      (q2.after.layout = q1.after.layout →
        (∀ s ∈ first.drop (i1 + 1), s.texture ≠ q1.texture) →
        (∀ s ∈ second.take i2, s.texture ≠ q1.texture) →
        b.before.access = b.after.access ∧ b.before.layout = b.after.layout) := by
  obtain ⟨hi1, rfl⟩ := getElem_of_getElem? first i1 q1 h1
  obtain ⟨hi2, rfl⟩ := getElem_of_getElem? second i2 q2 h2
  -- first call
  obtain ⟨ra, cura, hra, hcura, _, _, _, _, hema, _⟩ :=
    reached_step tbl first tr i1 hi1 hrange1 hlen1
  have hemit1 : emitsAt tbl first tr i1 = true := by
    rw [hema]; exact need_of_storage _ _ hacc1
  obtain ⟨r1, hr1, _, _, htbl1⟩ :=
    barrier_persists tbl first tr hrange1 hlen1 htr i1 hi1 ra cura hra hcura hemit1
      (first.length - (i1 + 1)) (by omega)
  have hidx : i1 + 1 + (first.length - (i1 + 1)) = first.length := by omega
  rw [hidx, reached_length] at hr1
  obtain ⟨hl1, hl2, _, _⟩ := from_shape _ _ _ _ _ hr1
  -- second call
  have hrange2' : ∀ s ∈ second, s.texture < r1.m_TextureStates.length := by
    intro s hs; rw [hl1]; exact hrange2 s hs
  have htr' : r1.transitions.length = MAX_TEXTURE_TRANSITIONS_NUM := by rw [hl2]; exact htr
  obtain ⟨rb, curb, hrb, hcurb, hgetb, _, _, _, hemb, _⟩ :=
    reached_step r1.m_TextureStates second r1.transitions i2 hi2 hrange2' hlen2
  have hemit2 : emitsAt r1.m_TextureStates second r1.transitions i2 = true := by
    rw [hemb]; exact need_of_storage _ _ hacc2
  obtain ⟨r2, hr2, hn2, htrans2, _⟩ :=
    barrier_persists r1.m_TextureStates second r1.transitions hrange2' hlen2 htr' i2 hi2 rb curb
      hrb hcurb hemit2 (second.length - (i2 + 1)) (by omega)
  have hidx2 : i2 + 1 + (second.length - (i2 + 1)) = second.length := by omega
  rw [hidx2, reached_length] at hr2
  refine ⟨r1, r2, rb, _, hr1, hemit1, hr2, hemit2, hrb, hn2, htrans2, rfl, ?_⟩
  intro hlay hafter hbefore
  have hR : r1.m_TextureStates[first[i1].texture]? = some (barrierFor cura first[i1]) :=
    htbl1 (fun j hj hij _ heq => absurd heq (hafter _ (getElem_mem_drop first i1 j hj hij)))
  have hsame : rb.m_TextureStates[first[i1].texture]? = r1.m_TextureStates[first[i1].texture]? :=
    from_untouched _ _ _ _ _ _ hrb hbefore
  have hcur_eq : curb = barrierFor cura first[i1] := by
    rw [htex, hsame, hR] at hgetb
    exact (Option.some.inj hgetb).symm
  constructor
  · rw [hcur_eq]
    simp [barrierFor, TextureBarrierFromState, hacc1, hacc2]
  · rw [hcur_eq]
    simp [barrierFor, TextureBarrierFromState, hlay]

/-- Witness of C9 (amended): on the initial table, the SHARC update list of
frame 0 asks for `Gradient_Ping` in shader-read-write state (its last
requirement) and the next call asks for it again. -/
theorem BuildOptimizedTransitions_storage_hazard_witness :
    (sharcUpdateTransitions (isEven 0))[2]? = some (storageState Texture.Gradient_Ping) ∧
    [storageState Texture.Gradient_Ping][0]? = some (storageState Texture.Gradient_Ping) ∧
    (∀ s ∈ (sharcUpdateTransitions (isEven 0)).drop (2 + 1),
      s.texture ≠ (storageState Texture.Gradient_Ping).texture) ∧
    (∀ s ∈ [storageState Texture.Gradient_Ping].take 0,
      s.texture ≠ (storageState Texture.Gradient_Ping).texture) ∧
    ∃ r1 r2 r0 b,
      BuildOptimizedTransitions sampleTable (sharcUpdateTransitions (isEven 0))
        emptyTransitions = some r1 ∧
      emitsAt sampleTable (sharcUpdateTransitions (isEven 0)) emptyTransitions 2 = true ∧
      BuildOptimizedTransitions r1.m_TextureStates [storageState Texture.Gradient_Ping]
        r1.transitions = some r2 ∧
      emitsAt r1.m_TextureStates [storageState Texture.Gradient_Ping] r1.transitions 0 = true ∧
      reachedAt r1.m_TextureStates [storageState Texture.Gradient_Ping] r1.transitions 0 =
        some r0 ∧
      r0.n < r2.n ∧ r2.transitions[r0.n]? = some b ∧
      b.after = ⟨(storageState Texture.Gradient_Ping).after.access,
        (storageState Texture.Gradient_Ping).after.layout, StageBits.DEFAULT⟩ ∧
      ((storageState Texture.Gradient_Ping).after.layout =
          (storageState Texture.Gradient_Ping).after.layout →
        (∀ s ∈ (sharcUpdateTransitions (isEven 0)).drop (2 + 1),
          s.texture ≠ (storageState Texture.Gradient_Ping).texture) →
        (∀ s ∈ [storageState Texture.Gradient_Ping].take 0,
          s.texture ≠ (storageState Texture.Gradient_Ping).texture) →
        b.before.access = b.after.access ∧ b.before.layout = b.after.layout) :=
  ⟨by decide, by decide, by decide, by decide,
    BuildOptimizedTransitions_storage_hazard sampleTable (sharcUpdateTransitions (isEven 0))
      [storageState Texture.Gradient_Ping] emptyTransitions 2 0
      (storageState Texture.Gradient_Ping) (storageState Texture.Gradient_Ping)
      (by decide) (by decide) rfl rfl rfl (by decide) (by decide) (by decide) (by decide)
      (by decide)⟩

/-- C9 as stated fails: `Gradient_Ping` is asked for with shader-read-write
access in two consecutive calls, the second list asking for shader-read state
first. Both calls emit a barrier for the shader-read-write requirement, but the
second call's barriers go from shader-read-write to shader-read and from
shader-read to shader-read-write: none has equal `before` and `after`. -/
theorem BuildOptimizedTransitions_storage_hazard_counterexample :
    emitsAt sampleTable [storageState Texture.Gradient_Ping] emptyTransitions 0 = true ∧
    (BuildOptimizedTransitionsTwice sampleTable [storageState Texture.Gradient_Ping]
        [readState Texture.Gradient_Ping, storageState Texture.Gradient_Ping]
        emptyTransitions).map
        (fun r => r.emitted.map (fun b => (b.texture, b.before.access, b.after.access))) =
      some [(19, AccessBits.SHADER_RESOURCE_STORAGE, AccessBits.SHADER_RESOURCE),
        (19, AccessBits.SHADER_RESOURCE, AccessBits.SHADER_RESOURCE_STORAGE)] := by
  decide

/-- C10, as amended: over pairwise distinct textures, when exactly one
requirement differs from the table in access or layout and every other
requirement agrees with the table and asks for no shader-read-write access, the
call returns the count 1. -/
theorem BuildOptimizedTransitions_single_change (tbl : List TextureBarrierDesc)
    (states : List TextureState) (tr : List TextureBarrierDesc) (state : TextureState)
    (hmem : state ∈ states)
    (hdistinct : (states.map (fun s => s.texture)).Nodup)
    (hrange : ∀ s ∈ states, s.texture < tbl.length)
    (hlen : states.length ≤ MAX_TEXTURE_TRANSITIONS_NUM)
    (hchanged : currentAccessLayout tbl state.texture ≠
      some (state.after.access, state.after.layout))
    (hothers : ∀ other ∈ states, other.texture ≠ state.texture →
      currentAccessLayout tbl other.texture = some (other.after.access, other.after.layout) ∧
        other.after.access ≠ AccessBits.SHADER_RESOURCE_STORAGE) :
    ∃ r, BuildOptimizedTransitions tbl states tr = some r ∧ r.n = 1 := by
  obtain ⟨r, hr, hn⟩ :=
    from_single_change states tbl tr 0 state hmem hdistinct hrange (by omega) hchanged hothers
  exact ⟨r, hr, by omega⟩

/-- Witness of C10 (amended): the TAA list of frame 0 on the initial table; only
`TaaHistoryPing` changes state. -/
theorem BuildOptimizedTransitions_single_change_witness :
    storageState Texture.TaaHistoryPing ∈ taaTransitions (isEven 0) ∧
    ((taaTransitions (isEven 0)).map (fun s => s.texture)).Nodup ∧
    (∀ other ∈ taaTransitions (isEven 0),
      other.texture ≠ (storageState Texture.TaaHistoryPing).texture →
      currentAccessLayout sampleTable other.texture =
          some (other.after.access, other.after.layout) ∧
        other.after.access ≠ AccessBits.SHADER_RESOURCE_STORAGE) ∧
    ∃ r, BuildOptimizedTransitions sampleTable (taaTransitions (isEven 0)) emptyTransitions =
      some r ∧ r.n = 1 :=
  ⟨by decide, by decide, by decide,
    BuildOptimizedTransitions_single_change sampleTable (taaTransitions (isEven 0))
      emptyTransitions (storageState Texture.TaaHistoryPing)
      (by decide) (by decide) (by decide) (by decide) (by decide) (by decide)⟩

/-- C10 as stated fails: two distinct textures, `Mv` (shader-read in the table)
and `ComposedDiff` (shader-read-write in the table), both asked for in
shader-read-write state. Only `Mv` changes state, yet two barriers are
emitted. -/
theorem BuildOptimizedTransitions_single_change_counterexample :
    ([storageState Texture.Mv, storageState Texture.ComposedDiff].map
      (fun s => s.texture)).Nodup ∧
    (sampleTable[Texture.Mv]?).map (fun e => e.after) ≠
      some (storageState Texture.Mv).after ∧
    (sampleTable[Texture.ComposedDiff]?).map (fun e => e.after) =
      some (storageState Texture.ComposedDiff).after ∧
    (BuildOptimizedTransitions sampleTable
        [storageState Texture.Mv, storageState Texture.ComposedDiff] emptyTransitions).map
        (fun r => r.n) = some 2 := by
  decide


/-- C3: when the snapshot comes back with `restoreInitialState` false, `Denoise`
returns and, for every resource of the snapshot, the table's current (`after`)
state is the state the denoiser reported for it, that is the state of the last
element of `unique` that points to it. With `unique` free of repetitions this
holds for every element, `before` then holds the state the resource had at the
call and the handle is kept. -/
theorem Denoise_writes_reported_states (sh : NrdModeSH)
    (nrdDenoise : List (ResourceType × Resource) → ResourceSnapshot)
    (tbl : List TextureBarrierDesc) (filled : List (ResourceType × Resource))
    (hfill : fillSnapshot tbl (snapshotSlots sh) = some filled)
    (hflag : (nrdDenoise filled).restoreInitialState = false)
    (hptr : ∀ u ∈ (nrdDenoise filled).unique, u.userArg < tbl.length) :
    ∃ tbl1, Denoise sh nrdDenoise tbl = some tbl1 ∧
      (∀ before u later, (nrdDenoise filled).unique = before ++ u :: later →
        (∀ v ∈ later, v.userArg ≠ u.userArg) →
        ∃ entry, tbl1[u.userArg]? = some entry ∧ entry.after = u.state) ∧
      (((nrdDenoise filled).unique.map (fun u => u.userArg)).Nodup →
        ∀ u ∈ (nrdDenoise filled).unique, ∃ old entry, tbl[u.userArg]? = some old ∧
          tbl1[u.userArg]? = some entry ∧ entry.after = u.state ∧
          entry.before = old.after ∧ entry.texture = old.texture) := by
  obtain ⟨tbl1, h1⟩ := retrieveState_total _ tbl hptr
  refine ⟨tbl1, ?_, ?_, ?_⟩
  · simp only [Denoise, hfill, hflag, Bool.not_false, if_true, h1]
  · intro before u later hsplit hlast
    rw [hsplit] at h1
    exact retrieveState_last before u later tbl tbl1 h1 hlast
  · intro hunique u hu
    obtain ⟨old, hold, hnew⟩ := retrieveState_entry _ _ _ h1 hunique u hu
    exact ⟨old, _, hold, hnew, rfl, rfl, rfl⟩

/-- Witness of C3: the initial table and a library call reporting two states. -/
theorem Denoise_writes_reported_states_witness :
    fillSnapshot sampleTable (snapshotSlots false) = some sampleFilled ∧
    (sampleNrdDenoise sampleFilled).restoreInitialState = false ∧
    (∀ u ∈ (sampleNrdDenoise sampleFilled).unique, u.userArg < sampleTable.length) ∧
    ((sampleNrdDenoise sampleFilled).unique.map (fun u => u.userArg)).Nodup ∧
    ∃ tbl1, Denoise false sampleNrdDenoise sampleTable = some tbl1 ∧
      (∀ before u later, (sampleNrdDenoise sampleFilled).unique = before ++ u :: later →
        (∀ v ∈ later, v.userArg ≠ u.userArg) →
        ∃ entry, tbl1[u.userArg]? = some entry ∧ entry.after = u.state) ∧
      (((sampleNrdDenoise sampleFilled).unique.map (fun u => u.userArg)).Nodup →
        ∀ u ∈ (sampleNrdDenoise sampleFilled).unique, ∃ old entry,
          sampleTable[u.userArg]? = some old ∧
          tbl1[u.userArg]? = some entry ∧ entry.after = u.state ∧
          entry.before = old.after ∧ entry.texture = old.texture) :=
  ⟨by decide, by decide, by decide, by decide,
    Denoise_writes_reported_states false sampleNrdDenoise sampleTable sampleFilled
      (by decide) (by decide) (by decide)⟩

/-- C4: when the snapshot comes back with `restoreInitialState` true, `Denoise`
returns the table it was given: no entry is written. -/
theorem Denoise_restoreInitialState_keeps_table (sh : NrdModeSH)
    (nrdDenoise : List (ResourceType × Resource) → ResourceSnapshot)
    (tbl : List TextureBarrierDesc) (filled : List (ResourceType × Resource))
    (hfill : fillSnapshot tbl (snapshotSlots sh) = some filled)
    (hflag : (nrdDenoise filled).restoreInitialState = true) :
    Denoise sh nrdDenoise tbl = some tbl := by
  simp only [Denoise, hfill, hflag, Bool.not_true, Bool.false_eq_true, if_false]

/-- Witness of C4: the initial table and a library call that asks for the
initial states to be kept. -/
theorem Denoise_restoreInitialState_keeps_table_witness :
    fillSnapshot sampleTable (snapshotSlots false) = some sampleFilled ∧
    (sampleNrdRestore sampleFilled).restoreInitialState = true ∧
    Denoise false sampleNrdRestore sampleTable = some sampleTable :=
  ⟨by decide, by decide,
    Denoise_restoreInitialState_keeps_table false sampleNrdRestore sampleTable sampleFilled
      (by decide) (by decide)⟩

/-! ## Claims about the ping/pong selections of `RenderFrame` -/

theorem isEven_eq (frameIndex : Nat) : isEven frameIndex = decide (frameIndex % 2 = 0) := by
  rw [isEven, Nat.and_one_is_mod, Bool.eq_iff_iff]
  simp

theorem isEven_nextFrameIndex (frameIndex : Nat) :
    isEven (nextFrameIndex frameIndex) = !isEven frameIndex := by
  have h : (frameIndex + 1) % 2 ^ 32 % 2 = (frameIndex + 1) % 2 :=
    Nat.mod_mod_of_dvd _ (by norm_num)
  rw [isEven_eq, isEven_eq, nextFrameIndex, h]
  rcases Nat.mod_two_eq_zero_or_one frameIndex with h0 | h1
  · have : (frameIndex + 1) % 2 = 1 := by omega
    simp [h0, this]
  · have : (frameIndex + 1) % 2 = 0 := by omega
    simp [h1, this]

/-- C5: for every frame index, the next one taken in 32-bit arithmetic (so the
step from `2^32 - 1` to `0` is included), the texture written at frame `N` is
the texture read at frame `N + 1`, for the TAA history pair and for the stored
gradient pair, and within a frame the two members differ. -/
theorem pingpong_current_is_next_previous (frameIndex : Nat) :
    taaHistoryOutput (isEven frameIndex) = taaHistoryInput (isEven (nextFrameIndex frameIndex)) ∧
    currRadiance (isEven frameIndex) = prevRadiance (isEven (nextFrameIndex frameIndex)) ∧
    taaHistoryInput (isEven frameIndex) ≠ taaHistoryOutput (isEven frameIndex) ∧
    prevRadiance (isEven frameIndex) ≠ currRadiance (isEven frameIndex) := by
  rw [isEven_nextFrameIndex]
  cases isEven frameIndex <;> decide

/-- The step of the frame counter from `2^32 - 1` wraps to `0`. -/
theorem nextFrameIndex_wraps : nextFrameIndex (2 ^ 32 - 1) = 0 := by
  decide

/-- C6 fails on the code, at every frame and here at frame 0 on the initial
table: the bound set `SharcUpdatePing` exposes `Gradient_StoredPong` as a storage
texture and `Gradient_StoredPing` as a read-only texture, while the pass's
`BuildOptimizedTransitions` call leaves `Gradient_StoredPong` in shader-read
state and `Gradient_StoredPing` in shader-read-write state. -/
theorem sharcUpdate_frame0_states_contradict_bindings :
    sharcUpdateDescriptorSet (isEven 0) = SharcUpdatePing ∧
    Texture.Gradient_StoredPong ∈ (sharcUpdateDescriptorSet (isEven 0)).storageTextures ∧
    Texture.Gradient_StoredPing ∈ (sharcUpdateDescriptorSet (isEven 0)).textures ∧
    ((BuildOptimizedTransitions sampleTable (sharcUpdateTransitions (isEven 0))
        emptyTransitions).bind
        (fun r => r.m_TextureStates[Texture.Gradient_StoredPong]?)).map (fun e => e.after) =
      some ⟨AccessBits.SHADER_RESOURCE, Layout.SHADER_RESOURCE, StageBits.DEFAULT⟩ ∧
    ((BuildOptimizedTransitions sampleTable (sharcUpdateTransitions (isEven 0))
        emptyTransitions).bind
        (fun r => r.m_TextureStates[Texture.Gradient_StoredPing]?)).map (fun e => e.after) =
      some ⟨AccessBits.SHADER_RESOURCE_STORAGE, Layout.SHADER_RESOURCE_STORAGE,
        StageBits.DEFAULT⟩ := by
  decide

/-- The mismatch of C6 does not depend on the frame: at every frame the texture
the pass requires in shader-read state (`prevRadiance`) is a storage texture of
the bound set, and the one it requires in shader-read-write state
(`currRadiance`) is the read-only texture of the bound set. -/
theorem sharcUpdate_requirements_swapped (frameIndex : Nat) :
    sharcUpdateTransitions (isEven frameIndex) =
      [readState (prevRadiance (isEven frameIndex)),
        storageState (currRadiance (isEven frameIndex)), storageState Texture.Gradient_Ping] ∧
    prevRadiance (isEven frameIndex) ∈
      (sharcUpdateDescriptorSet (isEven frameIndex)).storageTextures ∧
    (sharcUpdateDescriptorSet (isEven frameIndex)).textures =
      [currRadiance (isEven frameIndex)] := by
  cases isEven frameIndex <;> decide

/-- C7: at every frame the requirement list of the TAA pass is the bound set read
back: its shader-read requirements are the read-only textures of the set
(`Mv`, `Composed`, `taaHistoryInput`), its shader-read-write requirement is the
storage texture of the set (`taaHistoryOutput`); and the NIS pass after it
(DLSS off) requires, passes to `Get` and passes to `GetDescriptor` that same
`taaHistoryOutput`. -/
theorem taa_history_slot_consistent (frameIndex : Nat) :
    (taaDescriptorSet (isEven frameIndex)).storageTextures =
      [taaHistoryOutput (isEven frameIndex)] ∧
    (taaDescriptorSet (isEven frameIndex)).textures =
      [Texture.Mv, Texture.Composed, taaHistoryInput (isEven frameIndex)] ∧
    taaTransitions (isEven frameIndex) =
      (taaDescriptorSet (isEven frameIndex)).textures.map readState ++
        (taaDescriptorSet (isEven frameIndex)).storageTextures.map storageState ∧
    taaDescriptorSet (isEven frameIndex) =
      (if frameIndex % 2 = 0 then TaaPing else TaaPong) ∧
    nisTransitions false (isEven frameIndex) =
      [readState (taaHistoryOutput (isEven frameIndex)), storageState Texture.PreFinal] ∧
    nisInput false (isEven frameIndex) =
      (taaHistoryOutput (isEven frameIndex), taaHistoryOutput (isEven frameIndex)) := by
  refine ⟨?_, ?_, ?_, ?_, ?_, ?_⟩
  · cases isEven frameIndex <;> decide
  · cases isEven frameIndex <;> decide
  · cases isEven frameIndex <;> decide
  · rw [isEven_eq]
    by_cases h : frameIndex % 2 = 0 <;> simp [h, taaDescriptorSet]
  · cases isEven frameIndex <;> decide
  · cases isEven frameIndex <;> decide

/-! ## Order of the emitted barriers -/

theorem take_succ_set (l : List TextureBarrierDesc) (n : Nat) (a : TextureBarrierDesc)
    (hn : n < l.length) : (l.set n a).take (n + 1) = l.take n ++ [a] := by
  rw [List.take_succ, List.getElem?_set_self hn]
  have h : (l.set n a).take n = l.take n := by
    apply List.ext_getElem?
    intro i
    rw [List.getElem?_take, List.getElem?_take]
    split
    · next h' => rw [List.getElem?_set_ne (by omega)]
    · rfl
  rw [h]
  rfl

/-- A call never changes the native handle stored in a table entry. -/
theorem from_handles (states : List TextureState) :
    ∀ (tbl tr : List TextureBarrierDesc) (n : Nat) (r : Transitions) (t : Texture),
      BuildOptimizedTransitionsFrom tbl tr n states = some r →
      (r.m_TextureStates[t]?).map (fun e => e.texture) = (tbl[t]?).map (fun e => e.texture) := by
  induction states with
  | nil =>
    intro tbl tr n r t h
    simp only [BuildOptimizedTransitionsFrom, Option.some.injEq] at h
    rw [← h]
  | cons s rest ih =>
    intro tbl tr n r t h
    obtain ⟨cur, hget, hcase⟩ := from_cons_some tbl tr n s rest r h
    rcases hcase with ⟨_, _, hr⟩ | ⟨_, hr⟩
    · rw [ih _ _ _ _ t hr]
      by_cases hst : s.texture = t
      · have hlt : t < tbl.length := by
          rw [← hst]; exact (List.getElem?_eq_some_iff.mp hget).1
        rw [hst] at hget ⊢
        rw [List.getElem?_set_self hlt, hget]
        rfl
      · rw [List.getElem?_set_ne hst]
    · exact ih _ _ _ _ t hr

/-- The record written for requirement `i` when it gets a barrier, none
otherwise. -/
theorem emitted_prefix (tbl : List TextureBarrierDesc) (states : List TextureState)
    (tr : List TextureBarrierDesc)
    (hrange : ∀ s ∈ states, s.texture < tbl.length)
    (hlen : states.length ≤ MAX_TEXTURE_TRANSITIONS_NUM)
    (htr : tr.length = MAX_TEXTURE_TRANSITIONS_NUM) :
    ∀ k, k ≤ states.length →
      ∃ rk, reachedAt tbl states tr k = some rk ∧
        rk.transitions.length = tr.length ∧
        rk.n = ((List.range k).filter (emitsAt tbl states tr)).length ∧
        rk.emitted = (List.range k).filterMap (fun i =>
          if emitsAt tbl states tr i = true then
            (currentAt tbl states tr i).bind (fun cur => (states[i]?).map (barrierFor cur))
          else none) ∧
        rk.emitted.map (fun b => b.texture) =
          ((List.range k).filter (emitsAt tbl states tr)).filterMap (fun i =>
            (states[i]?).bind (fun s => (tbl[s.texture]?).map (fun e => e.texture))) := by
  intro k
  induction k with
  | zero =>
    intro _
    refine ⟨⟨tbl, tr, 0⟩, rfl, rfl, ?_, ?_, ?_⟩ <;> simp [Transitions.emitted]
  | succ k ih =>
    intro hk
    obtain ⟨rk, hrk, hl, hn, hem, htex⟩ := ih (by omega)
    have hk' : k < states.length := by omega
    obtain ⟨r0, cur, h0, hcur, hget, hn0, _, _, hemit, hnext⟩ :=
      reached_step tbl states tr k hk' hrange hlen
    rw [hrk] at h0
    cases h0
    have hlt : states[k].texture < tbl.length := hrange _ (List.getElem_mem _)
    have hhandle : cur.texture = (tbl[states[k].texture]).texture := by
      have h := from_handles (states.take k) tbl tr 0 rk states[k].texture hrk
      rw [hget, List.getElem?_eq_getElem hlt] at h
      simpa using h
    simp only [List.range_succ, List.filter_append, List.filterMap_append, List.length_append]
    cases hneed : (isStateChanged cur states[k] || isStorageBarrier cur states[k]) with
    | false =>
      rw [hneed] at hnext hemit
      simp only [Bool.false_eq_true, if_false] at hnext
      refine ⟨rk, hnext, hl, ?_, ?_, ?_⟩
      · simp [hemit, hn]
      · simp [hemit, hem]
      · simp [hemit, htex]
    | true =>
      rw [hneed] at hnext hemit
      simp only [if_true] at hnext
      have hroom : rk.n < rk.transitions.length := by rw [hl, htr]; omega
      refine ⟨_, hnext, by simpa using hl, ?_, ?_, ?_⟩
      · simp [hemit, hn]
      · simp only [Transitions.emitted] at hem ⊢
        rw [take_succ_set _ _ _ hroom, hem]
        simp [hemit, hcur, List.getElem?_eq_getElem hk']
      · simp only [Transitions.emitted] at htex ⊢
        rw [take_succ_set _ _ _ hroom, List.map_append, htex]
        simp [hemit, List.getElem?_eq_getElem hk', List.getElem?_eq_getElem hlt, barrierFor,
          TextureBarrierFromState, hhandle]

/-- C11: the emitted barriers `transitions[0..n-1]` are, in input order, the
records of exactly those requirements that needed a barrier, one record per
such requirement: the count is their number, and the textures of the records
are the native handles of the textures these requirements name. -/
theorem BuildOptimizedTransitions_preserves_order (tbl : List TextureBarrierDesc)
    (states : List TextureState) (tr : List TextureBarrierDesc)
    (hrange : ∀ s ∈ states, s.texture < tbl.length)
    (hlen : states.length ≤ MAX_TEXTURE_TRANSITIONS_NUM)
    (htr : tr.length = MAX_TEXTURE_TRANSITIONS_NUM) :
    ∃ r, BuildOptimizedTransitions tbl states tr = some r ∧
      r.n = ((List.range states.length).filter (emitsAt tbl states tr)).length ∧
      r.emitted = (List.range states.length).filterMap (fun i =>
        if emitsAt tbl states tr i = true then
          (currentAt tbl states tr i).bind (fun cur => (states[i]?).map (barrierFor cur))
        else none) ∧
      r.emitted.map (fun b => b.texture) =
        ((List.range states.length).filter (emitsAt tbl states tr)).filterMap (fun i =>
          (states[i]?).bind (fun s => (tbl[s.texture]?).map (fun e => e.texture))) := by
  obtain ⟨r, hr, _, hn, hem, htex⟩ :=
    emitted_prefix tbl states tr hrange hlen htr states.length (Nat.le_refl _)
  rw [reached_length] at hr
  exact ⟨r, hr, hn, hem, htex⟩

/-- Witness of C11: the TAA list of frame 0 followed by the NIS list of frame 0
as one requirement list on the initial table; `TaaHistoryPing` is named twice
and gets two barriers, in input order. -/
theorem BuildOptimizedTransitions_preserves_order_witness :
    (∀ s ∈ taaTransitions (isEven 0) ++ nisTransitions false (isEven 0),
      s.texture < sampleTable.length) ∧
    (taaTransitions (isEven 0) ++ nisTransitions false (isEven 0)).length ≤
      MAX_TEXTURE_TRANSITIONS_NUM ∧
    emptyTransitions.length = MAX_TEXTURE_TRANSITIONS_NUM ∧
    (BuildOptimizedTransitions sampleTable
        (taaTransitions (isEven 0) ++ nisTransitions false (isEven 0)) emptyTransitions).map
        (fun r => r.emitted.map (fun b => b.texture)) = some [23, 23, 26] ∧
    ∃ r, BuildOptimizedTransitions sampleTable
        (taaTransitions (isEven 0) ++ nisTransitions false (isEven 0)) emptyTransitions =
          some r ∧
      r.n = ((List.range (taaTransitions (isEven 0) ++
          nisTransitions false (isEven 0)).length).filter
        (emitsAt sampleTable (taaTransitions (isEven 0) ++ nisTransitions false (isEven 0))
          emptyTransitions)).length ∧
      r.emitted = (List.range (taaTransitions (isEven 0) ++
          nisTransitions false (isEven 0)).length).filterMap (fun i =>
        if emitsAt sampleTable (taaTransitions (isEven 0) ++ nisTransitions false (isEven 0))
            emptyTransitions i = true then
          (currentAt sampleTable (taaTransitions (isEven 0) ++ nisTransitions false (isEven 0))
            emptyTransitions i).bind
            (fun cur => ((taaTransitions (isEven 0) ++
              nisTransitions false (isEven 0))[i]?).map (barrierFor cur))
        else none) ∧
      r.emitted.map (fun b => b.texture) =
        ((List.range (taaTransitions (isEven 0) ++
            nisTransitions false (isEven 0)).length).filter
          (emitsAt sampleTable (taaTransitions (isEven 0) ++ nisTransitions false (isEven 0))
            emptyTransitions)).filterMap (fun i =>
          ((taaTransitions (isEven 0) ++ nisTransitions false (isEven 0))[i]?).bind
            (fun s => (sampleTable[s.texture]?).map (fun e => e.texture))) :=
  ⟨by decide, by decide, by decide, by decide,
    BuildOptimizedTransitions_preserves_order sampleTable
      (taaTransitions (isEven 0) ++ nisTransitions false (isEven 0)) emptyTransitions
      (by decide) (by decide) (by decide)⟩

/-! ## Facts about `PrepareFrame` -/

theorem toUInt32_of_nonneg (x : ℚ) (h0 : 0 ≤ x) (h1 : x < 2 ^ 32) :
    toUInt32 x = some ⌊x⌋.toNat := by
  have h : -1 < x := by linarith
  simp [toUInt32, h, h1]

theorem toUInt32_half : toUInt32 (1 / 2) = some 0 := by
  rw [toUInt32_of_nonneg _ (by norm_num) (by norm_num)]
  norm_num

theorem forceHistoryReset_iff (frameIndex : Nat) (m_SettingsPrev : Settings) (ui : UiResult) :
    forceHistoryReset frameIndex m_SettingsPrev ui = true ↔
      m_SettingsPrev.denoiser ≠ ui.m_Settings.denoiser ∨
      m_SettingsPrev.ortho ≠ ui.m_Settings.ortho ∨
      m_SettingsPrev.RR ≠ ui.m_Settings.RR ∨
      frameIndex = 0 ∨
      ui.resetButton = true ∨ ui.defaultsButton = true ∨ ui.testLoaded = true := by
  unfold forceHistoryReset
  by_cases h0 : frameIndex = 0
  · simp [h0]
  · by_cases h1 : m_SettingsPrev.RR = ui.m_Settings.RR <;>
    by_cases h2 : m_SettingsPrev.ortho = ui.m_Settings.ortho <;>
    by_cases h3 : m_SettingsPrev.denoiser = ui.m_Settings.denoiser <;>
    cases h4 : ui.testLoaded <;> cases h5 : ui.defaultsButton <;> cases h6 : ui.resetButton <;>
    simp [h0, h1, h2, h3]

theorem resetHistoryFactor_force (log2 : ℚ → ℚ) (m_SettingsPrev m_Settings : Settings)
    (t : ℚ) : resetHistoryFactor log2 true m_SettingsPrev m_Settings t = 0 := by
  simp [resetHistoryFactor]

/-- With the factor 0 both conversions give 0 and `PrepareFrame` returns. -/
theorem PrepareFrame_of_force (log2 : ℚ → ℚ) (reblurMax relaxMax frameIndex : Nat)
    (m_Settings : Settings) (ui : UiResult) (t : ℚ)
    (hforce : forceHistoryReset frameIndex m_Settings ui = true) :
    PrepareFrame log2 reblurMax relaxMax frameIndex m_Settings ui t =
      some
        { m_ForceHistoryReset := true
          resetHistoryFactor := 0
          m_Settings := adaptiveAccumulation reblurMax relaxMax ui.m_Settings t
          m_ReblurSettings := ⟨0, 0⟩
          m_RelaxSettings := ⟨0, 0, 0, 0⟩
          gMaxAccumulatedFrameNum := 0 } := by
  simp only [PrepareFrame, scaledCount, hforce, resetHistoryFactor_force, mul_zero, zero_add,
    toUInt32_half]

theorem resetHistoryFactor_bounds (log2 : ℚ → ℚ) (force : Bool) (prev cur : Settings) (t : ℚ)
    (ht : 0 ≤ t) :
    0 ≤ resetHistoryFactor log2 force prev cur t ∧ resetHistoryFactor log2 force prev cur t ≤ 1 := by
  unfold resetHistoryFactor
  cases force
  · simp only [Bool.false_eq_true, if_false]
    have hd : 0 ≤ |log2 (1 + emissionLevel cur) - log2 (1 + emissionLevel prev)| * 1000 / t :=
      div_nonneg (mul_nonneg (abs_nonneg _) (by norm_num)) ht
    have h1 : (1 : ℚ) ≤ 1 + 13421773 / 67108864 * (|log2 (1 + emissionLevel cur) -
        log2 (1 + emissionLevel prev)| * 1000 / t) := by linarith
    constructor
    · exact div_nonneg (by norm_num) (by linarith)
    · rw [div_le_one (by linarith)]
      exact h1
  · simp

theorem MAX_HISTORY_FRAME_NUM_le (reblurMax relaxMax : Nat) :
    0 ≤ MAX_HISTORY_FRAME_NUM reblurMax relaxMax ∧ MAX_HISTORY_FRAME_NUM reblurMax relaxMax ≤ 60 := by
  unfold MAX_HISTORY_FRAME_NUM
  constructor
  · exact Int.ofNat_nonneg _
  · have : min 60 (min reblurMax relaxMax) ≤ 60 := Nat.min_le_left _ _
    exact_mod_cast this

theorem adaptiveAccumulation_on (reblurMax relaxMax : Nat) (s : Settings) (t : ℚ)
    (h : s.adaptiveAccumulation = true) :
    (adaptiveAccumulation reblurMax relaxMax s t).maxAccumulatedFrameNum =
      min ((max (GetMaxAccumulatedFrameNum ACCUMULATION_TIME (min (1000 / t) 121)) 1 : Nat) : Int)
        (MAX_HISTORY_FRAME_NUM reblurMax relaxMax) ∧
    (adaptiveAccumulation reblurMax relaxMax s t).maxFastAccumulatedFrameNum =
      Int.tdiv (adaptiveAccumulation reblurMax relaxMax s t).maxAccumulatedFrameNum 5 := by
  simp [adaptiveAccumulation, h]

theorem adaptiveAccumulation_off (reblurMax relaxMax : Nat) (s : Settings) (t : ℚ)
    (h : s.adaptiveAccumulation = false) :
    adaptiveAccumulation reblurMax relaxMax s t = s := by
  simp [adaptiveAccumulation, h]

theorem adaptiveAccumulation_bounds (reblurMax relaxMax : Nat) (s : Settings) (t : ℚ)
    (h : s.adaptiveAccumulation = true) :
    0 ≤ (adaptiveAccumulation reblurMax relaxMax s t).maxAccumulatedFrameNum ∧
    (adaptiveAccumulation reblurMax relaxMax s t).maxAccumulatedFrameNum ≤
      MAX_HISTORY_FRAME_NUM reblurMax relaxMax ∧
    0 ≤ (adaptiveAccumulation reblurMax relaxMax s t).maxFastAccumulatedFrameNum ∧
    (adaptiveAccumulation reblurMax relaxMax s t).maxFastAccumulatedFrameNum ≤
      (adaptiveAccumulation reblurMax relaxMax s t).maxAccumulatedFrameNum := by
  obtain ⟨h1, h2⟩ := adaptiveAccumulation_on reblurMax relaxMax s t h
  have hM := MAX_HISTORY_FRAME_NUM_le reblurMax relaxMax
  have h0 : 0 ≤ (adaptiveAccumulation reblurMax relaxMax s t).maxAccumulatedFrameNum := by
    rw [h1]
    exact le_min (Int.ofNat_nonneg _) hM.1
  refine ⟨h0, ?_, ?_, ?_⟩
  · rw [h1]; exact min_le_right _ _
  · rw [h2]; exact Int.tdiv_nonneg h0 (by norm_num)
  · rw [h2]
    rw [Int.tdiv_eq_ediv h0 (by norm_num)]
    omega

theorem scaled_floor_bounds (n : Int) (f : ℚ) (hn : 0 ≤ n) (hf0 : 0 ≤ f) (hf1 : f ≤ 1) :
    0 ≤ (n : ℚ) * f + 1 / 2 ∧ (n : ℚ) * f + 1 / 2 < n + 1 ∧ ⌊(n : ℚ) * f + 1 / 2⌋ ≤ n ∧
      0 ≤ ⌊(n : ℚ) * f + 1 / 2⌋ := by
  have hnq : (0 : ℚ) ≤ n := by exact_mod_cast hn
  have h1 : (n : ℚ) * f ≤ n := by nlinarith
  have h2 : 0 ≤ (n : ℚ) * f := mul_nonneg hnq hf0
  refine ⟨by linarith, by linarith, ?_, ?_⟩
  · have : ⌊(n : ℚ) * f + 1 / 2⌋ < n + 1 := by
      rw [Int.floor_lt]
      push_cast
      linarith
    omega
  · exact Int.floor_nonneg.mpr (by linarith)

/-- With non-negative counts below `2^31` and a frame time that is not
negative, both conversions are defined and `PrepareFrame` returns the rounded
products. -/
theorem PrepareFrame_eq (log2 : ℚ → ℚ) (reblurMax relaxMax frameIndex : Nat)
    (m_Settings : Settings) (ui : UiResult) (t : ℚ) (ht : 0 ≤ t)
    (h0 : 0 ≤ (adaptiveAccumulation reblurMax relaxMax ui.m_Settings t).maxAccumulatedFrameNum)
    (h1 : (adaptiveAccumulation reblurMax relaxMax ui.m_Settings t).maxAccumulatedFrameNum <
      2 ^ 31)
    (h2 : 0 ≤ (adaptiveAccumulation reblurMax relaxMax ui.m_Settings t).maxFastAccumulatedFrameNum)
    (h3 : (adaptiveAccumulation reblurMax relaxMax ui.m_Settings t).maxFastAccumulatedFrameNum <
      2 ^ 31) :
    PrepareFrame log2 reblurMax relaxMax frameIndex m_Settings ui t =
      some
        { m_ForceHistoryReset := forceHistoryReset frameIndex m_Settings ui
          resetHistoryFactor := resetHistoryFactor log2
            (forceHistoryReset frameIndex m_Settings ui) m_Settings ui.m_Settings t
          m_Settings := adaptiveAccumulation reblurMax relaxMax ui.m_Settings t
          m_ReblurSettings :=
            ⟨⌊((adaptiveAccumulation reblurMax relaxMax ui.m_Settings t).maxAccumulatedFrameNum : ℚ) *
                resetHistoryFactor log2 (forceHistoryReset frameIndex m_Settings ui) m_Settings
                  ui.m_Settings t + 1 / 2⌋.toNat,
              ⌊((adaptiveAccumulation reblurMax relaxMax ui.m_Settings t).maxFastAccumulatedFrameNum : ℚ) *
                resetHistoryFactor log2 (forceHistoryReset frameIndex m_Settings ui) m_Settings
                  ui.m_Settings t + 1 / 2⌋.toNat⟩
          m_RelaxSettings :=
            ⟨⌊((adaptiveAccumulation reblurMax relaxMax ui.m_Settings t).maxAccumulatedFrameNum : ℚ) *
                resetHistoryFactor log2 (forceHistoryReset frameIndex m_Settings ui) m_Settings
                  ui.m_Settings t + 1 / 2⌋.toNat,
              ⌊((adaptiveAccumulation reblurMax relaxMax ui.m_Settings t).maxFastAccumulatedFrameNum : ℚ) *
                resetHistoryFactor log2 (forceHistoryReset frameIndex m_Settings ui) m_Settings
                  ui.m_Settings t + 1 / 2⌋.toNat,
              ⌊((adaptiveAccumulation reblurMax relaxMax ui.m_Settings t).maxAccumulatedFrameNum : ℚ) *
                resetHistoryFactor log2 (forceHistoryReset frameIndex m_Settings ui) m_Settings
                  ui.m_Settings t + 1 / 2⌋.toNat,
              ⌊((adaptiveAccumulation reblurMax relaxMax ui.m_Settings t).maxFastAccumulatedFrameNum : ℚ) *
                resetHistoryFactor log2 (forceHistoryReset frameIndex m_Settings ui) m_Settings
                  ui.m_Settings t + 1 / 2⌋.toNat⟩
          gMaxAccumulatedFrameNum :=
            ⌊((adaptiveAccumulation reblurMax relaxMax ui.m_Settings t).maxAccumulatedFrameNum : ℚ) *
              resetHistoryFactor log2 (forceHistoryReset frameIndex m_Settings ui) m_Settings
                ui.m_Settings t + 1 / 2⌋.toNat } := by
  obtain ⟨hf0, hf1⟩ := resetHistoryFactor_bounds log2 (forceHistoryReset frameIndex m_Settings ui)
    m_Settings ui.m_Settings t ht
  obtain ⟨ha, hb, _, _⟩ := scaled_floor_bounds _ _ h0 hf0 hf1
  obtain ⟨hc, hd, _, _⟩ := scaled_floor_bounds _ _ h2 hf0 hf1
  have e1 : ((adaptiveAccumulation reblurMax relaxMax ui.m_Settings t).maxAccumulatedFrameNum : ℚ)
      < 2 ^ 31 := by exact_mod_cast h1
  have e2 : ((adaptiveAccumulation reblurMax relaxMax ui.m_Settings t).maxFastAccumulatedFrameNum
      : ℚ) < 2 ^ 31 := by exact_mod_cast h3
  simp only [PrepareFrame, scaledCount]
  rw [toUInt32_of_nonneg _ ha (by linarith), toUInt32_of_nonneg _ hc (by linarith)]

/-! ## Claims about `PrepareFrame` -/

/-- C12: whenever `m_ForceHistoryReset` is true at the end of the reset
computation, `resetHistoryFactor` is 0, whatever the emission flags, the
emission intensities, the logarithm and the smoothed frame time are; and
`PrepareFrame` returns with this factor. -/
theorem resetHistoryFactor_zero_of_forceReset (log2 : ℚ → ℚ) (reblurMax relaxMax frameIndex : Nat)
    (m_Settings : Settings) (ui : UiResult) (verySmoothedFrameTime : ℚ)
    (hforce : forceHistoryReset frameIndex m_Settings ui = true) :
    resetHistoryFactor log2 (forceHistoryReset frameIndex m_Settings ui) m_Settings
        ui.m_Settings verySmoothedFrameTime = 0 ∧
      ∃ frame, PrepareFrame log2 reblurMax relaxMax frameIndex m_Settings ui
          verySmoothedFrameTime = some frame ∧
        frame.m_ForceHistoryReset = true ∧ frame.resetHistoryFactor = 0 := by
  refine ⟨by rw [hforce]; exact resetHistoryFactor_force _ _ _ _, _,
    PrepareFrame_of_force log2 reblurMax relaxMax frameIndex m_Settings ui
      verySmoothedFrameTime hforce, rfl, rfl⟩

/-- Witness of C12: the emission is switched off and the "Reset" button is
pressed in the same frame. -/
theorem resetHistoryFactor_zero_of_forceReset_witness :
    forceHistoryReset 5 sampleSettings
        ⟨{ sampleSettings with emission := false }, true, false, false⟩ = true ∧
      (resetHistoryFactor sampleLog2
          (forceHistoryReset 5 sampleSettings
            ⟨{ sampleSettings with emission := false }, true, false, false⟩)
          sampleSettings
          (UiResult.mk { sampleSettings with emission := false } true false false).m_Settings
          (50 / 3) = 0 ∧
        ∃ frame, PrepareFrame sampleLog2 63 255 5 sampleSettings
            ⟨{ sampleSettings with emission := false }, true, false, false⟩ (50 / 3) =
              some frame ∧
          frame.m_ForceHistoryReset = true ∧ frame.resetHistoryFactor = 0) :=
  ⟨by decide,
    resetHistoryFactor_zero_of_forceReset sampleLog2 63 255 5 sampleSettings
      ⟨{ sampleSettings with emission := false }, true, false, false⟩ (50 / 3) (by decide)⟩

/-- C17: on frame 0, for every frame time, every logarithm, every history cap
and every settings value before and after the UI (adaptive accumulation on or
off), `PrepareFrame` returns with `m_ForceHistoryReset` true,
`resetHistoryFactor` 0 and the counts 0 in the REBLUR settings, in the RELAX
settings and in the constant buffer. -/
theorem PrepareFrame_frame_zero (log2 : ℚ → ℚ) (reblurMax relaxMax : Nat)
    (m_Settings : Settings) (ui : UiResult) (verySmoothedFrameTime : ℚ) :
    ∃ frame, PrepareFrame log2 reblurMax relaxMax 0 m_Settings ui verySmoothedFrameTime =
        some frame ∧
      frame.m_ForceHistoryReset = true ∧ frame.resetHistoryFactor = 0 ∧
      frame.m_ReblurSettings.maxAccumulatedFrameNum = 0 ∧
      frame.m_ReblurSettings.maxFastAccumulatedFrameNum = 0 ∧
      frame.m_RelaxSettings.diffuseMaxAccumulatedFrameNum = 0 ∧
      frame.m_RelaxSettings.diffuseMaxFastAccumulatedFrameNum = 0 ∧
      frame.m_RelaxSettings.specularMaxAccumulatedFrameNum = 0 ∧
      frame.m_RelaxSettings.specularMaxFastAccumulatedFrameNum = 0 ∧
      frame.gMaxAccumulatedFrameNum = 0 := by
  have hforce : forceHistoryReset 0 m_Settings ui = true := by
    rw [forceHistoryReset_iff]
    exact Or.inr (Or.inr (Or.inr (Or.inl rfl)))
  exact ⟨_, PrepareFrame_of_force log2 reblurMax relaxMax 0 m_Settings ui verySmoothedFrameTime
    hforce, rfl, rfl, rfl, rfl, rfl, rfl, rfl, rfl, rfl⟩

/-- C20, as amended: at the end of the reset computation `m_ForceHistoryReset`
is true exactly when the denoiser, the projection mode or the RR toggle differs
from the previous frame's, or the frame index is 0, or the UI pressed "Reset",
pressed "Defaults" or loaded a test in this frame; with none of these it is
false, the flag being cleared at the start of `PrepareFrame`. -/
theorem forceHistoryReset_true_iff (frameIndex : Nat) (m_Settings : Settings) (ui : UiResult) :
    (forceHistoryReset frameIndex m_Settings ui = true ↔
      m_Settings.denoiser ≠ ui.m_Settings.denoiser ∨
      m_Settings.ortho ≠ ui.m_Settings.ortho ∨
      m_Settings.RR ≠ ui.m_Settings.RR ∨
      frameIndex = 0 ∨
      ui.resetButton = true ∨ ui.defaultsButton = true ∨ ui.testLoaded = true) ∧
    (m_Settings.denoiser = ui.m_Settings.denoiser → m_Settings.ortho = ui.m_Settings.ortho →
      m_Settings.RR = ui.m_Settings.RR → frameIndex ≠ 0 →
      ui.resetButton = false → ui.defaultsButton = false → ui.testLoaded = false →
      forceHistoryReset frameIndex m_Settings ui = false) := by
  refine ⟨forceHistoryReset_iff frameIndex m_Settings ui, ?_⟩
  intro h1 h2 h3 h4 h5 h6 h7
  have h := forceHistoryReset_iff frameIndex m_Settings ui
  cases hf : forceHistoryReset frameIndex m_Settings ui with
  | false => rfl
  | true =>
    rw [hf] at h
    have := h.mp rfl
    simp [h1, h2, h3, h4, h5, h6, h7] at this

/-- C20 as stated fails: at frame 5 nothing differs from the previous frame and
"Reset" is not pressed, but "Defaults" is pressed (the settings already being
the defaults): `m_ForceHistoryReset` is true. -/
theorem forceHistoryReset_defaults_counterexample :
    (sampleIdleUi sampleSettings).m_Settings.denoiser = sampleSettings.denoiser ∧
    (sampleIdleUi sampleSettings).m_Settings.ortho = sampleSettings.ortho ∧
    (sampleIdleUi sampleSettings).m_Settings.RR = sampleSettings.RR ∧
    (5 : Nat) ≠ 0 ∧
    (UiResult.mk sampleSettings false true false).resetButton = false ∧
    forceHistoryReset 5 sampleSettings ⟨sampleSettings, false, true, false⟩ = true := by
  decide

theorem floor_half_toNat (n : Int) : ⌊(n : ℚ) * 1 + 1 / 2⌋.toNat = n.toNat := by
  have h : ⌊(n : ℚ) * 1 + 1 / 2⌋ = n := by
    rw [Int.floor_eq_iff]
    constructor <;> norm_num
  rw [h]

/-- C13: when the emission flag and both emission intensities are those of the
previous frame and there is no mode change (denoiser, ortho and RR unchanged,
frame index not 0, neither "Reset" nor "Defaults" pressed and no test loaded),
`m_ForceHistoryReset` is false and `resetHistoryFactor` is 1, for every positive
smoothed frame time. -/
theorem resetHistoryFactor_one_of_unchanged (log2 : ℚ → ℚ) (reblurMax relaxMax frameIndex : Nat)
    (m_Settings : Settings) (ui : UiResult) (verySmoothedFrameTime : ℚ)
    (hemission : ui.m_Settings.emission = m_Settings.emission)
    (hlights : ui.m_Settings.emissionIntensityLights = m_Settings.emissionIntensityLights)
    (hcubes : ui.m_Settings.emissionIntensityCubes = m_Settings.emissionIntensityCubes)
    (hdenoiser : ui.m_Settings.denoiser = m_Settings.denoiser)
    (hortho : ui.m_Settings.ortho = m_Settings.ortho)
    (hRR : ui.m_Settings.RR = m_Settings.RR)
    (hframe : frameIndex ≠ 0)
    (hreset : ui.resetButton = false) (hdefaults : ui.defaultsButton = false)
    (htest : ui.testLoaded = false)
    (_ht : 0 < verySmoothedFrameTime) :
    forceHistoryReset frameIndex m_Settings ui = false ∧
      resetHistoryFactor log2 (forceHistoryReset frameIndex m_Settings ui) m_Settings
        ui.m_Settings verySmoothedFrameTime = 1 ∧
      ∀ frame, PrepareFrame log2 reblurMax relaxMax frameIndex m_Settings ui
          verySmoothedFrameTime = some frame →
        frame.m_ForceHistoryReset = false ∧ frame.resetHistoryFactor = 1 := by
  have hforce : forceHistoryReset frameIndex m_Settings ui = false := by
    cases hf : forceHistoryReset frameIndex m_Settings ui with
    | false => rfl
    | true =>
      have := (forceHistoryReset_iff frameIndex m_Settings ui).mp hf
      simp [hdenoiser, hortho, hRR, hframe, hreset, hdefaults, htest] at this
  have hlevel : emissionLevel ui.m_Settings = emissionLevel m_Settings := by
    simp [emissionLevel, hemission, hlights, hcubes]
  have hfactor : resetHistoryFactor log2 (forceHistoryReset frameIndex m_Settings ui) m_Settings
      ui.m_Settings verySmoothedFrameTime = 1 := by
    simp [resetHistoryFactor, hforce, hlevel]
  refine ⟨hforce, hfactor, ?_⟩
  intro frame hframe'
  simp only [PrepareFrame] at hframe'
  split at hframe'
  · cases hframe'
    exact ⟨hforce, hfactor⟩
  · cases hframe'

/-- Witness of C13: the default settings, an idle UI pass at frame 5 and 60
frames per second. -/
theorem resetHistoryFactor_one_of_unchanged_witness :
    forceHistoryReset 5 sampleSettings (sampleIdleUi sampleSettings) = false ∧
      resetHistoryFactor sampleLog2 (forceHistoryReset 5 sampleSettings (sampleIdleUi sampleSettings))
        sampleSettings (sampleIdleUi sampleSettings).m_Settings (50 / 3) = 1 ∧
      ∀ frame, PrepareFrame sampleLog2 63 255 5 sampleSettings (sampleIdleUi sampleSettings)
          (50 / 3) = some frame →
        frame.m_ForceHistoryReset = false ∧ frame.resetHistoryFactor = 1 :=
  resetHistoryFactor_one_of_unchanged sampleLog2 63 255 5 sampleSettings
    (sampleIdleUi sampleSettings) (50 / 3) rfl rfl rfl rfl rfl rfl (by decide) rfl rfl rfl
    (by norm_num)

theorem one_le_MAX_HISTORY_FRAME_NUM (k reblurMax relaxMax : Nat) (hk : k ≤ 60)
    (hrb : k ≤ reblurMax) (hrl : k ≤ relaxMax) :
    (k : Int) ≤ MAX_HISTORY_FRAME_NUM reblurMax relaxMax := by
  unfold MAX_HISTORY_FRAME_NUM
  have : k ≤ min 60 (min reblurMax relaxMax) := le_min hk (le_min hrb hrl)
  exact_mod_cast this

theorem GetMax_60 : GetMaxAccumulatedFrameNum ACCUMULATION_TIME 60 = 20 := by
  norm_num [GetMaxAccumulatedFrameNum, ACCUMULATION_TIME]
  rfl

theorem floor_20_toNat : ⌊(20 : ℚ) * 1 + 1 / 2⌋.toNat = 20 := by
  have := floor_half_toNat 20
  simpa using this

theorem floor_4_toNat : ⌊(4 : ℚ) * 1 + 1 / 2⌋.toNat = 4 := by
  have := floor_half_toNat 4
  simpa using this

/-- Around 60 frames per second the helper gives 20: the sum it truncates lies
between 20.13 and 20.47. -/
theorem GetMax_near_60 (fps : ℚ) (hlo : 119 / 2 ≤ fps) (hhi : fps ≤ 121 / 2) :
    GetMaxAccumulatedFrameNum ACCUMULATION_TIME fps = 20 := by
  unfold GetMaxAccumulatedFrameNum ACCUMULATION_TIME
  have h : ⌊(11072963 / 33554432 : ℚ) * fps + 1 / 2⌋ = 20 := by
    rw [Int.floor_eq_iff]
    constructor
    · push_cast; linarith
    · push_cast; linarith
  rw [h]
  rfl

/-- C18: with adaptive accumulation on, the stored fast count is the integer
quotient of the stored count by 5 (`5 * fast <= count < 5 * fast + 5`); and at
60 frames per second, more precisely for every smoothed frame time with
`59.5 <= 1000 / frameTime <= 60.5`, with `resetHistoryFactor` 1 (library caps
of at least 20) `PrepareFrame` returns with the stored counts 20 and 4 and hands
20 and 4 to REBLUR and RELAX and 20 to the constant buffer. -/
theorem adaptive_scenario_60fps (log2 : ℚ → ℚ) (reblurMax relaxMax frameIndex : Nat)
    (m_Settings : Settings) (ui : UiResult) (verySmoothedFrameTime : ℚ)
    (hadaptive : ui.m_Settings.adaptiveAccumulation = true) :
    ((adaptiveAccumulation reblurMax relaxMax ui.m_Settings
          verySmoothedFrameTime).maxFastAccumulatedFrameNum =
        Int.tdiv (adaptiveAccumulation reblurMax relaxMax ui.m_Settings
          verySmoothedFrameTime).maxAccumulatedFrameNum 5 ∧
      5 * (adaptiveAccumulation reblurMax relaxMax ui.m_Settings
          verySmoothedFrameTime).maxFastAccumulatedFrameNum ≤
        (adaptiveAccumulation reblurMax relaxMax ui.m_Settings
          verySmoothedFrameTime).maxAccumulatedFrameNum ∧
      (adaptiveAccumulation reblurMax relaxMax ui.m_Settings
          verySmoothedFrameTime).maxAccumulatedFrameNum <
        5 * (adaptiveAccumulation reblurMax relaxMax ui.m_Settings
          verySmoothedFrameTime).maxFastAccumulatedFrameNum + 5) ∧
    (119 / 2 ≤ 1000 / verySmoothedFrameTime → 1000 / verySmoothedFrameTime ≤ 121 / 2 →
      resetHistoryFactor log2 (forceHistoryReset frameIndex m_Settings ui) m_Settings
        ui.m_Settings verySmoothedFrameTime = 1 →
      20 ≤ reblurMax → 20 ≤ relaxMax →
      ∃ frame, PrepareFrame log2 reblurMax relaxMax frameIndex m_Settings ui
          verySmoothedFrameTime = some frame ∧
        frame.m_Settings.maxAccumulatedFrameNum = 20 ∧
        frame.m_Settings.maxFastAccumulatedFrameNum = 4 ∧
        frame.m_ReblurSettings = ⟨20, 4⟩ ∧
        frame.m_RelaxSettings = ⟨20, 4, 20, 4⟩ ∧
        frame.gMaxAccumulatedFrameNum = 20) := by
  obtain ⟨h0, h1, h2, h3⟩ :=
    adaptiveAccumulation_bounds reblurMax relaxMax ui.m_Settings verySmoothedFrameTime hadaptive
  have hM := MAX_HISTORY_FRAME_NUM_le reblurMax relaxMax
  obtain ⟨hval, hfast⟩ :=
    adaptiveAccumulation_on reblurMax relaxMax ui.m_Settings verySmoothedFrameTime hadaptive
  refine ⟨⟨hfast, ?_, ?_⟩, ?_⟩
  · rw [hfast, Int.tdiv_eq_ediv h0 (by norm_num)]
    omega
  · rw [hfast, Int.tdiv_eq_ediv h0 (by norm_num)]
    omega
  · intro hlo hhi hfactor hrb hrl
    have ht : 0 ≤ verySmoothedFrameTime := by
      by_contra hneg
      push_neg at hneg
      have : 1000 / verySmoothedFrameTime < 0 := div_neg_of_pos_of_neg (by norm_num) hneg
      linarith
    have hmax : (adaptiveAccumulation reblurMax relaxMax ui.m_Settings
        verySmoothedFrameTime).maxAccumulatedFrameNum = 20 := by
      rw [hval]
      have hmin : min (1000 / verySmoothedFrameTime) 121 = 1000 / verySmoothedFrameTime :=
        min_eq_left (by linarith)
      rw [hmin, GetMax_near_60 _ hlo hhi]
      have hcap := one_le_MAX_HISTORY_FRAME_NUM 20 reblurMax relaxMax (by norm_num) hrb hrl
      have hm : ((max 20 1 : Nat) : Int) = 20 := by norm_num
      rw [hm]
      exact min_eq_left hcap
    have hfast4 : (adaptiveAccumulation reblurMax relaxMax ui.m_Settings
        verySmoothedFrameTime).maxFastAccumulatedFrameNum = 4 := by
      rw [hfast, hmax]
      rfl
    have heq := PrepareFrame_eq log2 reblurMax relaxMax frameIndex m_Settings ui
      verySmoothedFrameTime ht h0 (by omega) h2 (by omega)
    rw [hfactor, hmax, hfast4] at heq
    refine ⟨_, heq, hmax, hfast4, ?_, ?_, ?_⟩
    · simp only [Int.cast_ofNat, floor_20_toNat, floor_4_toNat]
    · simp only [Int.cast_ofNat, floor_20_toNat, floor_4_toNat]
    · simp only [Int.cast_ofNat, floor_20_toNat]

/-- Witness of C18: the default settings, an idle UI pass at frame 5 and the
smoothed frame time `8738133 / 2^19` ms, the binary32 number nearest to 50/3. -/
theorem adaptive_scenario_60fps_witness :
    (119 / 2 : ℚ) ≤ 1000 / (8738133 / 524288) ∧
    (1000 / (8738133 / 524288) : ℚ) ≤ 121 / 2 ∧
    resetHistoryFactor sampleLog2 (forceHistoryReset 5 sampleSettings (sampleIdleUi sampleSettings))
      sampleSettings (sampleIdleUi sampleSettings).m_Settings (8738133 / 524288) = 1 ∧
    ∃ frame, PrepareFrame sampleLog2 63 255 5 sampleSettings (sampleIdleUi sampleSettings)
        (8738133 / 524288) = some frame ∧
      frame.m_Settings.maxAccumulatedFrameNum = 20 ∧
      frame.m_Settings.maxFastAccumulatedFrameNum = 4 ∧
      frame.m_ReblurSettings = ⟨20, 4⟩ ∧
      frame.m_RelaxSettings = ⟨20, 4, 20, 4⟩ ∧
      frame.gMaxAccumulatedFrameNum = 20 :=
  have hlo : (119 / 2 : ℚ) ≤ 1000 / (8738133 / 524288) := by norm_num
  have hhi : (1000 / (8738133 / 524288) : ℚ) ≤ 121 / 2 := by norm_num
  have hfactor : resetHistoryFactor sampleLog2
      (forceHistoryReset 5 sampleSettings (sampleIdleUi sampleSettings))
      sampleSettings (sampleIdleUi sampleSettings).m_Settings (8738133 / 524288) = 1 := by
    simp [resetHistoryFactor, forceHistoryReset, sampleIdleUi]
  ⟨hlo, hhi, hfactor,
    (adaptive_scenario_60fps sampleLog2 63 255 5 sampleSettings (sampleIdleUi sampleSettings)
      (8738133 / 524288) rfl).2 hlo hhi hfactor (by norm_num) (by norm_num)⟩

/-- Witness of C20 (amended): an idle UI pass at frame 5. -/
theorem forceHistoryReset_true_iff_witness :
    forceHistoryReset 5 sampleSettings (sampleIdleUi sampleSettings) = false :=
  (forceHistoryReset_true_iff 5 sampleSettings (sampleIdleUi sampleSettings)).2
    rfl rfl rfl (by decide) rfl rfl rfl

/-- While no requirement on texture `t` gets a barrier, the entry of `t` is the
one the call started with. -/
theorem reached_quiet (tbl : List TextureBarrierDesc) (states : List TextureState)
    (tr : List TextureBarrierDesc)
    (hrange : ∀ s ∈ states, s.texture < tbl.length)
    (hlen : states.length ≤ MAX_TEXTURE_TRANSITIONS_NUM) (t : Texture)
    (hquiet : ∀ i (hi : i < states.length), states[i].texture = t →
      emitsAt tbl states tr i = false) :
    ∀ k, k ≤ states.length →
      ∃ rk, reachedAt tbl states tr k = some rk ∧ rk.m_TextureStates[t]? = tbl[t]? := by
  intro k
  induction k with
  | zero => intro _; exact ⟨⟨tbl, tr, 0⟩, rfl, rfl⟩
  | succ k ih =>
    intro hk
    obtain ⟨rk, hrk, hsame⟩ := ih (by omega)
    have hk' : k < states.length := by omega
    obtain ⟨r0, cur, h0, _, _, _, _, _, hem, hnext⟩ :=
      reached_step tbl states tr k hk' hrange hlen
    rw [hrk] at h0
    cases h0
    cases hneed : (isStateChanged cur states[k] || isStorageBarrier cur states[k]) with
    | false =>
      rw [hneed] at hnext
      simp only [Bool.false_eq_true, if_false] at hnext
      exact ⟨rk, hnext, hsame⟩
    | true =>
      rw [hneed] at hnext hem
      simp only [if_true] at hnext
      have hne : states[k].texture ≠ t := by
        intro heq
        have := hquiet k hk' heq
        rw [hem] at this
        exact Bool.noConfusion this
      refine ⟨_, hnext, ?_⟩
      simp only
      rw [List.getElem?_set_ne hne]
      exact hsame

/-- A call writes the output array only at the indices from the starting write
index up to, and not including, the returned count. -/
theorem from_writes (states : List TextureState) :
    ∀ (tbl tr : List TextureBarrierDesc) (n : Nat) (r : Transitions),
      BuildOptimizedTransitionsFrom tbl tr n states = some r →
      ∀ k, k < n ∨ r.n ≤ k → r.transitions[k]? = tr[k]? := by
  induction states with
  | nil =>
    intro tbl tr n r h k _
    simp only [BuildOptimizedTransitionsFrom, Option.some.injEq] at h
    rw [← h]
  | cons s rest ih =>
    intro tbl tr n r h k hk
    obtain ⟨cur, _, hcase⟩ := from_cons_some tbl tr n s rest r h
    rcases hcase with ⟨_, _, hr⟩ | ⟨_, hr⟩
    · obtain ⟨_, _, hn, _⟩ := from_shape _ _ _ _ _ hr
      rw [ih _ _ _ _ hr k (by omega)]
      exact List.getElem?_set_ne (by omega)
    · exact ih _ _ _ _ hr k hk

theorem currentAccessLayout_lt (tbl : List TextureBarrierDesc) (t : Texture) :
    t < tbl.length ↔ (currentAccessLayout tbl t).isSome = true := by
  unfold currentAccessLayout
  by_cases h : t < tbl.length
  · simp [List.getElem?_eq_getElem h, h]
  · have hge : tbl.length ≤ t := Nat.le_of_not_lt h
    have : tbl[t]? = none := List.getElem?_eq_none hge
    simp [this, h]

/-- The loop on two tables that hold the same access and layout for every
texture: the counts agree and the tables left agree again. -/
theorem from_agree (states : List TextureState) :
    ∀ (tbl1 tbl2 tr1 tr2 : List TextureBarrierDesc) (n : Nat) (r1 : Transitions),
      BuildOptimizedTransitionsFrom tbl1 tr1 n states = some r1 →
      (∀ t, currentAccessLayout tbl1 t = currentAccessLayout tbl2 t) →
      ∃ r2, BuildOptimizedTransitionsFrom tbl2 tr2 n states = some r2 ∧ r2.n = r1.n ∧
        ∀ t, currentAccessLayout r1.m_TextureStates t =
          currentAccessLayout r2.m_TextureStates t := by
  induction states with
  | nil =>
    intro tbl1 tbl2 tr1 tr2 n r1 h hagree
    simp only [BuildOptimizedTransitionsFrom, Option.some.injEq] at h
    subst h
    exact ⟨⟨tbl2, tr2, n⟩, rfl, rfl, hagree⟩
  | cons s rest ih =>
    intro tbl1 tbl2 tr1 tr2 n r1 h hagree
    obtain ⟨cur1, hget1, hcase⟩ := from_cons_some tbl1 tr1 n s rest r1 h
    have h1 : currentAccessLayout tbl1 s.texture =
        some (cur1.after.access, cur1.after.layout) :=
      (currentAccessLayout_eq_some _ _ _ _).mpr ⟨cur1, hget1, rfl, rfl⟩
    rw [hagree] at h1
    obtain ⟨cur2, hget2, ha, hl⟩ := (currentAccessLayout_eq_some _ _ _ _).mp h1
    have hneed : (isStateChanged cur2 s || isStorageBarrier cur2 s) =
        (isStateChanged cur1 s || isStorageBarrier cur1 s) := by
      simp only [isStateChanged, isStorageBarrier, ha, hl]
    have hlt1 : s.texture < tbl1.length := (List.getElem?_eq_some_iff.mp hget1).1
    have hlt2 : s.texture < tbl2.length := (List.getElem?_eq_some_iff.mp hget2).1
    rcases hcase with ⟨hem, hroom, hr⟩ | ⟨hskip, hr⟩
    · rw [from_cons_emit tbl2 tr2 n s rest cur2 hget2 (by rw [hneed]; exact hem) hroom]
      refine ih _ _ _ _ _ _ hr ?_
      intro t
      by_cases hst : s.texture = t
      · subst hst
        rw [currentAccessLayout_set_self _ _ _ hlt1, currentAccessLayout_set_self _ _ _ hlt2]
        rfl
      · rw [currentAccessLayout_set_ne _ _ _ _ hst, currentAccessLayout_set_ne _ _ _ _ hst]
        exact hagree t
    · rw [from_cons_skip tbl2 tr2 n s rest cur2 hget2 (by rw [hneed]; exact hskip)]
      exact ih _ _ _ _ _ _ hr hagree

/-- The `after` states of the emitted barriers: for each requirement that gets a
barrier, in input order, its access and layout with value-initialised stages. -/
theorem emitted_after (tbl : List TextureBarrierDesc) (states : List TextureState)
    (tr : List TextureBarrierDesc)
    (hrange : ∀ s ∈ states, s.texture < tbl.length)
    (hlen : states.length ≤ MAX_TEXTURE_TRANSITIONS_NUM)
    (htr : tr.length = MAX_TEXTURE_TRANSITIONS_NUM) :
    ∀ k, k ≤ states.length →
      ∃ rk, reachedAt tbl states tr k = some rk ∧
        rk.transitions.length = tr.length ∧
        rk.n ≤ k ∧
        rk.emitted.map (fun b => b.after) =
          ((List.range k).filter (emitsAt tbl states tr)).filterMap (fun i =>
            (states[i]?).map (fun s =>
              (⟨s.after.access, s.after.layout, StageBits.DEFAULT⟩ : AccessLayoutStage))) := by
  intro k
  induction k with
  | zero =>
    intro _
    refine ⟨⟨tbl, tr, 0⟩, rfl, rfl, ?_, ?_⟩ <;> simp [Transitions.emitted]
  | succ k ih =>
    intro hk
    obtain ⟨rk, hrk, hl, hn, hem⟩ := ih (by omega)
    have hk' : k < states.length := by omega
    obtain ⟨r0, cur, h0, _, _, _, _, _, hemit, hnext⟩ :=
      reached_step tbl states tr k hk' hrange hlen
    rw [hrk] at h0
    cases h0
    simp only [List.range_succ, List.filter_append, List.filterMap_append]
    cases hneed : (isStateChanged cur states[k] || isStorageBarrier cur states[k]) with
    | false =>
      rw [hneed] at hnext hemit
      simp only [Bool.false_eq_true, if_false] at hnext
      refine ⟨rk, hnext, hl, by omega, ?_⟩
      simp [hemit, hem]
    | true =>
      rw [hneed] at hnext hemit
      simp only [if_true] at hnext
      have hroom : rk.n < rk.transitions.length := by
        rw [hl, htr]; unfold MAX_TEXTURE_TRANSITIONS_NUM at hlen ⊢; omega
      refine ⟨_, hnext, by simpa using hl, by simp only; omega, ?_⟩
      simp only [Transitions.emitted] at hem ⊢
      rw [take_succ_set _ _ _ hroom, List.map_append, hem]
      simp [hemit, List.getElem?_eq_getElem hk', barrierFor, TextureBarrierFromState]

theorem currentAccessLayout_map (tbl : List TextureBarrierDesc) (t : Texture) :
    currentAccessLayout tbl t = (tbl.map (fun e => (e.after.access, e.after.layout)))[t]? := by
  simp [currentAccessLayout, List.getElem?_map]

theorem renderFrameTransitions_fit (sh : NrdModeSH) (isEven isDlssEnabled SR : Bool) :
    ∀ states ∈ renderFrameTransitions sh isEven isDlssEnabled SR,
      states.length ≤ MAX_TEXTURE_TRANSITIONS_NUM ∧
        ∀ s ∈ states, s.texture < Texture.BaseReadOnlyTexture sh := by
  cases sh <;> cases isEven <;> cases isDlssEnabled <;> cases SR <;> decide

/-- C27: for a table and a requirement list that index inside the table and fit
the output array, the call returns; the entry of every texture for which no
requirement gets a barrier is unchanged, be the texture not named in the list
or named only by requirements that need no barrier; and the native handle in
every entry is unchanged. -/
theorem BuildOptimizedTransitions_changes_only_emitted (tbl : List TextureBarrierDesc)
    (states : List TextureState) (tr : List TextureBarrierDesc)
    (hrange : ∀ s ∈ states, s.texture < tbl.length)
    (hlen : states.length ≤ MAX_TEXTURE_TRANSITIONS_NUM) :
    ∃ r, BuildOptimizedTransitions tbl states tr = some r ∧
      r.m_TextureStates.length = tbl.length ∧
      (∀ t : Texture, (∀ i state, states[i]? = some state → state.texture = t →
          emitsAt tbl states tr i = false) → r.m_TextureStates[t]? = tbl[t]?) ∧
      (∀ t : Texture, (∀ s ∈ states, s.texture ≠ t) → r.m_TextureStates[t]? = tbl[t]?) ∧
      (∀ t : Texture, (r.m_TextureStates[t]?).map (fun e => e.texture) =
        (tbl[t]?).map (fun e => e.texture)) := by
  obtain ⟨r, hr⟩ := from_total states tbl tr 0 hrange (by omega)
  obtain ⟨hl, _, _, _⟩ := from_shape _ _ _ _ _ hr
  refine ⟨r, hr, hl, ?_, ?_, ?_⟩
  · intro t hquiet
    obtain ⟨rk, hrk, hsame⟩ := reached_quiet tbl states tr hrange hlen t
      (fun i hi heq => hquiet i states[i] (List.getElem?_eq_getElem hi) heq)
      states.length (Nat.le_refl _)
    rw [reached_length] at hrk
    have : rk = r := by
      have h := hrk.symm.trans hr
      exact Option.some.inj h
    rw [← this]
    exact hsame
  · intro t hne
    exact from_untouched states tbl tr 0 r t hr hne
  · intro t
    exact from_handles states tbl tr 0 r t hr

/-- Witness of C27: the TAA pass of frame 0 on the initial table. `Mv` is named
and needs no barrier, `Final` is not named; both entries are unchanged. -/
theorem BuildOptimizedTransitions_changes_only_emitted_witness :
    (∀ s ∈ taaTransitions (isEven 0), s.texture < sampleTable.length) ∧
    (taaTransitions (isEven 0)).length ≤ MAX_TEXTURE_TRANSITIONS_NUM ∧
    emitsAt sampleTable (taaTransitions (isEven 0)) emptyTransitions 0 = false ∧
    emitsAt sampleTable (taaTransitions (isEven 0)) emptyTransitions 3 = true ∧
    ∃ r, BuildOptimizedTransitions sampleTable (taaTransitions (isEven 0)) emptyTransitions =
        some r ∧
      r.m_TextureStates.length = sampleTable.length ∧
      (∀ t : Texture, (∀ i state, (taaTransitions (isEven 0))[i]? = some state → state.texture = t →
          emitsAt sampleTable (taaTransitions (isEven 0)) emptyTransitions i = false) →
        r.m_TextureStates[t]? = sampleTable[t]?) ∧
      (∀ t : Texture, (∀ s ∈ taaTransitions (isEven 0), s.texture ≠ t) →
        r.m_TextureStates[t]? = sampleTable[t]?) ∧
      (∀ t : Texture, (r.m_TextureStates[t]?).map (fun e => e.texture) =
        (sampleTable[t]?).map (fun e => e.texture)) :=
  ⟨by decide, by decide, by decide, by decide,
    BuildOptimizedTransitions_changes_only_emitted sampleTable (taaTransitions (isEven 0))
      emptyTransitions (by decide) (by decide)⟩

/-- C28: two tables that hold the same access and layout for every texture, and
may differ in stage bits, in `before` states and in handles, give calls that
return with the same count, barriers for the same requirement indices, the same
`after` states in the emitted barriers, which all carry value-initialised stage
bits, and tables that again hold the same access and layout for every texture. -/
theorem BuildOptimizedTransitions_ignores_stage_bits (tbl1 tbl2 : List TextureBarrierDesc)
    (states : List TextureState) (tr1 tr2 : List TextureBarrierDesc)
    (hagree : tbl1.map (fun e => (e.after.access, e.after.layout)) =
      tbl2.map (fun e => (e.after.access, e.after.layout)))
    (hrange : ∀ s ∈ states, s.texture < tbl1.length)
    (hlen : states.length ≤ MAX_TEXTURE_TRANSITIONS_NUM)
    (htr1 : tr1.length = MAX_TEXTURE_TRANSITIONS_NUM)
    (htr2 : tr2.length = MAX_TEXTURE_TRANSITIONS_NUM) :
    ∃ r1 r2, BuildOptimizedTransitions tbl1 states tr1 = some r1 ∧
      BuildOptimizedTransitions tbl2 states tr2 = some r2 ∧
      r1.n = r2.n ∧
      (∀ i, emitsAt tbl1 states tr1 i = emitsAt tbl2 states tr2 i) ∧
      r1.emitted.map (fun b => b.after) = r2.emitted.map (fun b => b.after) ∧
      (∀ b ∈ r1.emitted, b.after.stages = StageBits.DEFAULT) ∧
      (∀ b ∈ r2.emitted, b.after.stages = StageBits.DEFAULT) ∧
      r1.m_TextureStates.map (fun e => (e.after.access, e.after.layout)) =
        r2.m_TextureStates.map (fun e => (e.after.access, e.after.layout)) := by
  have hagree' : ∀ t, currentAccessLayout tbl1 t = currentAccessLayout tbl2 t := by
    intro t
    rw [currentAccessLayout_map, currentAccessLayout_map, hagree]
  have hleneq : tbl1.length = tbl2.length := by
    have := congrArg List.length hagree
    simpa using this
  have hrange2 : ∀ s ∈ states, s.texture < tbl2.length := by
    intro s hs
    rw [← hleneq]
    exact hrange s hs
  have hemits : ∀ i, emitsAt tbl1 states tr1 i = emitsAt tbl2 states tr2 i := by
    intro i
    have hpre : ∀ k, ∃ a1 a2, reachedAt tbl1 states tr1 k = some a1 ∧
        reachedAt tbl2 states tr2 k = some a2 ∧ a2.n = a1.n := by
      intro k
      obtain ⟨a1, ha1⟩ := from_total (states.take k) tbl1 tr1 0
        (fun s hs => hrange s (List.mem_of_mem_take hs))
        (by simp only [List.length_take]; omega)
      obtain ⟨a2, ha2, hn, _⟩ := from_agree (states.take k) tbl1 tbl2 tr1 tr2 0 a1 ha1 hagree'
      exact ⟨a1, a2, ha1, ha2, hn⟩
    obtain ⟨a1, a2, ha1, ha2, hna⟩ := hpre i
    obtain ⟨b1, b2, hb1, hb2, hnb⟩ := hpre (i + 1)
    simp only [emitsAt, ha1, ha2, hb1, hb2, hna, hnb]
  have hfun : emitsAt tbl1 states tr1 = emitsAt tbl2 states tr2 := funext hemits
  obtain ⟨r1, hr1, _, _, hem1⟩ :=
    emitted_after tbl1 states tr1 hrange hlen htr1 states.length (Nat.le_refl _)
  obtain ⟨r2, hr2, _, _, hem2⟩ :=
    emitted_after tbl2 states tr2 hrange2 hlen htr2 states.length (Nat.le_refl _)
  rw [reached_length] at hr1 hr2
  obtain ⟨r2', hr2', hn, htbl⟩ := from_agree states tbl1 tbl2 tr1 tr2 0 r1 hr1 hagree'
  have hr2eq : r2' = r2 := Option.some.inj (hr2'.symm.trans hr2)
  subst hr2eq
  have hstages : ∀ (tbl : List TextureBarrierDesc) (tr : List TextureBarrierDesc)
      (r : Transitions),
      r.emitted.map (fun b => b.after) =
        ((List.range states.length).filter (emitsAt tbl states tr)).filterMap (fun i =>
          (states[i]?).map (fun s =>
            (⟨s.after.access, s.after.layout, StageBits.DEFAULT⟩ : AccessLayoutStage))) →
      ∀ b ∈ r.emitted, b.after.stages = StageBits.DEFAULT := by
    intro tbl tr r hem b hb
    have hmem : b.after ∈ r.emitted.map (fun b => b.after) := List.mem_map_of_mem _ hb
    rw [hem, List.mem_filterMap] at hmem
    obtain ⟨i, _, hi⟩ := hmem
    cases hs : states[i]? with
    | none => simp [hs] at hi
    | some s =>
      simp only [hs, Option.map_some', Option.some.injEq] at hi
      rw [← hi]
  refine ⟨r1, r2', hr1, hr2, hn.symm, hemits, ?_, hstages _ _ _ hem1, hstages _ _ _ hem2, ?_⟩
  · rw [hem1, hem2, hfun]
  · apply List.ext_getElem?
    intro t
    rw [← currentAccessLayout_map, ← currentAccessLayout_map]
    exact htbl t

/-- Witness of C28: the initial table and the table after the denoiser reported
`Mv` with the stage bits `COMPUTE_SHADER`, under the TAA list of frame 0. -/
theorem BuildOptimizedTransitions_ignores_stage_bits_witness :
    sampleTable ≠ sampleDenoisedTable ∧
    sampleTable.map (fun e => (e.after.access, e.after.layout)) =
      sampleDenoisedTable.map (fun e => (e.after.access, e.after.layout)) ∧
    (∀ s ∈ taaTransitions (isEven 0), s.texture < sampleTable.length) ∧
    (taaTransitions (isEven 0)).length ≤ MAX_TEXTURE_TRANSITIONS_NUM ∧
    emptyTransitions.length = MAX_TEXTURE_TRANSITIONS_NUM ∧
    ∃ r1 r2, BuildOptimizedTransitions sampleTable (taaTransitions (isEven 0))
        emptyTransitions = some r1 ∧
      BuildOptimizedTransitions sampleDenoisedTable (taaTransitions (isEven 0))
        emptyTransitions = some r2 ∧
      r1.n = r2.n ∧
      (∀ i, emitsAt sampleTable (taaTransitions (isEven 0)) emptyTransitions i =
        emitsAt sampleDenoisedTable (taaTransitions (isEven 0)) emptyTransitions i) ∧
      r1.emitted.map (fun b => b.after) = r2.emitted.map (fun b => b.after) ∧
      (∀ b ∈ r1.emitted, b.after.stages = StageBits.DEFAULT) ∧
      (∀ b ∈ r2.emitted, b.after.stages = StageBits.DEFAULT) ∧
      r1.m_TextureStates.map (fun e => (e.after.access, e.after.layout)) =
        r2.m_TextureStates.map (fun e => (e.after.access, e.after.layout)) :=
  ⟨by decide, by decide, by decide, by decide, by decide,
    BuildOptimizedTransitions_ignores_stage_bits sampleTable sampleDenoisedTable
      (taaTransitions (isEven 0)) emptyTransitions emptyTransitions
      (by decide) (by decide) (by decide) (by decide) (by decide)⟩

/-- C29: a call that returns leaves the array size, returns a count that is at
most the number of requirements and writes no element at or above the count;
each requirement list `RenderFrame` builds has at most
`MAX_TEXTURE_TRANSITIONS_NUM` elements and names textures below
`BaseReadOnlyTexture`, so on a table of that size and the array of
`MAX_TEXTURE_TRANSITIONS_NUM` elements the call returns with a count that is at
most `MAX_TEXTURE_TRANSITIONS_NUM`. -/
theorem BuildOptimizedTransitions_count_in_bounds (sh : NrdModeSH)
    (isEven isDlssEnabled SR : Bool) (tbl tr : List TextureBarrierDesc)
    (htbl : tbl.length = Texture.BaseReadOnlyTexture sh)
    (htr : tr.length = MAX_TEXTURE_TRANSITIONS_NUM) :
    (∀ (states : List TextureState) (m_TextureStates transitions : List TextureBarrierDesc)
        (r : Transitions),
      BuildOptimizedTransitions m_TextureStates states transitions = some r →
        r.n ≤ states.length ∧ r.transitions.length = transitions.length ∧
          ∀ k, r.n ≤ k → r.transitions[k]? = transitions[k]?) ∧
    ∀ states ∈ renderFrameTransitions sh isEven isDlssEnabled SR,
      states.length ≤ MAX_TEXTURE_TRANSITIONS_NUM ∧
      ∃ r, BuildOptimizedTransitions tbl states tr = some r ∧
        r.n ≤ states.length ∧ r.n ≤ MAX_TEXTURE_TRANSITIONS_NUM ∧
        r.transitions.length = MAX_TEXTURE_TRANSITIONS_NUM ∧
        ∀ k, r.n ≤ k → r.transitions[k]? = tr[k]? := by
  have hgen : ∀ (states : List TextureState)
      (m_TextureStates transitions : List TextureBarrierDesc) (r : Transitions),
      BuildOptimizedTransitions m_TextureStates states transitions = some r →
        r.n ≤ states.length ∧ r.transitions.length = transitions.length ∧
          ∀ k, r.n ≤ k → r.transitions[k]? = transitions[k]? := by
    intro states m_TextureStates transitions r hr
    obtain ⟨_, hl, _, hn⟩ := from_shape _ _ _ _ _ hr
    exact ⟨by omega, hl, fun k hk => from_writes states _ _ 0 r hr k (Or.inr hk)⟩
  refine ⟨hgen, ?_⟩
  intro states hstates
  obtain ⟨hfit, hin⟩ := renderFrameTransitions_fit sh isEven isDlssEnabled SR states hstates
  obtain ⟨r, hr⟩ := from_total states tbl tr 0 (fun s hs => by rw [htbl]; exact hin s hs)
    (by omega)
  obtain ⟨hn, hl, hw⟩ := hgen states tbl tr r hr
  exact ⟨hfit, r, hr, hn, by omega, by rw [hl, htr], hw⟩

/-- Witness of C29: the initial table and the value-initialised array; the list
of the pass "Trace opaque" is among the lists of a frame. -/
theorem BuildOptimizedTransitions_count_in_bounds_witness :
    sampleTable.length = Texture.BaseReadOnlyTexture false ∧
    emptyTransitions.length = MAX_TEXTURE_TRANSITIONS_NUM ∧
    traceOpaqueTransitions false ∈ renderFrameTransitions false true false false ∧
    (traceOpaqueTransitions false).length = 13 ∧
    ∃ r, BuildOptimizedTransitions sampleTable (traceOpaqueTransitions false)
        emptyTransitions = some r ∧
      r.n ≤ (traceOpaqueTransitions false).length ∧ r.n ≤ MAX_TEXTURE_TRANSITIONS_NUM ∧
      r.transitions.length = MAX_TEXTURE_TRANSITIONS_NUM ∧
      ∀ k, r.n ≤ k → r.transitions[k]? = emptyTransitions[k]? :=
  ⟨by decide, by decide, by decide, by decide,
    ((BuildOptimizedTransitions_count_in_bounds false true false false sampleTable
      emptyTransitions (by decide) (by decide)).2 (traceOpaqueTransitions false)
        (by decide)).2⟩

/-! ## Facts about the snapshot `Denoise` fills -/

theorem fillSnapshot_entries (tbl : List TextureBarrierDesc) :
    ∀ (calls : List (ResourceType × Texture)) (filled : List (ResourceType × Resource)),
      fillSnapshot tbl calls = some filled →
      filled.length = calls.length ∧
        ∀ (i : Nat) (slot : ResourceType) (texture : Texture), calls[i]? = some (slot, texture) →
          ∃ entry, tbl[texture]? = some entry ∧
            filled[i]? = some (slot, (⟨entry.after, texture, entry.texture⟩ : Resource)) := by
  intro calls
  induction calls with
  | nil =>
    intro filled h
    simp only [fillSnapshot, Option.some.injEq] at h
    subst h
    exact ⟨rfl, fun i slot texture hi => by simp at hi⟩
  | cons c rest ih =>
    intro filled h
    obtain ⟨slot0, index0⟩ := c
    cases hget : tbl[index0]? with
    | none => simp [fillSnapshot, GetNrdResource, hget] at h
    | some entry0 =>
      cases hrest : fillSnapshot tbl rest with
      | none => simp [fillSnapshot, GetNrdResource, hget, hrest] at h
      | some filled0 =>
        simp only [fillSnapshot, GetNrdResource, hget, hrest, Option.some.injEq] at h
        subst h
        obtain ⟨hl, hent⟩ := ih filled0 hrest
        refine ⟨by simp [hl], ?_⟩
        intro i slot texture hi
        cases i with
        | zero =>
          simp only [List.getElem?_cons_zero, Option.some.injEq, Prod.mk.injEq] at hi
          obtain ⟨rfl, rfl⟩ := hi
          exact ⟨entry0, hget, by simp⟩
        | succ j =>
          simp only [List.getElem?_cons_succ] at hi
          obtain ⟨entry, he, hf⟩ := hent j slot texture hi
          exact ⟨entry, he, by simpa using hf⟩

theorem fillSnapshot_mem (tbl : List TextureBarrierDesc)
    (calls : List (ResourceType × Texture)) (filled : List (ResourceType × Resource))
    (h : fillSnapshot tbl calls = some filled) (c : ResourceType × Resource) (hc : c ∈ filled) :
    ∃ entry, tbl[c.2.userArg]? = some entry ∧ c.2 = ⟨entry.after, c.2.userArg, entry.texture⟩ := by
  obtain ⟨hl, hent⟩ := fillSnapshot_entries tbl calls filled h
  obtain ⟨i, hi⟩ := List.mem_iff_getElem?.mp hc
  have hilt : i < calls.length := by
    rw [← hl]
    exact (List.getElem?_eq_some_iff.mp hi).1
  obtain ⟨entry, he, hf⟩ := hent i calls[i].1 calls[i].2 (List.getElem?_eq_getElem hilt)
  rw [hi] at hf
  have hceq : c = (calls[i].1, ⟨entry.after, calls[i].2, entry.texture⟩) := Option.some.inj hf
  rw [hceq]
  exact ⟨entry, he, rfl⟩

theorem fillSnapshot_mem_of_call (tbl : List TextureBarrierDesc)
    (calls : List (ResourceType × Texture)) (filled : List (ResourceType × Resource))
    (h : fillSnapshot tbl calls = some filled) (slot : ResourceType) (texture : Texture)
    (hc : (slot, texture) ∈ calls) :
    ∃ entry, tbl[texture]? = some entry ∧
      (slot, (⟨entry.after, texture, entry.texture⟩ : Resource)) ∈ filled := by
  obtain ⟨_, hent⟩ := fillSnapshot_entries tbl calls filled h
  obtain ⟨i, hi⟩ := List.mem_iff_getElem?.mp hc
  obtain ⟨entry, he, hf⟩ := hent i slot texture hi
  exact ⟨entry, he, List.mem_iff_getElem?.mpr ⟨i, hf⟩⟩

/-- C23: on a table that has an entry for every texture below
`BaseReadOnlyTexture`, `Denoise` fills every slot and hands the filled slots to
the denoiser; the resource of each slot carries the `after` state and the handle
of the table entry of the slot's texture as the table is at the call, with the
index of that entry as user argument; resources with the same user argument are
equal, so `IN_SIGNAL` and `OUT_SIGNAL` carry one resource, and so do
`IN_DIFF_CONFIDENCE` and `IN_SPEC_CONFIDENCE`. -/
theorem Denoise_passes_current_states (sh : NrdModeSH)
    (nrdDenoise : List (ResourceType × Resource) → ResourceSnapshot)
    (tbl : List TextureBarrierDesc)
    (hsize : Texture.BaseReadOnlyTexture sh ≤ tbl.length) :
    ∃ filled, fillSnapshot tbl (snapshotSlots sh) = some filled ∧
      Denoise sh nrdDenoise tbl =
        (if !(nrdDenoise filled).restoreInitialState then
          retrieveState tbl (nrdDenoise filled).unique
        else some tbl) ∧
      filled.length = (snapshotSlots sh).length ∧
      (∀ (i : Nat) (slot : ResourceType) (texture : Texture),
          (snapshotSlots sh)[i]? = some (slot, texture) →
        ∃ entry, tbl[texture]? = some entry ∧
          filled[i]? = some (slot, (⟨entry.after, texture, entry.texture⟩ : Resource))) ∧
      (∀ a ∈ filled, ∀ b ∈ filled, a.2.userArg = b.2.userArg → a.2 = b.2) ∧
      (∃ signal, (ResourceType.IN_SIGNAL, signal) ∈ filled ∧
        (ResourceType.OUT_SIGNAL, signal) ∈ filled) ∧
      (∃ confidence, (ResourceType.IN_DIFF_CONFIDENCE, confidence) ∈ filled ∧
        (ResourceType.IN_SPEC_CONFIDENCE, confidence) ∈ filled) := by
  obtain ⟨filled, hf⟩ := fillSnapshot_total tbl (snapshotSlots sh)
    (fun c hc => Nat.lt_of_lt_of_le (snapshotSlots_in_range sh c hc) hsize)
  obtain ⟨hl, hent⟩ := fillSnapshot_entries tbl _ filled hf
  refine ⟨filled, hf, ?_, hl, hent, ?_, ?_, ?_⟩
  · simp only [Denoise, hf]
  · intro a ha b hb hab
    obtain ⟨ea, hea, haeq⟩ := fillSnapshot_mem tbl _ filled hf a ha
    obtain ⟨eb, heb, hbeq⟩ := fillSnapshot_mem tbl _ filled hf b hb
    rw [hab, heb] at hea
    cases hea
    rw [haeq, hbeq, hab]
  · obtain ⟨e1, he1, hm1⟩ := fillSnapshot_mem_of_call tbl _ filled hf ResourceType.IN_SIGNAL
      Texture.Composed (by cases sh <;> decide)
    obtain ⟨e2, he2, hm2⟩ := fillSnapshot_mem_of_call tbl _ filled hf ResourceType.OUT_SIGNAL
      Texture.Composed (by cases sh <;> decide)
    rw [he1] at he2
    cases he2
    exact ⟨_, hm1, hm2⟩
  · obtain ⟨e1, he1, hm1⟩ := fillSnapshot_mem_of_call tbl _ filled hf
      ResourceType.IN_DIFF_CONFIDENCE Texture.Gradient_Pong (by cases sh <;> decide)
    obtain ⟨e2, he2, hm2⟩ := fillSnapshot_mem_of_call tbl _ filled hf
      ResourceType.IN_SPEC_CONFIDENCE Texture.Gradient_Pong (by cases sh <;> decide)
    rw [he1] at he2
    cases he2
    exact ⟨_, hm1, hm2⟩

/-- Witness of C23: the initial table, with a library call that restores the
initial state. -/
theorem Denoise_passes_current_states_witness :
    Texture.BaseReadOnlyTexture false ≤ sampleTable.length ∧
    ∃ filled, fillSnapshot sampleTable (snapshotSlots false) = some filled ∧
      Denoise false sampleNrdRestore sampleTable =
        (if !(sampleNrdRestore filled).restoreInitialState then
          retrieveState sampleTable (sampleNrdRestore filled).unique
        else some sampleTable) ∧
      filled.length = (snapshotSlots false).length ∧
      (∀ (i : Nat) (slot : ResourceType) (texture : Texture),
          (snapshotSlots false)[i]? = some (slot, texture) →
        ∃ entry, sampleTable[texture]? = some entry ∧
          filled[i]? = some (slot, (⟨entry.after, texture, entry.texture⟩ : Resource))) ∧
      (∀ a ∈ filled, ∀ b ∈ filled, a.2.userArg = b.2.userArg → a.2 = b.2) ∧
      (∃ signal, (ResourceType.IN_SIGNAL, signal) ∈ filled ∧
        (ResourceType.OUT_SIGNAL, signal) ∈ filled) ∧
      (∃ confidence, (ResourceType.IN_DIFF_CONFIDENCE, confidence) ∈ filled ∧
        (ResourceType.IN_SPEC_CONFIDENCE, confidence) ∈ filled) :=
  ⟨by decide, Denoise_passes_current_states false sampleNrdRestore sampleTable (by decide)⟩

/-! ## Requirements on entries no `CreateTexture` call has written -/

/-- C24 as stated fails: on the table as `resize` leaves it, where no state was
recorded for `Mv`, the requirement `{Mv, {SHADER_RESOURCE, SHADER_RESOURCE}}`
makes the call return the count 1 with one barrier, from the value-initialised
state and with a null handle; the call does not fail. -/
theorem BuildOptimizedTransitions_uninitialised_counterexample :
    sampleResizedTable[Texture.Mv]? =
      some ⟨0, ⟨AccessBits.NONE, Layout.UNDEFINED, StageBits.DEFAULT⟩,
        ⟨AccessBits.NONE, Layout.UNDEFINED, StageBits.DEFAULT⟩⟩ ∧
    (BuildOptimizedTransitions sampleResizedTable [readState Texture.Mv]
        emptyTransitions).map (fun r => (r.n, r.emitted)) =
      some (1, [⟨0, ⟨AccessBits.NONE, Layout.UNDEFINED, StageBits.DEFAULT⟩,
        ⟨AccessBits.SHADER_RESOURCE, Layout.SHADER_RESOURCE, StageBits.DEFAULT⟩⟩]) ∧
    BuildOptimizedTransitions sampleResizedTable [readState Texture.Mv] emptyTransitions ≠
      none := by
  decide

/-- C24, as amended: the call has no check for a state that was never recorded.
For a table and a requirement list that index inside the table and fit the
output array it returns a count; a requirement that finds the value-initialised
entry gets a barrier exactly when it asks for an access other than `NONE` or a
layout other than `UNDEFINED`, and the barrier written for it has a null
handle and the `before` state `{NONE, UNDEFINED}`. -/
theorem BuildOptimizedTransitions_uninitialised_entry (tbl : List TextureBarrierDesc)
    (states : List TextureState) (tr : List TextureBarrierDesc) (i : Nat) (state : TextureState)
    (hstate : states[i]? = some state)
    (hrange : ∀ s ∈ states, s.texture < tbl.length)
    (hlen : states.length ≤ MAX_TEXTURE_TRANSITIONS_NUM)
    (htr : tr.length = MAX_TEXTURE_TRANSITIONS_NUM)
    (huninit : currentAt tbl states tr i =
      some ⟨0, ⟨AccessBits.NONE, Layout.UNDEFINED, StageBits.DEFAULT⟩,
        ⟨AccessBits.NONE, Layout.UNDEFINED, StageBits.DEFAULT⟩⟩) :
    ∃ r r0, BuildOptimizedTransitions tbl states tr = some r ∧
      reachedAt tbl states tr i = some r0 ∧
      (emitsAt tbl states tr i = true ↔
        (state.after.access ≠ AccessBits.NONE ∨ state.after.layout ≠ Layout.UNDEFINED)) ∧
      (emitsAt tbl states tr i = true →
        r0.n < r.n ∧
        r.transitions[r0.n]? =
          some ⟨0, ⟨AccessBits.NONE, Layout.UNDEFINED, StageBits.DEFAULT⟩,
            ⟨state.after.access, state.after.layout, StageBits.DEFAULT⟩⟩) := by
  obtain ⟨hi, rfl⟩ := getElem_of_getElem? states i state hstate
  obtain ⟨r, hr⟩ := from_total states tbl tr 0 hrange (by omega)
  obtain ⟨r0, cur, h0, hcur, _, _, _, _, hem, _⟩ := reached_step tbl states tr i hi hrange hlen
  rw [huninit] at hcur
  cases hcur
  refine ⟨r, r0, hr, h0, ?_, ?_⟩
  · rw [hem, need_iff]
    constructor
    · rintro (⟨h | h⟩ | ⟨h, _⟩)
      · exact Or.inl (fun heq => h heq.symm)
      · exact Or.inr (fun heq => h heq.symm)
      · exact absurd h (by decide)
    · rintro (h | h)
      · exact Or.inl (Or.inl (fun heq => h heq.symm))
      · exact Or.inl (Or.inr (fun heq => h heq.symm))
  · intro hemit
    obtain ⟨rk, hrk, hn, htrans, _⟩ :=
      barrier_persists tbl states tr hrange hlen htr i hi r0 _ h0 huninit hemit
        (states.length - (i + 1)) (by omega)
    have hidx : i + 1 + (states.length - (i + 1)) = states.length := by omega
    rw [hidx, reached_length] at hrk
    have hrk' : rk = r := Option.some.inj (hrk.symm.trans hr)
    subst hrk'
    exact ⟨hn, htrans⟩

/-- Witness of C24 (amended): the requirement `{Mv, {SHADER_RESOURCE,
SHADER_RESOURCE}}` on the table as `resize` leaves it. -/
theorem BuildOptimizedTransitions_uninitialised_entry_witness :
    [readState Texture.Mv][0]? = some (readState Texture.Mv) ∧
    (∀ s ∈ [readState Texture.Mv], s.texture < sampleResizedTable.length) ∧
    [readState Texture.Mv].length ≤ MAX_TEXTURE_TRANSITIONS_NUM ∧
    emptyTransitions.length = MAX_TEXTURE_TRANSITIONS_NUM ∧
    currentAt sampleResizedTable [readState Texture.Mv] emptyTransitions 0 =
      some ⟨0, ⟨AccessBits.NONE, Layout.UNDEFINED, StageBits.DEFAULT⟩,
        ⟨AccessBits.NONE, Layout.UNDEFINED, StageBits.DEFAULT⟩⟩ ∧
    ∃ r r0, BuildOptimizedTransitions sampleResizedTable [readState Texture.Mv]
        emptyTransitions = some r ∧
      reachedAt sampleResizedTable [readState Texture.Mv] emptyTransitions 0 = some r0 ∧
      (emitsAt sampleResizedTable [readState Texture.Mv] emptyTransitions 0 = true ↔
        ((readState Texture.Mv).after.access ≠ AccessBits.NONE ∨
          (readState Texture.Mv).after.layout ≠ Layout.UNDEFINED)) ∧
      (emitsAt sampleResizedTable [readState Texture.Mv] emptyTransitions 0 = true →
        r0.n < r.n ∧
        r.transitions[r0.n]? =
          some ⟨0, ⟨AccessBits.NONE, Layout.UNDEFINED, StageBits.DEFAULT⟩,
            ⟨(readState Texture.Mv).after.access, (readState Texture.Mv).after.layout,
              StageBits.DEFAULT⟩⟩) :=
  ⟨by decide, by decide, by decide, by decide, by decide,
    BuildOptimizedTransitions_uninitialised_entry sampleResizedTable [readState Texture.Mv]
      emptyTransitions 0 (readState Texture.Mv)
      (by decide) (by decide) (by decide) (by decide) (by decide)⟩

/-! ## The confidence blur -/

/-- The loop started at iteration `i` for `remaining` iterations, on a table
that has entries for both gradient textures: it returns, records one dispatch
per iteration, iteration `i + k` binds the set of its parity with
`step = 1 + (i + k)`, and when its dispatch is recorded the table holds the
texture the set reads in shader-read state and the texture it writes in
shader-read-write state; the table left is the table of the last dispatch. -/
theorem confidenceBlurFrom_spec (remaining : Nat) :
    ∀ (tbl tr : List TextureBarrierDesc) (i : Nat), Texture.Gradient_Pong < tbl.length →
      ∃ out, confidenceBlurFrom tbl tr i remaining = some out ∧
        out.m_TextureStates.length = tbl.length ∧
        out.dispatches.length = remaining ∧
        (∀ (k : Nat) (d : BlurDispatch), out.dispatches[k]? = some d →
          d.step = 1 + (i + k) ∧
          d.descriptorSet = confidenceBlurDescriptorSet (i + k) ∧
          (∀ t ∈ d.descriptorSet.textures, currentAccessLayout d.m_TextureStates t =
            some (AccessBits.SHADER_RESOURCE, Layout.SHADER_RESOURCE)) ∧
          (∀ t ∈ d.descriptorSet.storageTextures, currentAccessLayout d.m_TextureStates t =
            some (AccessBits.SHADER_RESOURCE_STORAGE, Layout.SHADER_RESOURCE_STORAGE))) ∧
        (∀ d : BlurDispatch, out.dispatches[remaining - 1]? = some d →
          d.m_TextureStates = out.m_TextureStates) := by
  induction remaining with
  | zero =>
    intro tbl tr i _
    refine ⟨⟨tbl, tr, []⟩, rfl, rfl, rfl, ?_, ?_⟩
    · intro k d hd
      simp at hd
    · intro d hd
      simp at hd
  | succ remaining ih =>
    intro tbl tr i hsize
    have hping : Texture.Gradient_Ping < tbl.length := Nat.lt_trans (by decide) hsize
    have hin : ∀ s ∈ confidenceBlurTransitions i, s.texture < tbl.length := by
      intro s hs
      simp only [confidenceBlurTransitions, List.mem_cons, List.mem_singleton,
        List.not_mem_nil, or_false] at hs
      rcases hs with rfl | rfl <;> cases (i % 2 == 0) <;> assumption
    obtain ⟨r, hr⟩ := from_total (confidenceBlurTransitions i) tbl tr 0 hin
      (by simp [confidenceBlurTransitions, MAX_TEXTURE_TRANSITIONS_NUM])
    have hr' : BuildOptimizedTransitions tbl (confidenceBlurTransitions i) tr = some r := hr
    obtain ⟨hl, _, _, _⟩ := from_shape _ _ _ _ _ hr
    have hsat := from_satisfies (confidenceBlurTransitions i) tbl tr 0 r hr (by
      intro x hx y hy hxy
      simp only [confidenceBlurTransitions, List.mem_cons, List.mem_singleton,
        List.not_mem_nil, or_false] at hx hy
      rcases hx with rfl | rfl <;> rcases hy with rfl | rfl <;>
        cases hpar : (i % 2 == 0) <;> simp_all [readState, storageState] <;>
        exact absurd hxy (by decide))
    obtain ⟨rest, hrest, hrl, hrd, hrk, hrlast⟩ :=
      ih r.m_TextureStates r.transitions (i + 1) (by rw [hl]; exact hsize)
    refine ⟨⟨rest.m_TextureStates, rest.transitions,
      ⟨1 + i, confidenceBlurDescriptorSet i, r.emitted, r.m_TextureStates⟩ ::
        rest.dispatches⟩, ?_, ?_, ?_, ?_, ?_⟩
    · simp only [confidenceBlurFrom, hr', hrest]
    · simp only [hrl, hl]
    · simp only [List.length_cons, hrd]
    · intro k d hd
      cases k with
      | zero =>
        simp only [List.getElem?_cons_zero, Option.some.injEq] at hd
        subst hd
        refine ⟨rfl, rfl, ?_, ?_⟩
        · intro t ht
          simp only [confidenceBlurDescriptorSet] at ht
          cases hpar : (i % 2 == 0) <;>
            simp only [hpar, ConfidenceBlurPing, ConfidenceBlurPong, if_true,
              Bool.false_eq_true, if_false, List.mem_singleton] at ht <;>
            subst ht
          · exact hsat (readState Texture.Gradient_Pong)
              (by simp [confidenceBlurTransitions, hpar])
          · exact hsat (readState Texture.Gradient_Ping)
              (by simp [confidenceBlurTransitions, hpar])
        · intro t ht
          simp only [confidenceBlurDescriptorSet] at ht
          cases hpar : (i % 2 == 0) <;>
            simp only [hpar, ConfidenceBlurPing, ConfidenceBlurPong, if_true,
              Bool.false_eq_true, if_false, List.mem_singleton] at ht <;>
            subst ht
          · exact hsat (storageState Texture.Gradient_Ping)
              (by simp [confidenceBlurTransitions, hpar])
          · exact hsat (storageState Texture.Gradient_Pong)
              (by simp [confidenceBlurTransitions, hpar])
      | succ j =>
        simp only [List.getElem?_cons_succ] at hd
        obtain ⟨h1, h2, h3, h4⟩ := hrk j d hd
        have hidx : i + (j + 1) = i + 1 + j := by omega
        rw [hidx]
        exact ⟨h1, h2, h3, h4⟩
    · intro d hd
      cases remaining with
      | zero =>
        simp only [Nat.zero_add, Nat.sub_self, List.getElem?_cons_zero,
          Option.some.injEq] at hd
        subst hd
        simp only [confidenceBlurFrom, Option.some.injEq] at hrest
        rw [← hrest]
      | succ m =>
        have hidx : m + 1 + 1 - 1 = m + 1 := by omega
        rw [hidx, List.getElem?_cons_succ] at hd
        exact hrlast d (by simpa using hd)

/-- C25: on a table that has entries for both gradient textures the blur loop
returns after recording five dispatches; dispatch `k` has `step = 1 + k` and
binds `ConfidenceBlurPing` for even `k` and `ConfidenceBlurPong` for odd `k`,
with the texture the set reads in shader-read state and the texture it writes in
shader-read-write state when the dispatch is recorded; each dispatch after the
first reads the texture the dispatch before it writes and writes the one that
read; the first reads `Gradient_Ping`, the last writes `Gradient_Pong`, the
texture `Denoise` sets for `IN_DIFF_CONFIDENCE` and `IN_SPEC_CONFIDENCE`; and the
table left holds `Gradient_Pong` in shader-read-write state and `Gradient_Ping`
in shader-read state. -/
theorem confidenceBlur_alternates (tbl tr : List TextureBarrierDesc)
    (hsize : Texture.Gradient_Pong < tbl.length) :
    ∃ out, confidenceBlur tbl tr = some out ∧
      out.dispatches.length = 5 ∧
      (∀ (k : Nat) (d : BlurDispatch), out.dispatches[k]? = some d →
        d.step = 1 + k ∧
        d.descriptorSet = (if k % 2 = 0 then ConfidenceBlurPing else ConfidenceBlurPong) ∧
        (∀ t ∈ d.descriptorSet.textures, currentAccessLayout d.m_TextureStates t =
          some (AccessBits.SHADER_RESOURCE, Layout.SHADER_RESOURCE)) ∧
        (∀ t ∈ d.descriptorSet.storageTextures, currentAccessLayout d.m_TextureStates t =
          some (AccessBits.SHADER_RESOURCE_STORAGE, Layout.SHADER_RESOURCE_STORAGE))) ∧
      (∀ (k : Nat) (d next : BlurDispatch), out.dispatches[k]? = some d →
        out.dispatches[k + 1]? = some next →
        next.descriptorSet.textures = d.descriptorSet.storageTextures ∧
          next.descriptorSet.storageTextures = d.descriptorSet.textures) ∧
      (∃ first last, out.dispatches[0]? = some first ∧ out.dispatches[4]? = some last ∧
        first.descriptorSet.textures = [Texture.Gradient_Ping] ∧
        last.descriptorSet.storageTextures = [Texture.Gradient_Pong] ∧
        last.m_TextureStates = out.m_TextureStates) ∧
      (∀ sh, (ResourceType.IN_DIFF_CONFIDENCE, Texture.Gradient_Pong) ∈ snapshotSlots sh ∧
        (ResourceType.IN_SPEC_CONFIDENCE, Texture.Gradient_Pong) ∈ snapshotSlots sh) ∧
      currentAccessLayout out.m_TextureStates Texture.Gradient_Pong =
        some (AccessBits.SHADER_RESOURCE_STORAGE, Layout.SHADER_RESOURCE_STORAGE) ∧
      currentAccessLayout out.m_TextureStates Texture.Gradient_Ping =
        some (AccessBits.SHADER_RESOURCE, Layout.SHADER_RESOURCE) := by
  obtain ⟨out, hout, _, hlen, hk, hlast⟩ := confidenceBlurFrom_spec 5 tbl tr 0 hsize
  have hset : ∀ k : Nat, confidenceBlurDescriptorSet (0 + k) =
      (if k % 2 = 0 then ConfidenceBlurPing else ConfidenceBlurPong) := by
    intro k
    rw [Nat.zero_add]
    unfold confidenceBlurDescriptorSet
    rcases Nat.mod_two_eq_zero_or_one k with h | h <;> simp [h]
  have hk' : ∀ (k : Nat) (d : BlurDispatch), out.dispatches[k]? = some d →
      d.step = 1 + k ∧
      d.descriptorSet = (if k % 2 = 0 then ConfidenceBlurPing else ConfidenceBlurPong) ∧
      (∀ t ∈ d.descriptorSet.textures, currentAccessLayout d.m_TextureStates t =
        some (AccessBits.SHADER_RESOURCE, Layout.SHADER_RESOURCE)) ∧
      (∀ t ∈ d.descriptorSet.storageTextures, currentAccessLayout d.m_TextureStates t =
        some (AccessBits.SHADER_RESOURCE_STORAGE, Layout.SHADER_RESOURCE_STORAGE)) := by
    intro k d hd
    obtain ⟨h1, h2, h3, h4⟩ := hk k d hd
    rw [Nat.zero_add] at h1
    rw [hset] at h2
    exact ⟨h1, h2, h3, h4⟩
  have h0 : 0 < out.dispatches.length := by omega
  have h4 : 4 < out.dispatches.length := by omega
  obtain ⟨_, hs0, _, _⟩ := hk' 0 out.dispatches[0] (List.getElem?_eq_getElem h0)
  obtain ⟨_, hs4, hread4, hwrite4⟩ := hk' 4 out.dispatches[4] (List.getElem?_eq_getElem h4)
  have htbl4 := hlast out.dispatches[4] (List.getElem?_eq_getElem h4)
  have hs0' : (out.dispatches[0]).descriptorSet = ConfidenceBlurPing := by simpa using hs0
  have hs4' : (out.dispatches[4]).descriptorSet = ConfidenceBlurPing := by simpa using hs4
  refine ⟨out, hout, hlen, hk', ?_, ?_, ?_, ?_, ?_⟩
  · intro k d next hd hnext
    obtain ⟨_, hsd, _, _⟩ := hk' k d hd
    obtain ⟨_, hsn, _, _⟩ := hk' (k + 1) next hnext
    rw [hsd, hsn]
    rcases Nat.mod_two_eq_zero_or_one k with h | h
    · have h1 : (k + 1) % 2 = 1 := by omega
      simp [h, h1, ConfidenceBlurPing, ConfidenceBlurPong]
    · have h1 : (k + 1) % 2 = 0 := by omega
      simp [h, h1, ConfidenceBlurPing, ConfidenceBlurPong]
  · exact ⟨_, _, List.getElem?_eq_getElem h0, List.getElem?_eq_getElem h4,
      by rw [hs0']; rfl, by rw [hs4']; rfl, htbl4⟩
  · intro sh
    cases sh <;> decide
  · rw [← htbl4]
    exact hwrite4 Texture.Gradient_Pong (by rw [hs4']; simp [ConfidenceBlurPing])
  · rw [← htbl4]
    exact hread4 Texture.Gradient_Ping (by rw [hs4']; simp [ConfidenceBlurPing])

/-- Witness of C25: the blur loop on the initial table. Five dispatches with the
steps 1 to 5; the first is preceded by one barrier (`Gradient_Pong` to
shader-read-write), each later one by two. -/
theorem confidenceBlur_alternates_witness :
    Texture.Gradient_Pong < sampleTable.length ∧
    (confidenceBlur sampleTable emptyTransitions).map
        (fun out => out.dispatches.map (fun d => (d.step, d.barriers.length))) =
      some [(1, 1), (2, 2), (3, 2), (4, 2), (5, 2)] ∧
    ∃ out, confidenceBlur sampleTable emptyTransitions = some out ∧
      out.dispatches.length = 5 ∧
      currentAccessLayout out.m_TextureStates Texture.Gradient_Pong =
        some (AccessBits.SHADER_RESOURCE_STORAGE, Layout.SHADER_RESOURCE_STORAGE) ∧
      currentAccessLayout out.m_TextureStates Texture.Gradient_Ping =
        some (AccessBits.SHADER_RESOURCE, Layout.SHADER_RESOURCE) :=
  ⟨by decide, by decide,
    (confidenceBlur_alternates sampleTable emptyTransitions (by decide)).imp
      fun _ h => ⟨h.1, h.2.1, h.2.2.2.2.2.2.1, h.2.2.2.2.2.2.2⟩⟩

/-! ## The end of the frame -/

/-- C26: the blocks "Copy to back buffer" and "UI" record three barriers for
the swap-chain texture, in this order: from `{NONE, UNDEFINED}` to
`COPY_DESTINATION`, from `COPY_DESTINATION` to `COLOR_ATTACHMENT`, from
`COLOR_ATTACHMENT` to `{NONE, PRESENT}`; each starts, in access and layout,
from the state the one before it ends in. The first command is the barrier
batch that holds the barrier of `Final`, from the table's state to
`COPY_SOURCE`, and the copy from `Final` to the swap-chain texture follows it;
the table then holds `COPY_SOURCE` for `Final` and every other entry is
unchanged. -/
theorem present_barrier_chain (m_Textures : Texture → TextureHandle)
    (tbl : List TextureBarrierDesc) (swapChainTexture : TextureHandle)
    (prevState : TextureBarrierDesc)
    (hfinal : tbl[Texture.Final]? = some prevState)
    (hdistinct : prevState.texture ≠ swapChainTexture) :
    ∃ recorded, copyToBackBufferAndUi m_Textures tbl swapChainTexture = some recorded ∧
      barriersOf swapChainTexture recorded.commands =
        [ TextureBarrierFromUnknown swapChainTexture
            ⟨AccessBits.COPY_DESTINATION, Layout.COPY_DESTINATION, StageBits.DEFAULT⟩,
          uiBefore swapChainTexture,
          uiAfter swapChainTexture ] ∧
      chained (barriersOf swapChainTexture recorded.commands) = true ∧
      (barriersOf swapChainTexture recorded.commands).map
          (fun b => (b.before.access, b.before.layout)) =
        [ (AccessBits.NONE, Layout.UNDEFINED),
          (AccessBits.COPY_DESTINATION, Layout.COPY_DESTINATION),
          (AccessBits.COLOR_ATTACHMENT, Layout.COLOR_ATTACHMENT) ] ∧
      (barriersOf swapChainTexture recorded.commands).map
          (fun b => (b.after.access, b.after.layout)) =
        [ (AccessBits.COPY_DESTINATION, Layout.COPY_DESTINATION),
          (AccessBits.COLOR_ATTACHMENT, Layout.COLOR_ATTACHMENT),
          (AccessBits.NONE, Layout.PRESENT) ] ∧
      recorded.commands.take 2 =
        [ Command.CmdBarrier
            [ ⟨prevState.texture, prevState.after,
                ⟨AccessBits.COPY_SOURCE, Layout.COPY_SOURCE, StageBits.DEFAULT⟩⟩,
              TextureBarrierFromUnknown swapChainTexture
                ⟨AccessBits.COPY_DESTINATION, Layout.COPY_DESTINATION, StageBits.DEFAULT⟩ ],
          Command.CmdCopyTexture swapChainTexture (m_Textures Texture.Final) ] ∧
      currentAccessLayout recorded.m_TextureStates Texture.Final =
        some (AccessBits.COPY_SOURCE, Layout.COPY_SOURCE) ∧
      (∀ t : Texture, t ≠ Texture.Final → recorded.m_TextureStates[t]? = tbl[t]?) := by
  have hlt : Texture.Final < tbl.length := (List.getElem?_eq_some_iff.mp hfinal).1
  have hne : (prevState.texture == swapChainTexture) = false := by
    simpa using hdistinct
  refine ⟨_, (by simp only [copyToBackBufferAndUi, hfinal]; rfl), ?_, ?_, ?_, ?_, ?_, ?_, ?_⟩
  · simp [barriersOf, TextureBarrierFromState, TextureBarrierFromUnknown, uiBefore, uiAfter,
      hne, List.filter]
  · simp [barriersOf, TextureBarrierFromState, TextureBarrierFromUnknown, uiBefore, uiAfter,
      hne, List.filter, chained]
  · simp [barriersOf, TextureBarrierFromState, TextureBarrierFromUnknown, uiBefore, uiAfter,
      hne, List.filter]
  · simp [barriersOf, TextureBarrierFromState, TextureBarrierFromUnknown, uiBefore, uiAfter,
      hne, List.filter]
  · simp [TextureBarrierFromState]
  · simp only
    rw [currentAccessLayout_set_self _ _ _ hlt]
    rfl
  · intro t ht
    simp only
    exact List.getElem?_set_ne (Ne.symm ht)

/-- Witness of C26: the table after the pass "Final" of the first frame and a
swap-chain texture with the handle 100. -/
theorem present_barrier_chain_witness :
    sampleFinalTable[Texture.Final]? =
      some ⟨27, ⟨AccessBits.COPY_SOURCE, Layout.COPY_SOURCE, StageBits.DEFAULT⟩,
        ⟨AccessBits.SHADER_RESOURCE_STORAGE, Layout.SHADER_RESOURCE_STORAGE,
          StageBits.DEFAULT⟩⟩ ∧
    ∃ recorded, copyToBackBufferAndUi (fun t => t + 1) sampleFinalTable 100 = some recorded ∧
      barriersOf 100 recorded.commands =
        [ TextureBarrierFromUnknown 100
            ⟨AccessBits.COPY_DESTINATION, Layout.COPY_DESTINATION, StageBits.DEFAULT⟩,
          uiBefore 100,
          uiAfter 100 ] ∧
      chained (barriersOf 100 recorded.commands) = true ∧
      currentAccessLayout recorded.m_TextureStates Texture.Final =
        some (AccessBits.COPY_SOURCE, Layout.COPY_SOURCE) :=
  ⟨by decide,
    (present_barrier_chain (fun t => t + 1) sampleFinalTable 100
      ⟨27, ⟨AccessBits.COPY_SOURCE, Layout.COPY_SOURCE, StageBits.DEFAULT⟩,
        ⟨AccessBits.SHADER_RESOURCE_STORAGE, Layout.SHADER_RESOURCE_STORAGE,
          StageBits.DEFAULT⟩⟩ (by decide) (by decide)).imp
      fun _ h => ⟨h.1, h.2.1, h.2.2.1, h.2.2.2.2.2.2.1⟩⟩

/-! ## Frame pacing -/

theorem filter_range_length_le (p : Nat → Bool) (f : Nat) (hp : ∀ m, p m = true → f ≤ m) :
    ∀ n, ((List.range n).filter p).length ≤ n - f := by
  intro n
  induction n with
  | zero => simp
  | succ n ih =>
    rw [List.range_succ, List.filter_append, List.length_append]
    cases hpn : p n with
    | false =>
      simp only [List.filter, hpn, List.length_nil]
      omega
    | true =>
      have := hp n hpn
      simp only [List.filter, hpn, List.length_singleton]
      omega

theorem framesInFlight_le (frameIndex fenceValue : Nat) :
    framesInFlight frameIndex fenceValue ≤ frameIndex + 1 - fenceValue := by
  unfold framesInFlight
  apply filter_range_length_le
  intro m hm
  have h : fenceValue < (1 + m) % 2 ^ 32 := by simpa using hm
  have h2 : (1 + m) % 2 ^ 32 ≤ 1 + m := Nat.mod_le _ _
  omega

/-- C22: for a queue depth of at least 1 and a frame index `N` of 32 bits,
`LatencySleep` resets the command allocator of slot `N mod Q`, the slot
`RenderFrame` records frame `N` into; for `N < Q` it waits for the value 0, the
initial value of the fence; for `N >= Q` it waits for `1 + N - Q`, the value the
submission of frame `N - Q` signals, and frame `N - Q` recorded into the same
slot; and once the fence has reached the awaited value, the frames up to `N`
whose value it has not reached are at most `Q`. -/
theorem LatencySleep_paces_frames (queuedFrameNum frameIndex : Nat)
    (hnum : 1 ≤ queuedFrameNum) (hindex : frameIndex < 2 ^ 32) :
    ∃ sleep, LatencySleep queuedFrameNum frameIndex = some sleep ∧
      sleep.queuedFrameIndex = frameIndex % queuedFrameNum ∧
      (∃ current, RenderFrame.submission queuedFrameNum frameIndex = some current ∧
        current.queuedFrameIndex = sleep.queuedFrameIndex) ∧
      (frameIndex < queuedFrameNum → sleep.waitValue = frameFenceInitialValue) ∧
      (queuedFrameNum ≤ frameIndex →
        sleep.waitValue = 1 + frameIndex - queuedFrameNum ∧
        RenderFrame.submission queuedFrameNum (frameIndex - queuedFrameNum) =
          some ⟨sleep.queuedFrameIndex, sleep.waitValue⟩) ∧
      (∀ fenceValue, sleep.waitValue ≤ fenceValue →
        framesInFlight frameIndex fenceValue ≤ queuedFrameNum) := by
  have hne : queuedFrameNum ≠ 0 := by omega
  have hwait : queuedFrameNum ≤ frameIndex →
      ((1 + frameIndex) % 2 ^ 32 + 2 ^ 32 - queuedFrameNum % 2 ^ 32) % 2 ^ 32 =
        1 + frameIndex - queuedFrameNum := by
    intro hge
    norm_num at hindex ⊢
    omega
  refine ⟨_, (by simp only [LatencySleep, hne, if_false]; rfl), rfl, ?_, ?_, ?_, ?_⟩
  · exact ⟨_, (by simp only [RenderFrame.submission, hne, if_false]; rfl), rfl⟩
  · intro hlt
    have : ¬ frameIndex ≥ queuedFrameNum := by omega
    simp only [this, if_false, frameFenceInitialValue]
  · intro hge
    have hge' : frameIndex ≥ queuedFrameNum := hge
    simp only [hge', if_true, RenderFrame.submission, hne, if_false, hwait hge]
    refine ⟨trivial, ?_⟩
    have h1 : (frameIndex - queuedFrameNum) % queuedFrameNum = frameIndex % queuedFrameNum :=
      (Nat.mod_eq_sub_mod hge).symm
    have h2 : (1 + (frameIndex - queuedFrameNum)) % 2 ^ 32 =
        1 + frameIndex - queuedFrameNum := by
      norm_num at hindex ⊢
      omega
    rw [h1, h2]
  · intro fenceValue hfence
    have hle := framesInFlight_le frameIndex fenceValue
    by_cases hge : queuedFrameNum ≤ frameIndex
    · have hge' : frameIndex ≥ queuedFrameNum := hge
      simp only [hge', if_true, hwait hge] at hfence
      omega
    · omega

/-- Witness of C22: three queued frames, frame 7. -/
theorem LatencySleep_paces_frames_witness :
    LatencySleep 3 7 = some ⟨1, 5⟩ ∧
    RenderFrame.submission 3 4 = some ⟨1, 5⟩ ∧
    ∃ sleep, LatencySleep 3 7 = some sleep ∧
      sleep.queuedFrameIndex = 7 % 3 ∧
      (∃ current, RenderFrame.submission 3 7 = some current ∧
        current.queuedFrameIndex = sleep.queuedFrameIndex) ∧
      (7 < 3 → sleep.waitValue = frameFenceInitialValue) ∧
      (3 ≤ 7 →
        sleep.waitValue = 1 + 7 - 3 ∧
        RenderFrame.submission 3 (7 - 3) = some ⟨sleep.queuedFrameIndex, sleep.waitValue⟩) ∧
      (∀ fenceValue, sleep.waitValue ≤ fenceValue → framesInFlight 7 fenceValue ≤ 3) :=
  ⟨by decide, by decide, LatencySleep_paces_frames 3 7 (by decide) (by norm_num)⟩

/-! ## The reset factor and the scaled counts -/

end NRDSample
